import Mathlib

/-!
# CampusFinder: the matching service

A shallow embedding of `services/matchingService.js` (class `MatchingService`) together with
the part of `models/Item.js` it reads, followed by the properties proved about it.

Conventions of the embedding.

* A JavaScript string is a `String`; the string operations work on its list of code points
  (`String.toList`).  Only `length` is sensitive to the UTF-16 representation, and it is modelled
  by `utf16Length`.
* `String.prototype.toLowerCase` is a parameter `toLowerCase` of every function that calls it, so
  each theorem holds for the real Unicode lower-casing; `asciiLowerCase` is the instance used
  on concrete ASCII inputs.
* JavaScript numbers that hold scores are exact rationals (`ℚ`); a `Date` is its time value in
  milliseconds (`Int`), and `none` stands for a missing date (`new Date(undefined)`, whose time
  value is `NaN`).
* A property that may be `undefined` on a stored record is an `Option`.
* A call that throws (a `TypeError`, a rejected query) returns `none`.
* The stored collections are the lists of a `Db`; an operation that writes returns the new `Db`.
  What an operation takes from outside (readings of the clock, generated ids, the storage
  operations that fail) is an explicit `MatchEnv`.
-/

namespace CampusFinder

/-! ## JavaScript string primitives -/

/-- The characters matched by `\s` and removed by `trim()`: ECMAScript `WhiteSpace` and
`LineTerminator`. -/
def isWhiteSpace (c : Char) : Bool :=
  let n := c.toNat
  n = 0x09 || n = 0x0A || n = 0x0B || n = 0x0C || n = 0x0D || n = 0x20 || n = 0xA0 ||
  n = 0x1680 || (0x2000 ≤ n && n ≤ 0x200A) || n = 0x2028 || n = 0x2029 || n = 0x202F ||
  n = 0x205F || n = 0x3000 || n = 0xFEFF

/-- The `length` of a JavaScript string: the number of UTF-16 code units. -/
def utf16Length (s : List Char) : Nat :=
  (s.map (fun c => if c.toNat < 0x10000 then 1 else 2)).sum

/-- The method `String.prototype.trim`. -/
def trim (s : List Char) : List Char :=
  ((s.dropWhile isWhiteSpace).reverse.dropWhile isWhiteSpace).reverse

/-- The scan behind `s.split(/\s+/)`; `prevWs` tells whether the previous character was white
space, so that a run of white space separates only once. -/
def splitGo : Bool → List Char → List (List Char)
  | _, [] => [[]]
  | prevWs, c :: cs =>
    if isWhiteSpace c then
      (if prevWs then splitGo true cs else [] :: splitGo true cs)
    else
      match splitGo false cs with
      | w :: ws => (c :: w) :: ws
      | [] => [[c]]

/-- The call `s.split(/\s+/)`: the pieces between maximal runs of white space (an empty first or
last piece when the string starts or ends with white space, `[""]` for the empty string). -/
def splitWhitespace (s : List Char) : List (List Char) :=
  splitGo false s

/-- The call `s.includes(t)`: `t` occurs in `s` as a contiguous substring. -/
def includes (s t : List Char) : Bool :=
  s.tails.any (fun u => t.isPrefixOf u)

/-- ASCII lower-casing: what `toLowerCase` does on text whose only upper-case letters are
`A`–`Z`. -/
def asciiLowerCase (s : List Char) : List Char :=
  s.map Char.toLower

/-- A template-literal substitution `${x}` of a possibly missing string property. -/
def interpolate : Option String → List Char
  | some s => s.toList
  | none => "undefined".toList

/-! ## The item record (`models/Item.js`) -/

/-- The `type` of an item. -/
inductive ItemType
  | lost
  | found
  deriving DecidableEq, Repr

/-- The `status` of an item. -/
inductive ItemStatus
  | active
  | claimed
  | resolved
  | pending_approval
  deriving DecidableEq, Repr

/-- The value of `item.location` as the scorer may meet it: nothing, a plain string, or an object
whose `foundLocation` may be missing. -/
inductive Location
  | absent
  | text (label : String)
  | record (foundLocation : Option String)
  deriving DecidableEq, Repr

/-- An entry of `matchedItems`. -/
structure MatchedItem where
  item : Nat
  score : ℚ
  matchedAt : Int
  deriving DecidableEq

/-- An item document. -/
structure Item where
  _id : Nat
  title : Option String
  description : Option String
  category : Option String
  type : ItemType
  location : Location
  date : Option Int
  status : ItemStatus := ItemStatus.active
  postedBy : Nat := 0
  matchScore : ℚ := 0
  matchedItems : List MatchedItem := []
  deriving DecidableEq

/-! ## The other stored records (`models/User.js`, `Notification.js`, `Chat.js`, `ChatMessage.js`) -/

/-- A user document, as far as `populate('postedBy', 'name email')` reads it. -/
structure User where
  _id : Nat
  name : String
  deriving DecidableEq, Repr

/-- The `type` of a notification. -/
inductive NotificationType
  | match_found
  | message_received
  | item_claimed
  | item_resolved
  | admin_announcement
  | chat_started
  deriving DecidableEq, Repr

/-- A notification document; `matchedItemId`, `originalItemId` and `matchScore` are the entries
of its `metadata` written by the matching service, `conversationId` and `messageId` those
written by the chat routes. -/
structure Notification where
  user : Nat
  type : NotificationType
  item : Option Nat := none
  sender : Option Nat := none
  matchedItemId : Option Nat := none
  originalItemId : Option Nat := none
  matchScore : Option ℚ := none
  conversationId : Option String := none
  messageId : Option String := none
  deriving DecidableEq

/-- The `status` of a conversation. -/
inductive ChatStatus
  | active
  | resolved
  | closed
  | archived
  deriving DecidableEq, Repr

/-- A participant of a conversation.  The role is kept as the string the code writes; the schema
admits only `owner` and `finder`. -/
structure Participant where
  userId : Nat
  username : String
  role : String
  isActive : Bool := true
  lastSeen : Int := 0
  deriving DecidableEq, Repr

/-- The `resolution` of a conversation. -/
structure Resolution where
  resolvedAt : Option Int := none
  resolvedBy : Option Nat := none
  resolutionNotes : Option String := none
  itemReturned : Bool := false
  deriving DecidableEq, Repr

/-- A conversation document; `totalMessages` and `unreadCount` are its `metadata`.  The time
fields that the schema fills with `Date.now` when they are not given read `0` here. -/
structure Chat where
  conversationId : String
  item : Nat
  participants : List Participant
  status : ChatStatus := ChatStatus.active
  lastActivity : Int := 0
  resolution : Resolution := {}
  totalMessages : Nat := 0
  unreadCount : Nat := 0
  deriving DecidableEq, Repr

/-- The `type` of a chat message. -/
inductive MessageType
  | text
  | system
  | image
  | file
  deriving DecidableEq, Repr

/-- The `status` of a chat message. -/
inductive MessageStatus
  | sent
  | delivered
  | read
  deriving DecidableEq, Repr

/-- An entry of the `readBy` list of a chat message. -/
structure ReadReceipt where
  userId : Nat
  readAt : Int
  deriving DecidableEq, Repr

/-- A chat message document. -/
structure ChatMessage where
  messageId : String
  conversationId : String
  senderId : Nat
  senderUsername : String
  text : String
  type : MessageType := MessageType.text
  status : MessageStatus := MessageStatus.sent
  readBy : List ReadReceipt := []
  isDeleted : Bool := false
  deriving DecidableEq, Repr

/-- The stored collections. -/
structure Db where
  items : List Item
  users : List User
  notifications : List Notification := []
  chats : List Chat := []
  messages : List ChatMessage := []

/-- The storage operations of one `processMatch` call that may fail; a flag set to `true` makes
the operation throw without writing. -/
structure Faults where
  checkExisting : Bool := false
  link1 : Bool := false
  link2 : Bool := false
  notify1 : Bool := false
  notify2 : Bool := false
  chatFind : Bool := false
  chatSave : Bool := false
  welcomeSave : Bool := false
  deriving DecidableEq, Repr

/-- What the environment supplies to one `processMatch` call: the two readings of the clock
(`new Date()` in each `updateItemMatches`), the generated conversation and message ids, and the
storage faults. -/
structure MatchEnv where
  linkTime1 : Int
  linkTime2 : Int
  conversationId : String
  messageId : String
  faults : Faults := {}
  deriving DecidableEq, Repr

/-! ## `MatchingService` -/

namespace MatchingService

/-- Minimum similarity score for a match. -/
def matchThreshold : ℚ := 7 / 10

/-- Weight of the location factor. -/
def locationWeight : ℚ := 3 / 10

/-- Weight of the date factor. -/
def dateWeight : ℚ := 2 / 10

/-- Weight of the category factor. -/
def categoryWeight : ℚ := 3 / 10

/-- Weight of the keyword factor. -/
def keywordWeight : ℚ := 2 / 10

/-- The vocabulary `campusLocations` of `calculateLocationSimilarity`. -/
def campusLocations : List (List Char) :=
  ["library", "cafeteria", "canteen", "lab", "laboratory", "classroom",
   "auditorium", "gym", "parking", "gate", "entrance", "office", "admin"].map String.toList

/-- The stop words `commonWords` of `calculateKeywordSimilarity`. -/
def commonWords : List (List Char) :=
  ["the", "a", "an", "and", "or", "but", "in", "on", "at", "to", "for", "of", "with",
   "by"].map String.toList

/-- JavaScript falsiness of a location value (`!location`): missing, or the empty string; an
object is always truthy. -/
def locationFalsy : Location → Bool
  | Location.absent => true
  | Location.text label => label.toList.isEmpty
  | Location.record _ => false

/-- The value of `location.foundLocation || location` when it is a string.  A plain string has no
`foundLocation` property, so it stands for itself; an object stands for its non-empty
`foundLocation`; otherwise the value is the object itself, which has no `toLowerCase` method. -/
def locationLabel : Location → Option (List Char)
  | Location.absent => none
  | Location.text label => some label.toList
  | Location.record (some f) => if f.toList.isEmpty then none else some f.toList
  | Location.record none => none

/-- The two nested loops of `calculateLocationSimilarity` that count `commonWords`. -/
def countCommonWords (loc1Words loc2Words : List (List Char)) : Nat :=
  loc1Words.foldl
    (fun count word1 =>
      loc2Words.foldl
        (fun count word2 =>
          if word1 = word2 ∧ word1 ∈ campusLocations then count + 1 else count)
        count)
    0

/-- The scoring of two normalized location strings (the body of `calculateLocationSimilarity`
after `loc1` and `loc2` are computed). -/
def scoreLocations (loc1 loc2 : List Char) : ℚ :=
  if loc1 = loc2 then 1
  else
    let loc1Words := splitWhitespace loc1
    let loc2Words := splitWhitespace loc2
    let commonWords := countCommonWords loc1Words loc2Words
    if commonWords > 0 then min (8 / 10) ((commonWords : ℚ) * (3 / 10))
    else if includes loc1 loc2 || includes loc2 loc1 then 6 / 10
    else 0

/-- The method `calculateLocationSimilarity(location1, location2)`; `none` is the `TypeError`
raised when a location object carries no `foundLocation`. -/
def calculateLocationSimilarity (toLowerCase : List Char → List Char)
    (location1 location2 : Location) : Option ℚ :=
  if locationFalsy location1 || locationFalsy location2 then some 0
  else
    match locationLabel location1, locationLabel location2 with
    | some l1, some l2 => some (scoreLocations (trim (toLowerCase l1)) (trim (toLowerCase l2)))
    | _, _ => none

/-- The method `calculateDateSimilarity(date1, date2)`.  With a missing date the difference is
`NaN`, every comparison fails and the last tier is returned. -/
def calculateDateSimilarity (date1 date2 : Option Int) : ℚ :=
  match date1, date2 with
  | some t1, some t2 =>
    let timeDiff : ℚ := |((t1 - t2 : Int) : ℚ)|
    let daysDiff : ℚ := timeDiff / (1000 * 60 * 60 * 24)
    if daysDiff ≤ 1 then 1
    else if daysDiff ≤ 3 then 8 / 10
    else if daysDiff ≤ 7 then 6 / 10
    else if daysDiff ≤ 14 then 4 / 10
    else 2 / 10
  | _, _ => 2 / 10

/-- The keyword list of an item: title and description joined by a space, lower-cased, split on
white space, without the words of at most two code units and without the stop words. -/
def keywords (toLowerCase : List Char → List Char) (item : Item) : List (List Char) :=
  let text := toLowerCase (interpolate item.title ++ [' '] ++ interpolate item.description)
  (splitWhitespace text).filter (fun word => decide (utf16Length word > 2) && !commonWords.contains word)

/-- The method `calculateKeywordSimilarity(item1, item2)`: the Jaccard similarity of the two
keyword sets (`List.dedup` plays the part of `new Set`, of which only the size is read). -/
def calculateKeywordSimilarity (toLowerCase : List Char → List Char) (item1 item2 : Item) : ℚ :=
  let words1 := keywords toLowerCase item1
  let words2 := keywords toLowerCase item2
  if words1.length = 0 ∨ words2.length = 0 then 0
  else
    let set1 := words1.dedup
    let set2 := words2.dedup
    let intersection := set1.filter (fun x => decide (x ∈ set2))
    let union := (set1 ++ set2).dedup
    (intersection.length : ℚ) / (union.length : ℚ)

/-- The method `calculateSimilarity(item1, item2)`; `none` when the location factor raises. -/
def calculateSimilarity (toLowerCase : List Char → List Char) (item1 item2 : Item) : Option ℚ :=
  let totalScore : ℚ := 0
  let weightSum : ℚ := 0
  let totalScore := if item1.category = item2.category then totalScore + categoryWeight else totalScore
  let weightSum := weightSum + categoryWeight
  match calculateLocationSimilarity toLowerCase item1.location item2.location with
  | none => none
  | some locationScore =>
    let totalScore := totalScore + locationScore * locationWeight
    let weightSum := weightSum + locationWeight
    let dateScore := calculateDateSimilarity item1.date item2.date
    let totalScore := totalScore + dateScore * dateWeight
    let weightSum := weightSum + dateWeight
    let keywordScore := calculateKeywordSimilarity toLowerCase item1 item2
    let totalScore := totalScore + keywordScore * keywordWeight
    let weightSum := weightSum + keywordWeight
    some (if weightSum > 0 then totalScore / weightSum else 0)

/-- An entry of the array built by `calculateMatchScores`. -/
structure ScoredMatch where
  item : Item
  score : ℚ
  deriving DecidableEq

/-- The loop of `calculateMatchScores`: score every candidate in turn and keep those that reach
the threshold. -/
def collectMatches (toLowerCase : List Char → List Char) (newItem : Item) :
    List Item → Option (List ScoredMatch)
  | [] => some []
  | potentialMatch :: rest =>
    match calculateSimilarity toLowerCase newItem potentialMatch with
    | none => none
    | some score =>
      match collectMatches toLowerCase newItem rest with
      | none => none
      | some matchList =>
        some (if score ≥ matchThreshold then { item := potentialMatch, score := score } :: matchList
              else matchList)

/-- The method `calculateMatchScores(newItem, potentialMatches)`: the kept candidates, sorted by the
comparator `b.score - a.score` (`Array.prototype.sort` is stable, as is insertion sort), cut to
the first five. -/
def calculateMatchScores (toLowerCase : List Char → List Char) (newItem : Item)
    (potentialMatches : List Item) : Option (List ScoredMatch) :=
  match collectMatches toLowerCase newItem potentialMatches with
  | none => none
  | some matchList => some ((matchList.insertionSort (fun a b => a.score ≥ b.score)).take 5)

/-- The filter of the query built by `findPotentialMatches`, for a subject with time value
`itemDate`. -/
def matchesQuery (newItem : Item) (itemDate : Int) (doc : Item) : Bool :=
  let oppositeType := if newItem.type = ItemType.lost then ItemType.found else ItemType.lost
  let dateRange : Int := 7 * 24 * 60 * 60 * 1000
  let startDate := itemDate - dateRange
  let endDate := itemDate + dateRange
  decide (doc.type = oppositeType) && decide (doc.status = ItemStatus.active) &&
  decide (doc._id ≠ newItem._id) &&
  (match doc.date with
   | some d => decide (startDate ≤ d) && decide (d ≤ endDate)
   | none => false) &&
  (match newItem.category with
   | some c => if c.toList.isEmpty then true
               else if c ≠ "other" then decide (doc.category = newItem.category) else true
   | none => true)

/-- The method `findPotentialMatches(newItem)` over the stored items, in storage order.  A subject
without a date yields Invalid Date bounds, which the query layer refuses (`none`). -/
def findPotentialMatches (store : List Item) (newItem : Item) : Option (List Item) :=
  match newItem.date with
  | none => none
  | some itemDate => some ((store.filter (matchesQuery newItem itemDate)).take 50)

/-! ### Persisting a match -/

/-- The lookup `Item.findById(id)`. -/
def findById (items : List Item) (id : Nat) : Option Item :=
  items.find? (fun doc => decide (doc._id = id))

/-- The populated `postedBy` of an item: the user document, or nothing (`null`) when no such user
is stored. -/
def poster (db : Db) (item : Item) : Option User :=
  db.users.find? (fun u => decide (u._id = item.postedBy))

/-- The method `checkExistingMatch(itemId1, itemId2)`. -/
def checkExistingMatch (db : Db) (itemId1 itemId2 : Nat) : Bool :=
  match findById db.items itemId1 with
  | none => false
  | some item1 => item1.matchedItems.any (fun link => decide (link.item = itemId2))

/-- The update of `updateItemMatches` applied to one document: `$push` a link, `$set` the
`matchScore`. -/
def pushMatch (matchedItemId : Nat) (score : ℚ) (now : Int) (doc : Item) : Item :=
  { doc with
    matchedItems := doc.matchedItems ++ [{ item := matchedItemId, score := score, matchedAt := now }]
    matchScore := score }

/-- The method `updateItemMatches(itemId, matchedItemId, score)`: `findByIdAndUpdate` changes the
first document with that id, and nothing when there is none; `now` is the reading of
`new Date()`. -/
def updateItemMatches (items : List Item) (itemId matchedItemId : Nat) (score : ℚ) (now : Int) :
    List Item :=
  match items with
  | [] => []
  | doc :: rest =>
    if doc._id = itemId then pushMatch matchedItemId score now doc :: rest
    else doc :: updateItemMatches rest itemId matchedItemId score now

/-- The method `sendMatchNotifications(item1, item2, score)`: the state it leaves, and whether it
completed (`false` when it threw).  Reading `postedBy._id` of an item without poster throws
before anything is written. -/
def sendMatchNotifications (env : MatchEnv) (db : Db) (item1 item2 : Item) (score : ℚ) :
    Db × Bool :=
  match poster db item1, poster db item2 with
  | some user1, some user2 =>
    if env.faults.notify1 then (db, false)
    else
      let db1 : Db := { db with notifications := db.notifications ++
        [{ user := user1._id, type := NotificationType.match_found, item := some item1._id,
           sender := some user2._id, matchedItemId := some item2._id,
           originalItemId := some item1._id, matchScore := some score }] }
      if env.faults.notify2 then (db1, false)
      else
        ({ db1 with notifications := db1.notifications ++
            [{ user := user2._id, type := NotificationType.match_found, item := some item2._id,
               sender := some user1._id, matchedItemId := some item1._id,
               originalItemId := some item2._id, matchScore := some score }] }, true)
  | _, _ => (db, false)

/-- The query of `createMatchChat` for an existing conversation: anchored to either item, active,
with either poster among its participants. -/
def existingChat (db : Db) (item1 item2 : Item) (user1 user2 : User) : Bool :=
  db.chats.any (fun chat =>
    (decide (chat.item = item1._id) || decide (chat.item = item2._id)) &&
    decide (chat.status = ChatStatus.active) &&
    chat.participants.any (fun p => decide (p.userId = user1._id) || decide (p.userId = user2._id)))

/-- The validation run by `chat.save()`: the role of every participant belongs to the schema
enum `['owner', 'finder']`, every username is present, and the conversation id is not in use. -/
def chatValid (db : Db) (chat : Chat) : Bool :=
  chat.participants.all (fun p =>
    (decide (p.role = "owner") || decide (p.role = "finder")) && !p.username.toList.isEmpty) &&
  !db.chats.any (fun other => decide (other.conversationId = chat.conversationId))

/-- The validation run by `save()` on a chat message: sender name and text are present, the text
has at most 1000 code units, and the message id is not in use. -/
def messageValid (db : Db) (message : ChatMessage) : Bool :=
  !message.senderUsername.toList.isEmpty && !message.text.toList.isEmpty &&
  decide (utf16Length message.text.toList ≤ 1000) &&
  !db.messages.any (fun other => decide (other.messageId = message.messageId))

/-- The text of the welcome message of `createMatchChat`. -/
def welcomeText : String :=
  "Hello! Our system found a potential match between your items. Let's verify the details to see if this is your lost/found item."

/-- The conversation record built by `createMatchChat` (`new Chat({...})`). -/
def matchChat (env : MatchEnv) (item1 item2 : Item) (user1 user2 : User) : Chat :=
  { conversationId := env.conversationId
    item := item1._id
    participants :=
      [{ userId := user1._id, username := user1.name, role := "owner" },
       { userId := user2._id, username := user2.name,
         role := if item2.type = ItemType.lost then "finder" else "claimer" }]
    status := ChatStatus.active }

/-- The method `createMatchChat(item1, item2)`.  Every failure inside it is caught and logged, so
it always completes; `generateDisplayName` only computes two names that are never used. -/
def createMatchChat (env : MatchEnv) (db : Db) (item1 item2 : Item) : Db :=
  match poster db item1, poster db item2 with
  | some user1, some user2 =>
    if env.faults.chatFind then db
    else if existingChat db item1 item2 user1 user2 then db
    else
      let chat := matchChat env item1 item2 user1 user2
      if env.faults.chatSave || !chatValid db chat then db
      else
        let db1 : Db := { db with chats := db.chats ++ [chat] }
        let welcomeMessage : ChatMessage :=
          { messageId := env.messageId, conversationId := chat.conversationId,
            senderId := user1._id, senderUsername := user1.name, text := welcomeText,
            type := MessageType.system }
        if env.faults.welcomeSave || !messageValid db1 welcomeMessage then db1
        else { db1 with messages := db1.messages ++ [welcomeMessage] }
  | _, _ => db

/-- The method `processMatch(newItem, matchedItem, score)`: the state it leaves.  Every exception
is caught and logged, so the call always completes. -/
def processMatch (env : MatchEnv) (db : Db) (newItem matchedItem : Item) (score : ℚ) : Db :=
  if env.faults.checkExisting then db
  else if checkExistingMatch db newItem._id matchedItem._id then db
  else if env.faults.link1 then db
  else
    let db1 : Db :=
      { db with items := updateItemMatches db.items newItem._id matchedItem._id score env.linkTime1 }
    if env.faults.link2 then db1
    else
      let db2 : Db :=
        { db1 with
          items := updateItemMatches db1.items matchedItem._id newItem._id score env.linkTime2 }
      match sendMatchNotifications env db2 newItem matchedItem score with
      | (db3, false) => db3
      | (db3, true) => createMatchChat env db3 newItem matchedItem

/-- The loop of `processMatches` over the strong matches; the `k`-th call of `processMatch` runs
in the environment `env k`. -/
def processStrongMatches (env : Nat → MatchEnv) (newItem : Item) :
    Nat → Db → List ScoredMatch → Db
  | _, db, [] => db
  | k, db, m :: rest =>
    processStrongMatches env newItem (k + 1) (processMatch (env k) db newItem m.item m.score) rest

/-- The method `processMatches(newItemId)`.  A raised exception (a rejected query, a score that
cannot be computed) is caught and logged and leaves the state as it is. -/
def processMatches (toLowerCase : List Char → List Char) (env : Nat → MatchEnv) (db : Db)
    (newItemId : Nat) : Db :=
  match findById db.items newItemId with
  | none => db
  | some newItem =>
    match findPotentialMatches db.items newItem with
    | none => db
    | some potentialMatches =>
      if potentialMatches.length = 0 then db
      else
        match calculateMatchScores toLowerCase newItem potentialMatches with
        | none => db
        | some strongMatches =>
          if strongMatches.length = 0 then db
          else processStrongMatches env newItem 0 db strongMatches

/-- The value returned by `processManualMatch`: `success`, and the score when there is one. -/
structure ManualMatchResult where
  success : Bool
  score : Option ℚ
  deriving DecidableEq

/-- The method `processManualMatch(itemId1, itemId2, userId)`: the state it leaves and the value
it returns.  The code never reads `userId`, which is left out. -/
def processManualMatch (toLowerCase : List Char → List Char) (env : MatchEnv) (db : Db)
    (itemId1 itemId2 : Nat) : Db × ManualMatchResult :=
  match findById db.items itemId1, findById db.items itemId2 with
  | some item1, some item2 =>
    match calculateSimilarity toLowerCase item1 item2 with
    | none => (db, { success := false, score := none })
    | some score =>
      (processMatch env db item1 item2 score, { success := true, score := some score })
  | _, _ => (db, { success := false, score := none })

/-- The loop of `runGlobalMatching` over the active items; the `i`-th call of `processMatches`
runs in the environments `env i`. -/
def processActiveItems (toLowerCase : List Char → List Char) (env : Nat → Nat → MatchEnv) :
    Nat → Db → List Item → Db
  | _, db, [] => db
  | i, db, item :: rest =>
    processActiveItems toLowerCase env (i + 1) (processMatches toLowerCase (env i) db item._id) rest

/-- The method `runGlobalMatching()`. -/
def runGlobalMatching (toLowerCase : List Char → List Char) (env : Nat → Nat → MatchEnv)
    (db : Db) : Db :=
  let activeItems := (db.items.filter (fun doc => decide (doc.status = ItemStatus.active))).take 100
  processActiveItems toLowerCase env 0 db activeItems

/-- An entry of the list returned by `getUserMatchSuggestions`. -/
structure Suggestion where
  originalItem : Nat
  matchedItem : Item
  matchScore : ℚ
  matchedAt : Int
  deriving DecidableEq

/-- The comparator of `getUserMatchSuggestions` read as an order: `a` may stand before `b` when
`(a, b) => ...` is not positive. -/
def suggestionBefore (a b : Suggestion) : Prop :=
  if b.matchScore ≠ a.matchScore then b.matchScore - a.matchScore ≤ 0
  else ((b.matchedAt - a.matchedAt : Int) : ℚ) ≤ 0

instance : DecidableRel suggestionBefore := fun a b => by
  unfold suggestionBefore
  exact inferInstance

/-- The method `getUserMatchSuggestions(userId)`; a storage failure is caught and yields the
empty list. -/
def getUserMatchSuggestions (db : Db) (userId : Nat) (storageFails : Bool) : List Suggestion :=
  if storageFails then []
  else
    let userItems := db.items.filter (fun doc =>
      decide (doc.postedBy = userId) && decide (doc.status = ItemStatus.active) &&
      !doc.matchedItems.isEmpty)
    let suggestions := userItems.flatMap (fun item =>
      item.matchedItems.filterMap (fun link =>
        match findById db.items link.item with
        | some matched =>
          some { originalItem := item._id, matchedItem := matched, matchScore := link.score,
                 matchedAt := link.matchedAt }
        | none => none))
    suggestions.insertionSort suggestionBefore

end MatchingService

/-! ## The chat routes (`routes/chats.js`) -/

namespace ChatRoutes

open MatchingService

/-- What the environment supplies to one request: two successive readings of the clock and the
generated conversation and message ids.  The storage operations of the routes are taken to
succeed; a request still fails on a missing document or a refused validation. -/
structure RouteEnv where
  now : Int
  later : Int
  conversationId : String
  messageId : String
  deriving DecidableEq, Repr

/-- The answer of `POST /chat/start`. -/
inductive StartResult
  | badRequest
  | notFound
  | serverError
  | existing (conversationId : String)
  | started (conversationId : String)
  deriving DecidableEq, Repr

/-- The answer of the other routes: `200`, `400`, `404` or `500`. -/
inductive RouteResult
  | ok
  | badRequest
  | notFound
  | serverError
  deriving DecidableEq, Repr

/-- The filter `'participants.userId': userId`. -/
def isParticipant (chat : Chat) (userId : Nat) : Bool :=
  chat.participants.any (fun p => decide (p.userId = userId))

/-- The query of `POST /chat/start` for an existing conversation. -/
def startQuery (itemId userId : Nat) (chat : Chat) : Bool :=
  decide (chat.item = itemId) && isParticipant chat userId &&
  (decide (chat.status = ChatStatus.active) || decide (chat.status = ChatStatus.resolved))

/-- The query of `POST /chat/send`: the conversation, with the user among its participants, in
status `active`. -/
def sendQuery (conversationId : String) (userId : Nat) (chat : Chat) : Bool :=
  decide (chat.conversationId = conversationId) && isParticipant chat userId &&
  decide (chat.status = ChatStatus.active)

/-- The query of the history, read, resolve and close routes: the conversation, with the user
among its participants, in any status. -/
def memberQuery (conversationId : String) (userId : Nat) (chat : Chat) : Bool :=
  decide (chat.conversationId = conversationId) && isParticipant chat userId

/-- The call `Chat.findByIdAndUpdate(chat._id, ...)` on the document that `Chat.findOne(query)`
returned: the first conversation that satisfies the query is updated. -/
def updateChat (query : Chat → Bool) (update : Chat → Chat) : List Chat → List Chat
  | [] => []
  | chat :: rest =>
    if query chat then update chat :: rest else chat :: updateChat query update rest

/-- The word written for an item type in a template literal. -/
def typeName : ItemType → String
  | ItemType.lost => "lost"
  | ItemType.found => "found"

/-- The text of the welcome message of `POST /chat/start`. -/
def startWelcomeText (item : Item) : String :=
  "Hello! I found your " ++ typeName item.type ++ " item \"" ++ String.mk (interpolate item.title)
    ++ "\". Let's discuss the details."

/-- The conversation record built by `POST /chat/start` (`new Chat({...})`). -/
def startedChat (env : RouteEnv) (itemId : Nat) (itemOwner currentUser : User) : Chat :=
  { conversationId := env.conversationId
    item := itemId
    participants :=
      [{ userId := itemOwner._id, username := itemOwner.name, role := "owner" },
       { userId := currentUser._id, username := currentUser.name, role := "finder" }]
    status := ChatStatus.active
    lastActivity := env.now }

/-- The route `POST /chat/start`: the state it leaves and its answer. -/
def startChat (env : RouteEnv) (db : Db) (itemId : Option Nat) (userId : Nat) :
    Db × StartResult :=
  match itemId with
  | none => (db, StartResult.badRequest)
  | some itemId =>
    match findById db.items itemId with
    | none => (db, StartResult.notFound)
    | some item =>
      match poster db item with
      | none => (db, StartResult.serverError)
      | some itemOwner =>
        if itemOwner._id = userId then (db, StartResult.badRequest)
        else
          match db.chats.find? (startQuery itemId userId) with
          | some existingChat => (db, StartResult.existing existingChat.conversationId)
          | none =>
            match db.users.find? (fun u => decide (u._id = userId)) with
            | none => (db, StartResult.serverError)
            | some currentUser =>
              let chat := startedChat env itemId itemOwner currentUser
              if !chatValid db chat then (db, StartResult.serverError)
              else
                let db1 : Db := { db with chats := db.chats ++ [chat] }
                let welcomeMessage : ChatMessage :=
                  { messageId := env.messageId, conversationId := env.conversationId,
                    senderId := itemOwner._id, senderUsername := itemOwner.name,
                    text := startWelcomeText item, type := MessageType.system }
                if !messageValid db1 welcomeMessage then (db1, StartResult.serverError)
                else
                  let db2 : Db := { db1 with messages := db1.messages ++ [welcomeMessage] }
                  let db3 : Db :=
                    { db2 with
                      chats := updateChat
                        (fun c => decide (c.conversationId = env.conversationId))
                        (fun c => { c with totalMessages := c.totalMessages + 1,
                                           lastActivity := env.later })
                        db2.chats }
                  let db4 : Db :=
                    { db3 with
                      notifications := db3.notifications ++
                        [{ user := itemOwner._id, type := NotificationType.chat_started,
                           item := some itemId, sender := some currentUser._id,
                           conversationId := some env.conversationId },
                         { user := currentUser._id, type := NotificationType.chat_started,
                           item := some itemId, sender := some itemOwner._id,
                           conversationId := some env.conversationId }] }
                  (db4, StartResult.started env.conversationId)

/-- The route `POST /chat/send`: the state it leaves and its answer. -/
def sendMessage (env : RouteEnv) (db : Db) (conversationId text : String) (userId : Nat) :
    Db × RouteResult :=
  if conversationId.toList.isEmpty || text.toList.isEmpty then (db, RouteResult.badRequest)
  else
    match db.chats.find? (sendQuery conversationId userId) with
    | none => (db, RouteResult.notFound)
    | some chat =>
      match db.users.find? (fun u => decide (u._id = userId)) with
      | none => (db, RouteResult.serverError)
      | some user =>
        let message : ChatMessage :=
          { messageId := env.messageId, conversationId := conversationId, senderId := userId,
            senderUsername := user.name, text := String.mk (trim text.toList),
            type := MessageType.text, status := MessageStatus.sent }
        if !messageValid db message then (db, RouteResult.serverError)
        else
          let db1 : Db := { db with messages := db.messages ++ [message] }
          let db2 : Db :=
            { db1 with
              chats := updateChat (sendQuery conversationId userId)
                (fun c => { c with totalMessages := c.totalMessages + 1,
                                   lastActivity := env.now })
                db1.chats }
          match chat.participants.find? (fun p => decide (p.userId ≠ userId)) with
          | some otherParticipant =>
            ({ db2 with
               notifications := db2.notifications ++
                 [{ user := otherParticipant.userId, type := NotificationType.message_received,
                    conversationId := some conversationId, messageId := some env.messageId }] },
             RouteResult.ok)
          | none => (db2, RouteResult.ok)

/-- The `updateMany` of the history and read routes: every message of the conversation that the
user did not send and has not read yet gets a receipt and the status `read`. -/
def markMessagesRead (messages : List ChatMessage) (conversationId : String) (userId : Nat)
    (now : Int) : List ChatMessage :=
  messages.map (fun message =>
    if message.conversationId = conversationId ∧ message.senderId ≠ userId ∧
        message.readBy.all (fun receipt => decide (receipt.userId ≠ userId)) = true then
      { message with
        readBy := message.readBy ++ [{ userId := userId, readAt := now }]
        status := MessageStatus.read }
    else message)

/-- The route `GET /chat/:conversationId`: the state it leaves, its answer and the messages it
returns. -/
def fetchHistory (env : RouteEnv) (db : Db) (conversationId : String) (userId : Nat) :
    Db × RouteResult × List ChatMessage :=
  match db.chats.find? (memberQuery conversationId userId) with
  | none => (db, RouteResult.notFound, [])
  | some _ =>
    let messages := db.messages.filter (fun message =>
      decide (message.conversationId = conversationId) && !message.isDeleted)
    let db1 : Db :=
      { db with messages := markMessagesRead db.messages conversationId userId env.now }
    let db2 : Db :=
      { db1 with
        chats := updateChat (memberQuery conversationId userId)
          (fun c => { c with
            participants := c.participants.map (fun p =>
              if p.userId = userId then { p with lastSeen := env.later } else p) })
          db1.chats }
    let db3 : Db :=
      { db2 with
        chats := updateChat (memberQuery conversationId userId)
          (fun c => { c with unreadCount := 0 }) db2.chats }
    (db3, RouteResult.ok, messages)

/-- The route `PUT /chat/:conversationId/read`: the state it leaves and its answer. -/
def markRead (env : RouteEnv) (db : Db) (conversationId : String) (userId : Nat) :
    Db × RouteResult :=
  match db.chats.find? (memberQuery conversationId userId) with
  | none => (db, RouteResult.notFound)
  | some _ =>
    let db1 : Db :=
      { db with messages := markMessagesRead db.messages conversationId userId env.now }
    let db2 : Db :=
      { db1 with
        chats := updateChat (memberQuery conversationId userId)
          (fun c => { c with unreadCount := 0 }) db1.chats }
    (db2, RouteResult.ok)

/-- The text of the system message of the resolve route. -/
def resolveText (user : User) (itemReturned : Bool) : String :=
  "✅ " ++ user.name ++ " marked this conversation as resolved. " ++
    (if itemReturned then "Item has been returned." else "Item return pending.")

/-- The text of the system message of the close route. -/
def closeText (user : User) : String :=
  "🔒 " ++ user.name ++ " closed this conversation."

/-- The route `PUT /chat/:conversationId/resolve`: the state it leaves and its answer. -/
def resolveChat (env : RouteEnv) (db : Db) (conversationId : String) (userId : Nat)
    (resolutionNotes : Option String) (itemReturned : Bool) : Db × RouteResult :=
  match db.chats.find? (memberQuery conversationId userId) with
  | none => (db, RouteResult.notFound)
  | some chat =>
    let db1 : Db :=
      { db with
        chats := updateChat (memberQuery conversationId userId)
          (fun c => { c with
            status := ChatStatus.resolved
            resolution :=
              { resolvedAt := some env.now, resolvedBy := some userId,
                resolutionNotes := some (resolutionNotes.getD ""), itemReturned := itemReturned }
            lastActivity := env.later })
          db.chats }
    match db1.users.find? (fun u => decide (u._id = userId)) with
    | none => (db1, RouteResult.serverError)
    | some user =>
      let resolveMessage : ChatMessage :=
        { messageId := env.messageId, conversationId := conversationId, senderId := userId,
          senderUsername := user.name, text := resolveText user itemReturned,
          type := MessageType.system }
      if !messageValid db1 resolveMessage then (db1, RouteResult.serverError)
      else
        let db2 : Db := { db1 with messages := db1.messages ++ [resolveMessage] }
        match chat.participants.find? (fun p => decide (p.userId ≠ userId)) with
        | some otherParticipant =>
          ({ db2 with
             notifications := db2.notifications ++
               [{ user := otherParticipant.userId, type := NotificationType.item_resolved,
                  item := some chat.item, sender := some userId,
                  conversationId := some conversationId }] },
           RouteResult.ok)
        | none => (db2, RouteResult.ok)

/-- The route `PUT /chat/:conversationId/close`: the state it leaves and its answer. -/
def closeChat (env : RouteEnv) (db : Db) (conversationId : String) (userId : Nat) :
    Db × RouteResult :=
  match db.chats.find? (memberQuery conversationId userId) with
  | none => (db, RouteResult.notFound)
  | some _ =>
    let db1 : Db :=
      { db with
        chats := updateChat (memberQuery conversationId userId)
          (fun c => { c with status := ChatStatus.closed, lastActivity := env.now })
          db.chats }
    match db1.users.find? (fun u => decide (u._id = userId)) with
    | none => (db1, RouteResult.serverError)
    | some user =>
      let closeMessage : ChatMessage :=
        { messageId := env.messageId, conversationId := conversationId, senderId := userId,
          senderUsername := user.name, text := closeText user, type := MessageType.system }
      if !messageValid db1 closeMessage then (db1, RouteResult.serverError)
      else ({ db1 with messages := db1.messages ++ [closeMessage] }, RouteResult.ok)

/-- One step of the conversation engine: a send, fetch-history, mark-read, resolve or close
request, with any arguments, in any environment. -/
inductive ChatStep : Db → Db → Prop
  | send (env : RouteEnv) (db : Db) (conversationId text : String) (userId : Nat) :
      ChatStep db (sendMessage env db conversationId text userId).1
  | fetchHistory (env : RouteEnv) (db : Db) (conversationId : String) (userId : Nat) :
      ChatStep db (ChatRoutes.fetchHistory env db conversationId userId).1
  | markRead (env : RouteEnv) (db : Db) (conversationId : String) (userId : Nat) :
      ChatStep db (ChatRoutes.markRead env db conversationId userId).1
  | resolve (env : RouteEnv) (db : Db) (conversationId : String) (userId : Nat)
      (resolutionNotes : Option String) (itemReturned : Bool) :
      ChatStep db (resolveChat env db conversationId userId resolutionNotes itemReturned).1
  | close (env : RouteEnv) (db : Db) (conversationId : String) (userId : Nat) :
      ChatStep db (closeChat env db conversationId userId).1

/-- One step of the conversation engine with creation: a conversation is created by
`createMatchChat` or by the start-chat route, or one of the five requests is served. -/
inductive EngineStep : Db → Db → Prop
  | matched (env : MatchEnv) (db : Db) (item1 item2 : Item) :
      EngineStep db (createMatchChat env db item1 item2)
  | start (env : RouteEnv) (db : Db) (itemId : Option Nat) (userId : Nat) :
      EngineStep db (startChat env db itemId userId).1
  | request (db db2 : Db) (step : ChatStep db db2) : EngineStep db db2

/-- The number of receipts of a user on a message. -/
def receiptCount (message : ChatMessage) (userId : Nat) : Nat :=
  message.readBy.countP (fun receipt => decide (receipt.userId = userId))

/-- The user is an active participant of the conversation: one of its participant entries carries
the user's id and the flag `isActive`. -/
def isActiveParticipant (chat : Chat) (userId : Nat) : Bool :=
  chat.participants.any (fun p => decide (p.userId = userId) && p.isActive)

/-- Every participant entry of every stored conversation carries `isActive: true`, the default
of the schema. -/
def participantsActive (db : Db) : Prop :=
  ∀ chat ∈ db.chats, ∀ p ∈ chat.participants, p.isActive = true

/-- A status in which a conversation is over: `resolved` or `closed`. -/
def isOver (status : ChatStatus) : Prop :=
  status = ChatStatus.resolved ∨ status = ChatStatus.closed

end ChatRoutes

namespace MatchingService

/-! ## Notions used to state the properties -/

/-- The number of pairs (a word occurrence of the first label, a word occurrence of the second
label) that are equal campus-location words. -/
def commonPairs (loc1Words loc2Words : List (List Char)) : Nat :=
  (loc1Words.map (fun word1 =>
    loc2Words.countP (fun word2 => decide (word1 = word2 ∧ word1 ∈ campusLocations)))).sum

/-- The number of campus-location words that two word lists have in common, each word counted
once. -/
def sharedVocabularyTokens (loc1Words loc2Words : List (List Char)) : Nat :=
  (loc1Words.dedup.filter
    (fun word => decide (word ∈ loc2Words) && decide (word ∈ campusLocations))).length

/-- The distance between two time values, in days. -/
def daysApart (t1 t2 : Int) : ℚ :=
  |((t1 - t2 : Int) : ℚ)| / (1000 * 60 * 60 * 24)

/-- One day in milliseconds. -/
def dayMs : Int := 1000 * 60 * 60 * 24

/-- The candidates whose score reaches the threshold, each paired with its score, in the order
of the candidate list. -/
def qualifying (toLowerCase : List Char → List Char) (newItem : Item) (candidates : List Item) :
    List ScoredMatch :=
  candidates.filterMap (fun candidate =>
    match calculateSimilarity toLowerCase newItem candidate with
    | some score =>
      if matchThreshold ≤ score then some { item := candidate, score := score } else none
    | none => none)

/-- The type opposite to a given one. -/
def oppositeType : ItemType → ItemType
  | ItemType.lost => ItemType.found
  | ItemType.found => ItemType.lost

/-- Two dates are both present and at most seven days apart. -/
def withinSevenDays (date1 date2 : Option Int) : Bool :=
  match date1, date2 with
  | some d, some t => decide (|d - t| ≤ 7 * dayMs)
  | _, _ => false

/-- A category is present: a non-empty string. -/
def categoryPresent : Option String → Bool
  | some c => !c.toList.isEmpty
  | none => false

/-- The conditions on a stored item to be a candidate for a subject: opposite type, active,
another id, a date within seven days of the subject's, and the subject's category when the
subject has one other than "other". -/
def satisfiesConditions (subject doc : Item) : Bool :=
  decide (doc.type = oppositeType subject.type) && decide (doc.status = ItemStatus.active) &&
  decide (doc._id ≠ subject._id) && withinSevenDays doc.date subject.date &&
  (!(categoryPresent subject.category && decide (subject.category ≠ some "other")) ||
    decide (doc.category = subject.category))

/-- The number of links to `targetId` held by the stored item `itemId`. -/
def linkCount (db : Db) (itemId targetId : Nat) : Nat :=
  match findById db.items itemId with
  | some doc => doc.matchedItems.countP (fun link => decide (link.item = targetId))
  | none => 0

/-- The stored item `itemId` holds the link `link`. -/
def holdsLink (db : Db) (itemId : Nat) (link : MatchedItem) : Prop :=
  ∃ doc, findById db.items itemId = some doc ∧ link ∈ doc.matchedItems

/-- No stored item links to itself and no stored item links twice to the same target. -/
def linksWellFormed (db : Db) : Prop :=
  ∀ doc ∈ db.items,
    (∀ link ∈ doc.matchedItems, link.item ≠ doc._id) ∧
      (doc.matchedItems.map (fun link => link.item)).Nodup

/-- The states reachable from `start` by calls of `processMatches`, `runGlobalMatching` and
`processManualMatch`, each in any environment. -/
inductive Reachable (toLowerCase : List Char → List Char) (start : Db) : Db → Prop
  | start : Reachable toLowerCase start start
  | processMatches (env : Nat → MatchEnv) (db : Db) (newItemId : Nat) :
      Reachable toLowerCase start db →
      Reachable toLowerCase start (MatchingService.processMatches toLowerCase env db newItemId)
  | runGlobalMatching (env : Nat → Nat → MatchEnv) (db : Db) :
      Reachable toLowerCase start db →
      Reachable toLowerCase start (MatchingService.runGlobalMatching toLowerCase env db)
  | processManualMatch (env : MatchEnv) (db : Db) (itemId1 itemId2 : Nat) :
      Reachable toLowerCase start db →
      Reachable toLowerCase start
        (MatchingService.processManualMatch toLowerCase env db itemId1 itemId2).1

/-! ## Sample records -/

/-- A lost wallet reported on 2024-01-01. -/
def blackWallet : Item :=
  { _id := 1, title := some "black wallet", description := some "leather bifold",
    category := some "electronics", type := ItemType.lost,
    location := Location.record (some "Library 2nd floor"), date := some 1704067200000 }

/-- A found textbook reported on 2024-03-01. -/
def chemistryTextbook : Item :=
  { _id := 2, title := some "chemistry textbook", description := some "organic edition",
    category := some "books", type := ItemType.found,
    location := Location.record (some "Sports Complex"), date := some 1709251200000 }

/-- An identity card whose title and description hold only words of two letters. -/
def idCard : Item :=
  { _id := 3, title := some "ID", description := some "My ID", category := some "id_card",
    type := ItemType.lost, location := Location.record (some "Main Gate"),
    date := some 1704067200000 }

/-- Lost keys, day 0. -/
def keysLost : Item :=
  { _id := 4, title := some "house keys", description := some "silver bunch",
    category := some "keys", type := ItemType.lost,
    location := Location.record (some "Main Gate"), date := some 0 }

/-- Found keys, day 1, described in other words. -/
def keysFound : Item :=
  { _id := 5, title := some "keyring", description := some "three brass",
    category := some "keys", type := ItemType.found,
    location := Location.record (some "Main Gate"), date := some 86400000 }

/-- A stored record whose location object has no `foundLocation`. -/
def noFoundLocation : Item :=
  { _id := 6, title := some "umbrella", description := some "blue folding",
    category := some "accessories", type := ItemType.found,
    location := Location.record none, date := some 1704067200000 }

/-- A stored record without a date. -/
def noDate : Item :=
  { _id := 7, title := some "umbrella", description := some "blue folding",
    category := some "accessories", type := ItemType.lost,
    location := Location.record (some "Main Gate"), date := none }

/-- A record whose location names the gate twice. -/
def gateTwice : Location := Location.record (some "Gate 2 near Main Gate")

/-- A record whose location names the gate once. -/
def mainGate : Location := Location.record (some "Main Gate")

/-- A lost item stored without a category. -/
def uncategorized : Item :=
  { _id := 8, title := some "bunch of keys", description := some "silver ring",
    category := none, type := ItemType.lost,
    location := Location.record (some "Main Gate"), date := some 0 }

/-- A user who lost keys. -/
def alice : User := { _id := 1, name := "Alice" }

/-- A user who found keys. -/
def bob : User := { _id := 2, name := "Bob" }

/-- The lost keys, posted by Alice. -/
def lostKeys : Item := { keysLost with postedBy := 1 }

/-- The found keys, posted by Bob. -/
def foundKeys : Item := { keysFound with postedBy := 2 }

/-- A store with the lost and the found keys, without links, notifications or conversations. -/
def keysDb : Db := { items := [lostKeys, foundKeys], users := [alice, bob] }

/-- A failure-free environment whose two clock readings differ by one millisecond. -/
def calmEnv : MatchEnv :=
  { linkTime1 := 1000, linkTime2 := 1001, conversationId := "chat_1", messageId := "msg_1" }

/-- A second set of lost keys, posted by Bob. -/
def spareKeys : Item :=
  { _id := 9, title := some "spare keys", description := some "silver bunch",
    category := some "keys", type := ItemType.lost,
    location := Location.record (some "Main Gate"), date := some 0, postedBy := 2 }

/-- A store with two lost items and the textbook. -/
def lostDb : Db := { items := [lostKeys, spareKeys, chemistryTextbook], users := [alice, bob] }

/-- An environment in which the second link write fails. -/
def linkFaultEnv : MatchEnv := { calmEnv with faults := { link2 := true } }

/-- An environment in which the first notification write fails. -/
def notifyFaultEnv : MatchEnv := { calmEnv with faults := { notify1 := true } }

/-- Found keys posted by Alice, who also posted the lost keys. -/
def aliceFound : Item := { keysFound with postedBy := 1 }

/-- A store in which the lost and the found keys have the same poster. -/
def sameUserDb : Db := { items := [lostKeys, aliceFound], users := [alice, bob] }

/-- The store of the lost and found keys after `createMatchChat(foundKeys, lostKeys)`: one
conversation, `chat_1`, between Bob and Alice. -/
def matchedDb : Db := createMatchChat calmEnv keysDb foundKeys lostKeys

end MatchingService

namespace ChatRoutes

open MatchingService

/-- The environment of a first request. -/
def routeEnv : RouteEnv :=
  { now := 2000, later := 2001, conversationId := "chat_2", messageId := "msg_2" }

/-- The environment of a later request. -/
def routeEnv2 : RouteEnv :=
  { now := 3000, later := 3001, conversationId := "chat_3", messageId := "msg_3" }

/-- The environment of a third request. -/
def routeEnv3 : RouteEnv :=
  { now := 4000, later := 4001, conversationId := "chat_4", messageId := "msg_4" }

/-- The matched store after Bob resolved the conversation. -/
def resolvedDb : Db :=
  (resolveChat routeEnv matchedDb "chat_1" 2 (some "returned at the gate") true).1

end ChatRoutes

namespace MatchingService

/-! ## Auxiliary facts -/

/-- The inner loop adds to the running count the number of words of the second label that equal
`word1`, provided `word1` is a campus location. -/
theorem innerLoop_eq (word1 : List Char) (loc2Words : List (List Char)) (count : Nat) :
    loc2Words.foldl
        (fun count word2 =>
          if word1 = word2 ∧ word1 ∈ campusLocations then count + 1 else count)
        count
      = count + loc2Words.countP (fun word2 => decide (word1 = word2 ∧ word1 ∈ campusLocations)) := by
  induction loc2Words generalizing count with
  | nil => simp
  | cons w ws ih =>
    rw [List.foldl_cons, ih, List.countP_cons]
    by_cases h : word1 = w ∧ word1 ∈ campusLocations
    · rw [if_pos h, if_pos (decide_eq_true h)]; omega
    · rw [if_neg h, if_neg (by simpa using h)]; omega

theorem outerLoop_eq (loc1Words loc2Words : List (List Char)) (count : Nat) :
    loc1Words.foldl
        (fun count word1 =>
          loc2Words.foldl
            (fun count word2 =>
              if word1 = word2 ∧ word1 ∈ campusLocations then count + 1 else count)
            count)
        count
      = count + commonPairs loc1Words loc2Words := by
  induction loc1Words generalizing count with
  | nil => simp [commonPairs]
  | cons w ws ih =>
    rw [List.foldl_cons, ih, innerLoop_eq]
    simp only [commonPairs, List.map_cons, List.sum_cons]
    omega

theorem countCommonWords_eq (loc1Words loc2Words : List (List Char)) :
    countCommonWords loc1Words loc2Words = commonPairs loc1Words loc2Words := by
  unfold countCommonWords
  rw [outerLoop_eq]
  simp

theorem commonPairs_nil_right (l : List (List Char)) : commonPairs l [] = 0 := by
  induction l with
  | nil => rfl
  | cons w ws ih =>
    simp only [commonPairs, List.map_cons, List.sum_cons, List.countP_nil, zero_add] at ih ⊢
    exact ih

theorem commonPairs_cons_right (l1 l2 : List (List Char)) (b : List Char) :
    commonPairs l1 (b :: l2)
      = l1.countP (fun word1 => decide (b = word1 ∧ b ∈ campusLocations)) + commonPairs l1 l2 := by
  induction l1 with
  | nil => rfl
  | cons w ws ih =>
    have hstep : commonPairs (w :: ws) (b :: l2)
        = (b :: l2).countP (fun word2 => decide (w = word2 ∧ w ∈ campusLocations))
          + commonPairs ws (b :: l2) := by
      simp [commonPairs]
    have hstep2 : commonPairs (w :: ws) l2
        = l2.countP (fun word2 => decide (w = word2 ∧ w ∈ campusLocations))
          + commonPairs ws l2 := by
      simp [commonPairs]
    rw [hstep, hstep2, ih, List.countP_cons, List.countP_cons]
    by_cases h : w = b
    · subst h
      by_cases hv : w ∈ campusLocations
      · simp [hv]; omega
      · simp [hv]
    · have h2 : ¬ b = w := fun e => h e.symm
      simp [h, h2]; omega

theorem commonPairs_comm (l1 l2 : List (List Char)) : commonPairs l1 l2 = commonPairs l2 l1 := by
  induction l2 with
  | nil => rw [commonPairs_nil_right]; rfl
  | cons b l2 ih =>
    rw [commonPairs_cons_right, ih]
    simp [commonPairs]

theorem countCommonWords_comm (l1 l2 : List (List Char)) :
    countCommonWords l1 l2 = countCommonWords l2 l1 := by
  rw [countCommonWords_eq, countCommonWords_eq, commonPairs_comm]

theorem scoreLocations_comm (loc1 loc2 : List Char) :
    scoreLocations loc1 loc2 = scoreLocations loc2 loc1 := by
  unfold scoreLocations
  by_cases h : loc1 = loc2
  · subst h; rfl
  · have h2 : ¬ loc2 = loc1 := fun e => h e.symm
    simp only [h, h2, if_false]
    rw [countCommonWords_comm (splitWhitespace loc1), Bool.or_comm]

theorem calculateLocationSimilarity_comm (toLowerCase : List Char → List Char)
    (location1 location2 : Location) :
    calculateLocationSimilarity toLowerCase location1 location2
      = calculateLocationSimilarity toLowerCase location2 location1 := by
  unfold calculateLocationSimilarity
  rw [Bool.or_comm]
  split
  · rfl
  · cases h1 : locationLabel location1 <;> cases h2 : locationLabel location2 <;>
      simp [scoreLocations_comm]

theorem calculateDateSimilarity_comm (date1 date2 : Option Int) :
    calculateDateSimilarity date1 date2 = calculateDateSimilarity date2 date1 := by
  cases date1 <;> cases date2 <;> simp only [calculateDateSimilarity]
  rename_i t1 t2
  have h : |((t1 - t2 : Int) : ℚ)| = |((t2 - t1 : Int) : ℚ)| := by
    push_cast
    exact abs_sub_comm _ _
  rw [h]

/-- The size of the `intersection` set is the cardinality of the intersection. -/
theorem intersection_length (l1 l2 : List (List Char)) :
    ((l1.dedup).filter (fun x => decide (x ∈ l2.dedup))).length
      = (l1.toFinset ∩ l2.toFinset).card := by
  have hnd : ((l1.dedup).filter (fun x => decide (x ∈ l2.dedup))).Nodup :=
    (List.nodup_dedup l1).filter _
  rw [← List.toFinset_card_of_nodup hnd]
  congr 1
  ext x
  simp

/-- The size of the `union` set is the cardinality of the union. -/
theorem union_length (l1 l2 : List (List Char)) :
    ((l1.dedup ++ l2.dedup).dedup).length = (l1.toFinset ∪ l2.toFinset).card := by
  rw [← List.card_toFinset]
  congr 1
  ext x
  simp

theorem calculateKeywordSimilarity_comm (toLowerCase : List Char → List Char) (item1 item2 : Item) :
    calculateKeywordSimilarity toLowerCase item1 item2
      = calculateKeywordSimilarity toLowerCase item2 item1 := by
  unfold calculateKeywordSimilarity
  simp only [intersection_length, union_length]
  rw [Finset.inter_comm, Finset.union_comm]
  by_cases h1 : (keywords toLowerCase item1).length = 0 <;>
    by_cases h2 : (keywords toLowerCase item2).length = 0 <;> simp [h1, h2]

/-- The weighted sum computed by `calculateSimilarity`, with the constant denominator `1`
divided out. -/
theorem calculateSimilarity_eq (toLowerCase : List Char → List Char) (item1 item2 : Item) :
    calculateSimilarity toLowerCase item1 item2
      = (calculateLocationSimilarity toLowerCase item1.location item2.location).map
          (fun locationScore =>
            (if item1.category = item2.category then 3 / 10 else 0)
              + locationScore * (3 / 10)
              + calculateDateSimilarity item1.date item2.date * (2 / 10)
              + calculateKeywordSimilarity toLowerCase item1 item2 * (2 / 10)) := by
  unfold calculateSimilarity
  cases calculateLocationSimilarity toLowerCase item1.location item2.location with
  | none => rfl
  | some locationScore =>
    simp only [Option.map_some', categoryWeight, locationWeight, dateWeight, keywordWeight]
    have hw : (0 : ℚ) + 3 / 10 + 3 / 10 + 2 / 10 + 2 / 10 = 1 := by norm_num
    rw [hw, if_pos (by norm_num : (1 : ℚ) > 0), div_one]
    by_cases hc : item1.category = item2.category
    · simp only [hc, if_true, zero_add]
    · simp only [hc, if_false]

theorem scoreLocations_range (loc1 loc2 : List Char) :
    0 ≤ scoreLocations loc1 loc2 ∧ scoreLocations loc1 loc2 ≤ 1 := by
  unfold scoreLocations
  by_cases h : loc1 = loc2
  · simp [h]
  · simp only [h, if_false]
    by_cases hc : countCommonWords (splitWhitespace loc1) (splitWhitespace loc2) > 0
    · simp only [hc, if_true]
      have hpos : (0 : ℚ) ≤ (countCommonWords (splitWhitespace loc1) (splitWhitespace loc2) : ℚ) :=
        Nat.cast_nonneg _
      constructor
      · exact le_min (by norm_num) (by positivity)
      · exact le_trans (min_le_left _ _) (by norm_num)
    · simp only [hc, if_false]
      split <;> norm_num

theorem calculateLocationSimilarity_range (toLowerCase : List Char → List Char)
    (location1 location2 : Location) (locationScore : ℚ)
    (h : calculateLocationSimilarity toLowerCase location1 location2 = some locationScore) :
    0 ≤ locationScore ∧ locationScore ≤ 1 := by
  unfold calculateLocationSimilarity at h
  split at h
  · cases h; norm_num
  · split at h
    · cases h; exact scoreLocations_range _ _
    · cases h

theorem calculateDateSimilarity_range (date1 date2 : Option Int) :
    2 / 10 ≤ calculateDateSimilarity date1 date2 ∧ calculateDateSimilarity date1 date2 ≤ 1 := by
  unfold calculateDateSimilarity
  split
  · simp only []
    split_ifs <;> norm_num
  · norm_num

theorem calculateKeywordSimilarity_range (toLowerCase : List Char → List Char) (item1 item2 : Item) :
    0 ≤ calculateKeywordSimilarity toLowerCase item1 item2 ∧
      calculateKeywordSimilarity toLowerCase item1 item2 ≤ 1 := by
  unfold calculateKeywordSimilarity
  simp only [intersection_length, union_length]
  split
  · norm_num
  · have hle : ((keywords toLowerCase item1).toFinset ∩ (keywords toLowerCase item2).toFinset).card
        ≤ ((keywords toLowerCase item1).toFinset ∪ (keywords toLowerCase item2).toFinset).card :=
      Finset.card_le_card (fun x hx => Finset.mem_union_left _ (Finset.mem_inter.mp hx).1)
    have hle2 : (((keywords toLowerCase item1).toFinset ∩ (keywords toLowerCase item2).toFinset).card : ℚ)
        ≤ (((keywords toLowerCase item1).toFinset ∪ (keywords toLowerCase item2).toFinset).card : ℚ) := by
      exact_mod_cast hle
    constructor
    · positivity
    · exact div_le_one_of_le₀ hle2 (Nat.cast_nonneg _)

/-! ### Evaluation rules -/

theorem calculateLocationSimilarity_of_falsy (toLowerCase : List Char → List Char)
    (location1 location2 : Location)
    (h : locationFalsy location1 = true ∨ locationFalsy location2 = true) :
    calculateLocationSimilarity toLowerCase location1 location2 = some 0 := by
  unfold calculateLocationSimilarity
  rw [if_pos]
  simpa using h

theorem calculateLocationSimilarity_of_labels (toLowerCase : List Char → List Char)
    (location1 location2 : Location) (l1 l2 : List Char)
    (h1 : locationFalsy location1 = false) (h2 : locationFalsy location2 = false)
    (hl1 : locationLabel location1 = some l1) (hl2 : locationLabel location2 = some l2) :
    calculateLocationSimilarity toLowerCase location1 location2
      = some (scoreLocations (trim (toLowerCase l1)) (trim (toLowerCase l2))) := by
  unfold calculateLocationSimilarity
  rw [h1, h2, hl1, hl2]
  rfl

theorem calculateLocationSimilarity_of_unreadable (toLowerCase : List Char → List Char)
    (location1 location2 : Location)
    (h1 : locationFalsy location1 = false) (h2 : locationFalsy location2 = false)
    (h : locationLabel location1 = none ∨ locationLabel location2 = none) :
    calculateLocationSimilarity toLowerCase location1 location2 = none := by
  unfold calculateLocationSimilarity
  rw [h1, h2]
  rcases h with h | h
  · rw [h]; rfl
  · rw [h]; cases locationLabel location1 <;> rfl

theorem scoreLocations_of_eq (loc1 loc2 : List Char) (h : loc1 = loc2) :
    scoreLocations loc1 loc2 = 1 := by
  unfold scoreLocations
  rw [if_pos h]

theorem scoreLocations_of_common (loc1 loc2 : List Char) (n : Nat) (h : loc1 ≠ loc2)
    (hn : countCommonWords (splitWhitespace loc1) (splitWhitespace loc2) = n) (hpos : 0 < n) :
    scoreLocations loc1 loc2 = min (8 / 10) ((n : ℚ) * (3 / 10)) := by
  unfold scoreLocations
  rw [if_neg h]
  simp only [hn]
  rw [if_pos hpos]

theorem scoreLocations_of_no_common (loc1 loc2 : List Char) (h : loc1 ≠ loc2)
    (hn : countCommonWords (splitWhitespace loc1) (splitWhitespace loc2) = 0) :
    scoreLocations loc1 loc2 = if includes loc1 loc2 || includes loc2 loc1 then 6 / 10 else 0 := by
  unfold scoreLocations
  rw [if_neg h]
  simp only [hn]
  rw [if_neg (lt_irrefl 0)]

theorem calculateKeywordSimilarity_of_empty (toLowerCase : List Char → List Char)
    (item1 item2 : Item)
    (h : keywords toLowerCase item1 = [] ∨ keywords toLowerCase item2 = []) :
    calculateKeywordSimilarity toLowerCase item1 item2 = 0 := by
  unfold calculateKeywordSimilarity
  rw [if_pos]
  simpa using h

theorem calculateKeywordSimilarity_of_sizes (toLowerCase : List Char → List Char)
    (item1 item2 : Item) (n m : Nat)
    (h1 : keywords toLowerCase item1 ≠ []) (h2 : keywords toLowerCase item2 ≠ [])
    (hn : ((keywords toLowerCase item1).dedup.filter
            (fun x => decide (x ∈ (keywords toLowerCase item2).dedup))).length = n)
    (hm : ((keywords toLowerCase item1).dedup ++ (keywords toLowerCase item2).dedup).dedup.length
            = m) :
    calculateKeywordSimilarity toLowerCase item1 item2 = (n : ℚ) / (m : ℚ) := by
  unfold calculateKeywordSimilarity
  rw [if_neg]
  · simp only [hn, hm]
  · simpa using And.intro h1 h2

theorem calculateKeywordSimilarity_self (toLowerCase : List Char → List Char) (item : Item)
    (h : keywords toLowerCase item ≠ []) :
    calculateKeywordSimilarity toLowerCase item item = 1 := by
  have hne : (keywords toLowerCase item).toFinset.card ≠ 0 := by
    rw [Finset.card_ne_zero, List.toFinset_nonempty_iff]
    exact h
  unfold calculateKeywordSimilarity
  rw [if_neg (by simpa using h)]
  simp only [intersection_length, union_length, Finset.inter_self, Finset.union_self]
  exact div_self (by exact_mod_cast hne)

theorem calculateDateSimilarity_of_missing (date1 date2 : Option Int)
    (h : date1 = none ∨ date2 = none) : calculateDateSimilarity date1 date2 = 2 / 10 := by
  rcases h with h | h <;> subst h
  · rfl
  · cases date1 <;> rfl

theorem calculateDateSimilarity_self (t : Int) :
    calculateDateSimilarity (some t) (some t) = 1 := by
  simp [calculateDateSimilarity]

/-- The date tiers read on the difference in milliseconds. -/
theorem calculateDateSimilarity_of_ms (t1 t2 : Int) :
    calculateDateSimilarity (some t1) (some t2)
      = if |t1 - t2| ≤ dayMs then 1
        else if |t1 - t2| ≤ 3 * dayMs then 8 / 10
        else if |t1 - t2| ≤ 7 * dayMs then 6 / 10
        else if |t1 - t2| ≤ 14 * dayMs then 4 / 10
        else 2 / 10 := by
  have hcast : |((t1 - t2 : Int) : ℚ)| = ((|t1 - t2| : Int) : ℚ) := by
    rw [Int.cast_abs]
  have hk : ∀ k : Int, (|((t1 - t2 : Int) : ℚ)| / (1000 * 60 * 60 * 24) ≤ (k : ℚ))
      ↔ |t1 - t2| ≤ k * dayMs := by
    intro k
    rw [hcast, div_le_iff₀ (by norm_num : (0 : ℚ) < 1000 * 60 * 60 * 24)]
    have : ((k : ℚ) * (1000 * 60 * 60 * 24)) = ((k * dayMs : Int) : ℚ) := by
      simp only [dayMs]; push_cast; ring
    rw [this, Int.cast_le]
  have h1 := hk 1
  have h3 := hk 3
  have h7 := hk 7
  have h14 := hk 14
  simp only [Int.cast_one, Int.cast_ofNat, one_mul] at h1 h3 h7 h14
  simp only [calculateDateSimilarity, h1, h3, h7, h14]

theorem splitGo_ne_nil (prevWs : Bool) (s : List Char) : splitGo prevWs s ≠ [] := by
  induction s generalizing prevWs with
  | nil => simp [splitGo]
  | cons c cs ih =>
    unfold splitGo
    split
    · split
      · exact ih true
      · simp
    · split <;> simp

theorem commonPairs_eq_zero (l1 l2 : List (List Char))
    (h : ∀ w ∈ l1, w ∉ l2) : commonPairs l1 l2 = 0 := by
  unfold commonPairs
  rw [List.sum_eq_zero]
  intro n hn
  obtain ⟨w, hw, rfl⟩ := List.mem_map.mp hn
  rw [List.countP_eq_zero]
  intro w2 hw2
  simp only [decide_eq_true_eq, not_and]
  intro e
  subst e
  exact absurd hw2 (h w hw)

/-- Two normalized labels without a common word score at most `0.6`. -/
theorem scoreLocations_le_of_no_shared (loc1 loc2 : List Char)
    (h : ∀ w ∈ splitWhitespace loc1, w ∉ splitWhitespace loc2) :
    scoreLocations loc1 loc2 ≤ 6 / 10 := by
  have hne : loc1 ≠ loc2 := by
    intro e
    subst e
    cases hs : splitWhitespace loc1 with
    | nil => exact splitGo_ne_nil false loc1 hs
    | cons w ws =>
      rw [hs] at h
      exact h w (List.mem_cons_self _ _) (List.mem_cons_self _ _)
  rw [scoreLocations_of_no_common _ _ hne
    (by rw [countCommonWords_eq]; exact commonPairs_eq_zero _ _ h)]
  split <;> norm_num

theorem calculateKeywordSimilarity_of_disjoint (toLowerCase : List Char → List Char)
    (item1 item2 : Item)
    (h : ∀ w ∈ keywords toLowerCase item1, w ∉ keywords toLowerCase item2) :
    calculateKeywordSimilarity toLowerCase item1 item2 = 0 := by
  unfold calculateKeywordSimilarity
  simp only []
  split
  · rfl
  · simp only [intersection_length]
    have hempty : (keywords toLowerCase item1).toFinset ∩ (keywords toLowerCase item2).toFinset
        = ∅ := by
      ext x
      simp only [Finset.mem_inter, List.mem_toFinset, Finset.not_mem_empty, iff_false, not_and]
      exact h x
    rw [hempty]
    simp

theorem commonPairs_pos_of_shared (l1 l2 : List (List Char)) (w : List Char)
    (h1 : w ∈ l1) (h2 : w ∈ l2) (hv : w ∈ campusLocations) : 0 < commonPairs l1 l2 := by
  unfold commonPairs
  have hpos : 0 < l2.countP (fun word2 => decide (w = word2 ∧ w ∈ campusLocations)) := by
    rw [List.countP_pos_iff]
    exact ⟨w, h2, decide_eq_true ⟨rfl, hv⟩⟩
  exact lt_of_lt_of_le hpos
    (List.single_le_sum (fun _ _ => Nat.zero_le _) _
      (List.mem_map.mpr ⟨w, h1, rfl⟩))

/-- When no campus-location word occurs twice in either list, the pairs counted by the loops are
as many as the campus-location words the lists have in common. -/
theorem commonPairs_eq_shared (l1 l2 : List (List Char))
    (h1 : ∀ w ∈ campusLocations, l1.count w ≤ 1) (h2 : ∀ w ∈ campusLocations, l2.count w ≤ 1) :
    commonPairs l1 l2 = sharedVocabularyTokens l1 l2 := by
  induction l1 with
  | nil => rfl
  | cons a l1 ih =>
    have h1tail : ∀ w ∈ campusLocations, l1.count w ≤ 1 := fun w hw =>
      le_trans (List.count_le_count_cons _ _ _) (h1 w hw)
    have hstep : commonPairs (a :: l1) l2
        = l2.countP (fun word2 => decide (a = word2 ∧ a ∈ campusLocations))
          + commonPairs l1 l2 := by
      simp [commonPairs]
    rw [hstep, ih h1tail]
    unfold sharedVocabularyTokens
    by_cases hv : a ∈ campusLocations
    · have hnot : a ∉ l1 := by
        intro hmem
        have hc := h1 a hv
        rw [List.count_cons_self] at hc
        have hpos : 0 < l1.count a := List.count_pos_iff.mpr hmem
        omega
      rw [List.dedup_cons_of_not_mem hnot, List.filter_cons]
      have hcount : l2.countP (fun word2 => decide (a = word2 ∧ a ∈ campusLocations))
          = l2.count a := by
        rw [List.count, List.countP_congr]
        intro x _
        simp only [decide_eq_true_eq, beq_iff_eq]
        exact ⟨fun h => h.1.symm, fun h => ⟨h.symm, hv⟩⟩
      rw [hcount]
      by_cases hm : a ∈ l2
      · have hp : 0 < l2.count a := List.count_pos_iff.mpr hm
        have hle := h2 a hv
        simp only [hm, hv, decide_True, Bool.and_self, if_true, List.length_cons]
        omega
      · rw [List.count_eq_zero_of_not_mem hm]
        simp [hm]
    · have hzero : l2.countP (fun word2 => decide (a = word2 ∧ a ∈ campusLocations)) = 0 := by
        rw [List.countP_eq_zero]
        intro x _
        simp [hv]
      rw [hzero, zero_add]
      by_cases hmem : a ∈ l1
      · rw [List.dedup_cons_of_mem hmem]
      · rw [List.dedup_cons_of_not_mem hmem, List.filter_cons]
        simp [hv]

/-! ### Scores of the sample records -/

theorem blackWallet_chemistryTextbook_score :
    calculateSimilarity asciiLowerCase blackWallet chemistryTextbook = some (1 / 25) := by
  rw [calculateSimilarity_eq,
    calculateLocationSimilarity_of_labels asciiLowerCase _ _ "Library 2nd floor".toList
      "Sports Complex".toList (by decide) (by decide) (by decide) (by decide),
    scoreLocations_of_no_common _ _ (by decide) (by decide),
    if_neg (by decide),
    calculateKeywordSimilarity_of_sizes asciiLowerCase blackWallet chemistryTextbook 0 8
      (by decide) (by decide) (by decide) (by decide)]
  have hd : calculateDateSimilarity blackWallet.date chemistryTextbook.date = 2 / 10 := by
    show calculateDateSimilarity (some 1704067200000) (some 1709251200000) = 2 / 10
    rw [calculateDateSimilarity_of_ms]
    simp [dayMs]
  rw [hd, if_neg (by decide)]
  norm_num

theorem idCard_score :
    calculateSimilarity asciiLowerCase idCard idCard = some (4 / 5) := by
  rw [calculateSimilarity_eq,
    calculateLocationSimilarity_of_labels asciiLowerCase _ _ "Main Gate".toList
      "Main Gate".toList (by decide) (by decide) (by decide) (by decide),
    scoreLocations_of_eq _ _ rfl,
    calculateKeywordSimilarity_of_empty asciiLowerCase idCard idCard (Or.inl (by decide))]
  have hd : calculateDateSimilarity idCard.date idCard.date = 1 :=
    calculateDateSimilarity_self _
  rw [hd]
  norm_num

theorem keysLost_keysFound_score :
    calculateSimilarity asciiLowerCase keysLost keysFound = some (4 / 5) := by
  rw [calculateSimilarity_eq,
    calculateLocationSimilarity_of_labels asciiLowerCase _ _ "Main Gate".toList
      "Main Gate".toList (by decide) (by decide) (by decide) (by decide),
    scoreLocations_of_eq _ _ rfl,
    calculateKeywordSimilarity_of_sizes asciiLowerCase keysLost keysFound 0 7
      (by decide) (by decide) (by decide) (by decide)]
  have hd : calculateDateSimilarity keysLost.date keysFound.date = 1 := by
    show calculateDateSimilarity (some 0) (some 86400000) = 1
    rw [calculateDateSimilarity_of_ms]
    simp [dayMs]
  rw [hd, if_pos (by decide)]
  norm_num

/-! ## Properties of the similarity score -/

/-- C1: `calculateSimilarity` is symmetric, raising included, and so is each factor it combines:
the category test, the location factor, the date factor and the keyword factor give the same
value when the two items are swapped. -/
theorem calculateSimilarity_symmetric (toLowerCase : List Char → List Char) (A B : Item) :
    calculateSimilarity toLowerCase A B = calculateSimilarity toLowerCase B A ∧
    (decide (A.category = B.category) = decide (B.category = A.category)) ∧
    calculateLocationSimilarity toLowerCase A.location B.location
      = calculateLocationSimilarity toLowerCase B.location A.location ∧
    calculateDateSimilarity A.date B.date = calculateDateSimilarity B.date A.date ∧
    calculateKeywordSimilarity toLowerCase A B = calculateKeywordSimilarity toLowerCase B A := by
  have hcat : (A.category = B.category) = (B.category = A.category) := propext eq_comm
  refine ⟨?_, ?_, calculateLocationSimilarity_comm _ _ _, calculateDateSimilarity_comm _ _,
    calculateKeywordSimilarity_comm _ _ _⟩
  · unfold calculateSimilarity
    rw [calculateLocationSimilarity_comm toLowerCase A.location,
      calculateDateSimilarity_comm A.date, calculateKeywordSimilarity_comm toLowerCase A]
    simp only [hcat]
  · simp only [hcat]

/-- C3: a score returned by `calculateSimilarity` lies in the closed interval `[0, 1]`; the four
weights `0.3`, `0.3`, `0.2`, `0.2` add up to `1`. -/
theorem calculateSimilarity_range (toLowerCase : List Char → List Char) (A B : Item) (score : ℚ)
    (h : calculateSimilarity toLowerCase A B = some score) :
    (0 ≤ score ∧ score ≤ 1) ∧
      categoryWeight + locationWeight + dateWeight + keywordWeight = 1 := by
  refine ⟨?_, by norm_num [categoryWeight, locationWeight, dateWeight, keywordWeight]⟩
  rw [calculateSimilarity_eq] at h
  cases hloc : calculateLocationSimilarity toLowerCase A.location B.location with
  | none => rw [hloc] at h; cases h
  | some locationScore =>
    rw [hloc] at h
    simp only [Option.map_some', Option.some.injEq] at h
    obtain ⟨hl0, hl1⟩ := calculateLocationSimilarity_range _ _ _ _ hloc
    obtain ⟨hd0, hd1⟩ := calculateDateSimilarity_range A.date B.date
    obtain ⟨hk0, hk1⟩ := calculateKeywordSimilarity_range toLowerCase A B
    subst h
    constructor
    · split_ifs <;> linarith
    · split_ifs <;> linarith

/-- Witness of C3 on the wallet and the textbook, whose score is `1/25`. -/
theorem calculateSimilarity_range_witness :
    (0 ≤ (1 / 25 : ℚ) ∧ (1 / 25 : ℚ) ≤ 1) ∧
      categoryWeight + locationWeight + dateWeight + keywordWeight = 1 :=
  calculateSimilarity_range asciiLowerCase blackWallet chemistryTextbook (1 / 25)
    blackWallet_chemistryTextbook_score

/-- C2, as stated, fails: the identity card has a readable location and a date, yet compared
with itself it scores `0.8`, because no word of its title and description survives the keyword
filter and the keyword factor is then `0`. -/
theorem calculateSimilarity_self_counterexample :
    calculateSimilarity asciiLowerCase idCard idCard = some (4 / 5) ∧
      calculateSimilarity asciiLowerCase idCard idCard ≠ some 1 := by
  refine ⟨idCard_score, ?_⟩
  rw [idCard_score]
  norm_num

/-- C2, amended: an item whose location is readable and not empty, whose date is present and
whose keyword list is not empty scores exactly `1` against itself, the location, date and
keyword factors being `1` each (and the category test succeeding). -/
theorem calculateSimilarity_self (toLowerCase : List Char → List Char) (A : Item)
    (hloc : locationFalsy A.location = false) (hlabel : (locationLabel A.location).isSome = true)
    (hdate : A.date.isSome = true) (hkw : keywords toLowerCase A ≠ []) :
    calculateSimilarity toLowerCase A A = some 1 ∧
      calculateLocationSimilarity toLowerCase A.location A.location = some 1 ∧
      calculateDateSimilarity A.date A.date = 1 ∧
      calculateKeywordSimilarity toLowerCase A A = 1 := by
  obtain ⟨l, hl⟩ := Option.isSome_iff_exists.mp hlabel
  obtain ⟨t, ht⟩ := Option.isSome_iff_exists.mp hdate
  have h1 : calculateLocationSimilarity toLowerCase A.location A.location = some 1 := by
    rw [calculateLocationSimilarity_of_labels toLowerCase _ _ l l hloc hloc hl hl,
      scoreLocations_of_eq _ _ rfl]
  have h2 : calculateDateSimilarity A.date A.date = 1 := by
    rw [ht]; exact calculateDateSimilarity_self t
  have h3 := calculateKeywordSimilarity_self toLowerCase A hkw
  refine ⟨?_, h1, h2, h3⟩
  rw [calculateSimilarity_eq, h1, h2, h3]
  simp only [Option.map_some', if_true]
  norm_num

/-- Witness of the amended C2 on the wallet. -/
theorem calculateSimilarity_self_witness :
    calculateSimilarity asciiLowerCase blackWallet blackWallet = some 1 ∧
      calculateLocationSimilarity asciiLowerCase blackWallet.location blackWallet.location
        = some 1 ∧
      calculateDateSimilarity blackWallet.date blackWallet.date = 1 ∧
      calculateKeywordSimilarity asciiLowerCase blackWallet blackWallet = 1 :=
  calculateSimilarity_self asciiLowerCase blackWallet (by decide) (by decide) (by decide)
    (by decide)

theorem calculateSimilarity_isSome (toLowerCase : List Char → List Char) (A B : Item)
    (l1 l2 : List Char)
    (hl1 : locationLabel A.location = some l1) (hl2 : locationLabel B.location = some l2) :
    ∃ score, calculateSimilarity toLowerCase A B = some score := by
  rw [calculateSimilarity_eq]
  by_cases hf : locationFalsy A.location = true ∨ locationFalsy B.location = true
  · rw [calculateLocationSimilarity_of_falsy _ _ _ hf]
    exact ⟨_, rfl⟩
  · simp only [not_or, Bool.not_eq_true] at hf
    rw [calculateLocationSimilarity_of_labels _ _ _ l1 l2 hf.1 hf.2 hl1 hl2]
    exact ⟨_, rfl⟩

/-- C4, evaluated where it fails: the umbrella is stored with a location object that has no
`foundLocation`.  The guard `!location1 || !location2` does not fire on it, an object being
truthy, and `calculateSimilarity` raises, in either argument order, instead of returning a score
with a zero location contribution.  On the record stored without a date it does return a score,
in which the date factor sits at its lowest tier `0.2` and contributes `0.04`, not zero. -/
theorem calculateSimilarity_raises :
    noFoundLocation.location = Location.record none ∧
      locationFalsy noFoundLocation.location = false ∧
      calculateLocationSimilarity asciiLowerCase blackWallet.location noFoundLocation.location
        = none ∧
      calculateSimilarity asciiLowerCase blackWallet noFoundLocation = none ∧
      calculateSimilarity asciiLowerCase noFoundLocation blackWallet = none ∧
      noDate.date = none ∧
      (∃ score, calculateSimilarity asciiLowerCase noDate blackWallet = some score) ∧
      calculateDateSimilarity noDate.date blackWallet.date * dateWeight = 1 / 25 := by
  have hl : calculateLocationSimilarity asciiLowerCase blackWallet.location
      noFoundLocation.location = none :=
    calculateLocationSimilarity_of_unreadable asciiLowerCase _ _ (by decide) (by decide)
      (Or.inr (by decide))
  have hr : calculateLocationSimilarity asciiLowerCase noFoundLocation.location
      blackWallet.location = none :=
    calculateLocationSimilarity_of_unreadable asciiLowerCase _ _ (by decide) (by decide)
      (Or.inl (by decide))
  have hd : calculateDateSimilarity noDate.date blackWallet.date * dateWeight = 1 / 25 := by
    rw [calculateDateSimilarity_of_missing noDate.date blackWallet.date (Or.inl rfl)]
    norm_num [dateWeight]
  refine ⟨rfl, by decide, hl, ?_, ?_, rfl, ?_, hd⟩
  · rw [calculateSimilarity_eq, hl]
    rfl
  · rw [calculateSimilarity_eq, hr]
    rfl
  · exact calculateSimilarity_isSome asciiLowerCase noDate blackWallet
      "Main Gate".toList "Library 2nd floor".toList rfl rfl

/-- C5: two items with different categories, whose normalized location labels share no word,
whose keyword lists are disjoint and whose dates are more than 14 days apart get a score, and it
is at most `0.3`, hence below the match threshold `0.7`. -/
theorem calculateSimilarity_unrelated (toLowerCase : List Char → List Char) (A B : Item)
    (l1 l2 : List Char) (t1 t2 : Int)
    (hcat : A.category ≠ B.category)
    (hl1 : locationLabel A.location = some l1) (hl2 : locationLabel B.location = some l2)
    (hloc : ∀ w ∈ splitWhitespace (trim (toLowerCase l1)),
      w ∉ splitWhitespace (trim (toLowerCase l2)))
    (hkw : ∀ w ∈ keywords toLowerCase A, w ∉ keywords toLowerCase B)
    (hd1 : A.date = some t1) (hd2 : B.date = some t2) (hfar : 14 * dayMs < |t1 - t2|) :
    ∃ score, calculateSimilarity toLowerCase A B = some score ∧
      score ≤ 3 / 10 ∧ score < matchThreshold := by
  have hd : calculateDateSimilarity A.date B.date = 2 / 10 := by
    have hpos : (0 : Int) < dayMs := by decide
    rw [hd1, hd2, calculateDateSimilarity_of_ms, if_neg (by omega), if_neg (by omega),
      if_neg (by omega), if_neg (by omega)]
  have hl : ∃ locationScore, calculateLocationSimilarity toLowerCase A.location B.location
      = some locationScore ∧ 0 ≤ locationScore ∧ locationScore ≤ 6 / 10 := by
    by_cases hf : locationFalsy A.location = true ∨ locationFalsy B.location = true
    · exact ⟨0, calculateLocationSimilarity_of_falsy _ _ _ hf, le_refl _, by norm_num⟩
    · simp only [not_or, Bool.not_eq_true] at hf
      exact ⟨_, calculateLocationSimilarity_of_labels _ _ _ l1 l2 hf.1 hf.2 hl1 hl2,
        (scoreLocations_range _ _).1, scoreLocations_le_of_no_shared _ _ hloc⟩
  obtain ⟨locationScore, hls, _, hle⟩ := hl
  have hscore : calculateSimilarity toLowerCase A B = some (locationScore * (3 / 10) + 1 / 25) := by
    rw [calculateSimilarity_eq, hls, hd, calculateKeywordSimilarity_of_disjoint _ _ _ hkw,
      if_neg hcat]
    simp only [Option.map_some', Option.some.injEq]
    norm_num
  have hbound : locationScore * (3 / 10) + 1 / 25 ≤ 3 / 10 := by linarith
  exact ⟨_, hscore, hbound, lt_of_le_of_lt hbound (by norm_num [matchThreshold])⟩

/-- Witness of C5: the wallet (electronics, "Library 2nd floor", 2024-01-01) against the textbook
(books, "Sports Complex", 2024-03-01). -/
theorem calculateSimilarity_unrelated_witness :
    ∃ score, calculateSimilarity asciiLowerCase blackWallet chemistryTextbook = some score ∧
      score ≤ 3 / 10 ∧ score < matchThreshold :=
  calculateSimilarity_unrelated asciiLowerCase blackWallet chemistryTextbook
    "Library 2nd floor".toList "Sports Complex".toList 1704067200000 1709251200000
    (by decide) (by decide) (by decide) (by decide) (by decide) rfl rfl (by decide)

/-- C6, as stated, fails: the lost and the found keys have the same category and the same
location label and were reported exactly one day apart, yet they score `0.8`, below `0.9`,
because their titles and descriptions have no keyword in common. -/
theorem calculateSimilarity_next_day_counterexample :
    keysLost.type = ItemType.lost ∧ keysFound.type = ItemType.found ∧
      keysLost.category = keysFound.category ∧ keysLost.location = keysFound.location ∧
      keysFound.date = some (0 + dayMs) ∧ keysLost.date = some 0 ∧
      calculateSimilarity asciiLowerCase keysLost keysFound = some (4 / 5) ∧
      ¬ ((9 / 10 : ℚ) ≤ 4 / 5) := by
  refine ⟨rfl, rfl, rfl, rfl, rfl, rfl, keysLost_keysFound_score, by norm_num⟩

/-- C6, amended: for two items with the same category, the same readable location label and
dates exactly one day apart, the category, location and date factors are all `1`, so
`calculateSimilarity` returns `0.8 + 0.2 × keyword factor`: at least `0.8`, and at least `0.9`
exactly when the keyword factor is at least `0.5`. -/
theorem calculateSimilarity_next_day (toLowerCase : List Char → List Char) (L F : Item)
    (label : List Char) (t1 t2 : Int)
    (hcat : L.category = F.category)
    (hL : locationFalsy L.location = false) (hF : locationFalsy F.location = false)
    (hlL : locationLabel L.location = some label) (hlF : locationLabel F.location = some label)
    (hdL : L.date = some t1) (hdF : F.date = some t2) (hday : |t1 - t2| = dayMs) :
    calculateSimilarity toLowerCase L F
        = some (8 / 10 + calculateKeywordSimilarity toLowerCase L F * (2 / 10)) ∧
      (8 / 10 : ℚ) ≤ 8 / 10 + calculateKeywordSimilarity toLowerCase L F * (2 / 10) ∧
      ((9 / 10 : ℚ) ≤ 8 / 10 + calculateKeywordSimilarity toLowerCase L F * (2 / 10)
        ↔ 1 / 2 ≤ calculateKeywordSimilarity toLowerCase L F) := by
  obtain ⟨hk0, _⟩ := calculateKeywordSimilarity_range toLowerCase L F
  refine ⟨?_, by linarith, ⟨fun h => by linarith, fun h => by linarith⟩⟩
  rw [calculateSimilarity_eq,
    calculateLocationSimilarity_of_labels toLowerCase _ _ label label hL hF hlL hlF,
    scoreLocations_of_eq _ _ rfl, hdL, hdF, calculateDateSimilarity_of_ms,
    if_pos (le_of_eq hday), if_pos hcat]
  simp only [Option.map_some', Option.some.injEq]
  ring

/-- Witness of the amended C6 on the lost and the found keys. -/
theorem calculateSimilarity_next_day_witness :
    calculateSimilarity asciiLowerCase keysLost keysFound
        = some (8 / 10 + calculateKeywordSimilarity asciiLowerCase keysLost keysFound * (2 / 10)) ∧
      (8 / 10 : ℚ)
        ≤ 8 / 10 + calculateKeywordSimilarity asciiLowerCase keysLost keysFound * (2 / 10) ∧
      ((9 / 10 : ℚ)
          ≤ 8 / 10 + calculateKeywordSimilarity asciiLowerCase keysLost keysFound * (2 / 10)
        ↔ 1 / 2 ≤ calculateKeywordSimilarity asciiLowerCase keysLost keysFound) :=
  calculateSimilarity_next_day asciiLowerCase keysLost keysFound "Main Gate".toList 0 86400000
    (by decide) (by decide) (by decide) (by decide) (by decide) rfl rfl (by decide)

/-! ## Properties of the location and date factors -/

/-- C7, as stated, fails: "Gate 2 near Main Gate" and "Main Gate" differ after normalization and
have exactly one campus-location word in common (`gate`), so the claim gives
`min(0.8, 0.3 × 1) = 0.3`; the loops count the two occurrences of `gate` and the result is
`0.6`. -/
theorem calculateLocationSimilarity_shared_counterexample :
    trim (asciiLowerCase "Gate 2 near Main Gate".toList) ≠ trim (asciiLowerCase "Main Gate".toList) ∧
      sharedVocabularyTokens
          (splitWhitespace (trim (asciiLowerCase "Gate 2 near Main Gate".toList)))
          (splitWhitespace (trim (asciiLowerCase "Main Gate".toList))) = 1 ∧
      calculateLocationSimilarity asciiLowerCase gateTwice mainGate = some (6 / 10) ∧
      (6 / 10 : ℚ) ≠ min (8 / 10) (((1 : Nat) : ℚ) * (3 / 10)) := by
  refine ⟨by decide, by decide, ?_, by norm_num⟩
  rw [calculateLocationSimilarity_of_labels asciiLowerCase _ _ "Gate 2 near Main Gate".toList
      "Main Gate".toList (by decide) (by decide) (by decide) (by decide),
    scoreLocations_of_common _ _ 2 (by decide) (by decide) (by decide)]
  norm_num

/-- C7, amended: for two readable location labels that differ after lower-casing and trimming and
share at least one campus-location word, `calculateLocationSimilarity` returns
`min(0.8, 0.3 × n)` where `n` is the number of pairs made of an occurrence of a word in the
first label and an occurrence of the same word in the second label, the word being a
campus-location word; when no campus-location word occurs twice in either label, `n` is the
number of campus-location words the labels have in common. -/
theorem calculateLocationSimilarity_shared (toLowerCase : List Char → List Char)
    (location1 location2 : Location) (l1 l2 : List Char)
    (h1 : locationFalsy location1 = false) (h2 : locationFalsy location2 = false)
    (hl1 : locationLabel location1 = some l1) (hl2 : locationLabel location2 = some l2)
    (hne : trim (toLowerCase l1) ≠ trim (toLowerCase l2))
    (hshare : ∃ w, w ∈ splitWhitespace (trim (toLowerCase l1)) ∧
      w ∈ splitWhitespace (trim (toLowerCase l2)) ∧ w ∈ campusLocations) :
    calculateLocationSimilarity toLowerCase location1 location2
        = some (min (8 / 10)
            ((commonPairs (splitWhitespace (trim (toLowerCase l1)))
                (splitWhitespace (trim (toLowerCase l2))) : ℚ) * (3 / 10))) ∧
      ((∀ w ∈ campusLocations, (splitWhitespace (trim (toLowerCase l1))).count w ≤ 1) →
        (∀ w ∈ campusLocations, (splitWhitespace (trim (toLowerCase l2))).count w ≤ 1) →
        commonPairs (splitWhitespace (trim (toLowerCase l1)))
            (splitWhitespace (trim (toLowerCase l2)))
          = sharedVocabularyTokens (splitWhitespace (trim (toLowerCase l1)))
              (splitWhitespace (trim (toLowerCase l2)))) := by
  obtain ⟨w, hw1, hw2, hv⟩ := hshare
  refine ⟨?_, commonPairs_eq_shared _ _⟩
  rw [calculateLocationSimilarity_of_labels toLowerCase _ _ l1 l2 h1 h2 hl1 hl2,
    scoreLocations_of_common _ _ _ hne (countCommonWords_eq _ _)
      (commonPairs_pos_of_shared _ _ w hw1 hw2 hv)]

/-- Witness of the amended C7 on "Gate 2 near Main Gate" and "Main Gate". -/
theorem calculateLocationSimilarity_shared_witness :
    calculateLocationSimilarity asciiLowerCase gateTwice mainGate
        = some (min (8 / 10)
            ((commonPairs (splitWhitespace (trim (asciiLowerCase "Gate 2 near Main Gate".toList)))
                (splitWhitespace (trim (asciiLowerCase "Main Gate".toList))) : ℚ) * (3 / 10))) ∧
      ((∀ w ∈ campusLocations,
          (splitWhitespace (trim (asciiLowerCase "Gate 2 near Main Gate".toList))).count w ≤ 1) →
        (∀ w ∈ campusLocations,
          (splitWhitespace (trim (asciiLowerCase "Main Gate".toList))).count w ≤ 1) →
        commonPairs (splitWhitespace (trim (asciiLowerCase "Gate 2 near Main Gate".toList)))
            (splitWhitespace (trim (asciiLowerCase "Main Gate".toList)))
          = sharedVocabularyTokens
              (splitWhitespace (trim (asciiLowerCase "Gate 2 near Main Gate".toList)))
              (splitWhitespace (trim (asciiLowerCase "Main Gate".toList)))) :=
  calculateLocationSimilarity_shared asciiLowerCase gateTwice mainGate
    "Gate 2 near Main Gate".toList "Main Gate".toList (by decide) (by decide) (by decide)
    (by decide) (by decide) ⟨"gate".toList, by decide, by decide, by decide⟩

/-- C8: for two valid dates `d` days apart, `calculateDateSimilarity` is `1.0` if `d ≤ 1`, `0.8`
if `1 < d ≤ 3`, `0.6` if `3 < d ≤ 7`, `0.4` if `7 < d ≤ 14` and `0.2` beyond; it is never below
`0.2`, and it does not increase when the distance between the dates grows. -/
theorem calculateDateSimilarity_tiers (t1 t2 : Int) :
    (daysApart t1 t2 ≤ 1 → calculateDateSimilarity (some t1) (some t2) = 1) ∧
      (1 < daysApart t1 t2 → daysApart t1 t2 ≤ 3 →
        calculateDateSimilarity (some t1) (some t2) = 8 / 10) ∧
      (3 < daysApart t1 t2 → daysApart t1 t2 ≤ 7 →
        calculateDateSimilarity (some t1) (some t2) = 6 / 10) ∧
      (7 < daysApart t1 t2 → daysApart t1 t2 ≤ 14 →
        calculateDateSimilarity (some t1) (some t2) = 4 / 10) ∧
      (14 < daysApart t1 t2 → calculateDateSimilarity (some t1) (some t2) = 2 / 10) ∧
      2 / 10 ≤ calculateDateSimilarity (some t1) (some t2) ∧
      (∀ u1 u2 : Int, daysApart t1 t2 ≤ daysApart u1 u2 →
        calculateDateSimilarity (some u1) (some u2) ≤ calculateDateSimilarity (some t1) (some t2)) := by
  have hval : ∀ a b : Int, calculateDateSimilarity (some a) (some b)
      = if daysApart a b ≤ 1 then 1
        else if daysApart a b ≤ 3 then 8 / 10
        else if daysApart a b ≤ 7 then 6 / 10
        else if daysApart a b ≤ 14 then 4 / 10
        else 2 / 10 := fun a b => rfl
  refine ⟨?_, ?_, ?_, ?_, ?_, (calculateDateSimilarity_range _ _).1, ?_⟩
  · intro h
    rw [hval, if_pos h]
  · intro h1 h3
    rw [hval, if_neg (not_le.mpr h1), if_pos h3]
  · intro h3 h7
    rw [hval, if_neg (by linarith), if_neg (not_le.mpr h3), if_pos h7]
  · intro h7 h14
    rw [hval, if_neg (by linarith), if_neg (by linarith), if_neg (not_le.mpr h7), if_pos h14]
  · intro h14
    rw [hval, if_neg (by linarith), if_neg (by linarith), if_neg (by linarith),
      if_neg (not_le.mpr h14)]
  · intro u1 u2 hle
    rw [hval, hval]
    split_ifs <;> first | (exfalso; linarith) | norm_num

/-! ## Properties of the candidate pipeline -/

theorem collectMatches_eq_qualifying (toLowerCase : List Char → List Char) (newItem : Item)
    (candidates : List Item) (kept : List ScoredMatch)
    (h : collectMatches toLowerCase newItem candidates = some kept) :
    kept = qualifying toLowerCase newItem candidates := by
  induction candidates generalizing kept with
  | nil =>
    simp only [collectMatches, Option.some.injEq] at h
    rw [← h]
    rfl
  | cons c cs ih =>
    unfold collectMatches at h
    cases hs : calculateSimilarity toLowerCase newItem c with
    | none => rw [hs] at h; cases h
    | some score =>
      rw [hs] at h
      cases hr : collectMatches toLowerCase newItem cs with
      | none => rw [hr] at h; cases h
      | some rest =>
        rw [hr] at h
        simp only [Option.some.injEq] at h
        have hrest := ih rest hr
        unfold qualifying
        rw [List.filterMap_cons, hs]
        by_cases ht : matchThreshold ≤ score
        · rw [if_pos ht] at h
          simp only [if_pos ht]
          rw [← h, hrest]
          rfl
        · rw [if_neg ht] at h
          simp only [if_neg ht]
          rw [← h, hrest]
          rfl

theorem mem_qualifying (toLowerCase : List Char → List Char) (newItem : Item)
    (candidates : List Item) (m : ScoredMatch) :
    m ∈ qualifying toLowerCase newItem candidates ↔
      m.item ∈ candidates ∧ calculateSimilarity toLowerCase newItem m.item = some m.score ∧
        matchThreshold ≤ m.score := by
  unfold qualifying
  rw [List.mem_filterMap]
  constructor
  · rintro ⟨c, hc, hm⟩
    cases hs : calculateSimilarity toLowerCase newItem c with
    | none => rw [hs] at hm; cases hm
    | some score =>
      rw [hs] at hm
      by_cases ht : matchThreshold ≤ score
      · simp only [if_pos ht, Option.some.injEq] at hm
        subst hm
        exact ⟨hc, hs, ht⟩
      · simp only [if_neg ht] at hm
        cases hm
  · rintro ⟨hc, hs, ht⟩
    refine ⟨m.item, hc, ?_⟩
    rw [hs]
    simp only [if_pos ht]

theorem collectMatches_isSome (toLowerCase : List Char → List Char) (newItem : Item)
    (candidates : List Item)
    (h : ∀ c ∈ candidates, (calculateSimilarity toLowerCase newItem c).isSome = true) :
    ∃ kept, collectMatches toLowerCase newItem candidates = some kept := by
  induction candidates with
  | nil => exact ⟨[], rfl⟩
  | cons c cs ih =>
    obtain ⟨score, hs⟩ := Option.isSome_iff_exists.mp (h c (List.mem_cons_self _ _))
    obtain ⟨rest, hr⟩ := ih (fun x hx => h x (List.mem_cons_of_mem _ hx))
    unfold collectMatches
    rw [hs, hr]
    exact ⟨_, rfl⟩

/-- C9: whenever every candidate can be scored, `calculateMatchScores` returns the first five
entries of the qualifying candidates (score at least `0.7`) sorted by non-increasing score: the
result has at most five entries, each is a candidate with its own score, which is at least `0.7`,
the scores do not increase along the result, and a candidate that is left out never scores
strictly higher than an entry that is kept. -/
theorem calculateMatchScores_top_five (toLowerCase : List Char → List Char) (newItem : Item)
    (candidates : List Item)
    (hscored : ∀ c ∈ candidates, (calculateSimilarity toLowerCase newItem c).isSome = true) :
    ∃ result, calculateMatchScores toLowerCase newItem candidates = some result ∧
      result = ((qualifying toLowerCase newItem candidates).insertionSort
          (fun a b => a.score ≥ b.score)).take 5 ∧
      result.length ≤ 5 ∧
      (∀ m ∈ result, m.item ∈ candidates ∧
        calculateSimilarity toLowerCase newItem m.item = some m.score ∧
        matchThreshold ≤ m.score) ∧
      result.Pairwise (fun a b => a.score ≥ b.score) ∧
      (∀ c ∈ candidates, ∀ score, calculateSimilarity toLowerCase newItem c = some score →
        ({ item := c, score := score } : ScoredMatch) ∉ result →
        ∀ m ∈ result, score ≤ m.score) := by
  haveI : IsTotal ScoredMatch (fun a b => a.score ≥ b.score) := ⟨fun a b => le_total b.score a.score⟩
  haveI : IsTrans ScoredMatch (fun a b => a.score ≥ b.score) :=
    ⟨fun a b c hab hbc => le_trans hbc hab⟩
  obtain ⟨kept, hk⟩ := collectMatches_isSome _ _ _ hscored
  have hq := collectMatches_eq_qualifying _ _ _ _ hk
  subst hq
  have hsorted : (List.insertionSort (fun a b : ScoredMatch => a.score ≥ b.score)
      (qualifying toLowerCase newItem candidates)).Pairwise (fun a b => a.score ≥ b.score) :=
    List.sorted_insertionSort _ _
  have hperm := List.perm_insertionSort (fun a b : ScoredMatch => a.score ≥ b.score)
    (qualifying toLowerCase newItem candidates)
  have hmem : ∀ m ∈ ((qualifying toLowerCase newItem candidates).insertionSort
      (fun a b => a.score ≥ b.score)).take 5, m ∈ qualifying toLowerCase newItem candidates :=
    fun m hm => hperm.subset (List.mem_of_mem_take hm)
  refine ⟨_, ?_, rfl, List.length_take_le _ _, ?_, hsorted.take, ?_⟩
  · unfold calculateMatchScores
    rw [hk]
  · intro m hm
    exact (mem_qualifying _ _ _ _).mp (hmem m hm)
  · intro c hc score hs hout m hm
    have hmq := (mem_qualifying _ _ _ _).mp (hmem m hm)
    by_cases ht : matchThreshold ≤ score
    · have hin : ({ item := c, score := score } : ScoredMatch)
          ∈ qualifying toLowerCase newItem candidates :=
        (mem_qualifying _ _ _ _).mpr ⟨hc, hs, ht⟩
      have hin2 := hperm.symm.subset hin
      rw [← List.take_append_drop 5 (List.insertionSort _ _)] at hin2 hsorted
      rcases List.mem_append.mp hin2 with hl | hr
      · exact absurd hl hout
      · exact (List.pairwise_append.mp hsorted).2.2 m hm _ hr
    · exact le_trans (le_of_lt (not_le.mp ht)) hmq.2.2

theorem keysLost_chemistryTextbook_score :
    calculateSimilarity asciiLowerCase keysLost chemistryTextbook = some (1 / 25) := by
  rw [calculateSimilarity_eq,
    calculateLocationSimilarity_of_labels asciiLowerCase _ _ "Main Gate".toList
      "Sports Complex".toList (by decide) (by decide) (by decide) (by decide),
    scoreLocations_of_no_common _ _ (by decide) (by decide),
    if_neg (by decide),
    calculateKeywordSimilarity_of_sizes asciiLowerCase keysLost chemistryTextbook 0 8
      (by decide) (by decide) (by decide) (by decide)]
  have hd : calculateDateSimilarity keysLost.date chemistryTextbook.date = 2 / 10 := by
    show calculateDateSimilarity (some 0) (some 1709251200000) = 2 / 10
    rw [calculateDateSimilarity_of_ms]
    simp [dayMs]
  rw [hd, if_neg (by decide)]
  norm_num

theorem keysLost_matchScores :
    calculateMatchScores asciiLowerCase keysLost [chemistryTextbook, keysFound]
      = some [{ item := keysFound, score := 4 / 5 }] := by
  unfold calculateMatchScores collectMatches collectMatches collectMatches
  rw [keysLost_chemistryTextbook_score, keysLost_keysFound_score]
  simp only []
  rw [if_pos (show (4 / 5 : ℚ) ≥ matchThreshold by norm_num [matchThreshold]),
    if_neg (show ¬ (1 / 25 : ℚ) ≥ matchThreshold by norm_num [matchThreshold])]
  rfl

/-- Witness of C9: the lost keys against the textbook (score `0.04`, dropped) and the found keys
(score `0.8`, kept). -/
theorem calculateMatchScores_top_five_witness :
    ∃ result, calculateMatchScores asciiLowerCase keysLost [chemistryTextbook, keysFound]
        = some result ∧
      result = ((qualifying asciiLowerCase keysLost [chemistryTextbook, keysFound]).insertionSort
          (fun a b => a.score ≥ b.score)).take 5 ∧
      result.length ≤ 5 ∧
      (∀ m ∈ result, m.item ∈ [chemistryTextbook, keysFound] ∧
        calculateSimilarity asciiLowerCase keysLost m.item = some m.score ∧
        matchThreshold ≤ m.score) ∧
      result.Pairwise (fun a b => a.score ≥ b.score) ∧
      (∀ c ∈ [chemistryTextbook, keysFound], ∀ score,
        calculateSimilarity asciiLowerCase keysLost c = some score →
        ({ item := c, score := score } : ScoredMatch) ∉ result →
        ∀ m ∈ result, score ≤ m.score) :=
  calculateMatchScores_top_five asciiLowerCase keysLost [chemistryTextbook, keysFound]
    (by
      intro c hc
      rcases List.mem_cons.mp hc with rfl | hc
      · rw [keysLost_chemistryTextbook_score]; rfl
      · rcases List.mem_cons.mp hc with rfl | hc
        · rw [keysLost_keysFound_score]; rfl
        · cases hc)

theorem matchesQuery_eq (newItem : Item) (itemDate : Int) (doc : Item)
    (hdate : newItem.date = some itemDate) :
    matchesQuery newItem itemDate doc = satisfiesConditions newItem doc := by
  have htype : (if newItem.type = ItemType.lost then ItemType.found else ItemType.lost)
      = oppositeType newItem.type := by
    cases newItem.type <;> rfl
  have hwin : (match doc.date with
      | some d => decide (itemDate - 7 * 24 * 60 * 60 * 1000 ≤ d)
          && decide (d ≤ itemDate + 7 * 24 * 60 * 60 * 1000)
      | none => false) = withinSevenDays doc.date newItem.date := by
    rw [hdate]
    cases doc.date with
    | none => rfl
    | some d =>
      simp only [withinSevenDays, dayMs]
      rw [← Bool.decide_and, decide_eq_decide, abs_le]
      constructor
      · rintro ⟨h1, h2⟩; constructor <;> omega
      · rintro ⟨h1, h2⟩; constructor <;> omega
  have hcat : (match newItem.category with
      | some c => if c.toList.isEmpty then true
                  else if c ≠ "other" then decide (doc.category = newItem.category) else true
      | none => true)
      = (!(categoryPresent newItem.category && decide (newItem.category ≠ some "other")) ||
          decide (doc.category = newItem.category)) := by
    cases hc : newItem.category with
    | none => rfl
    | some c =>
      simp only [categoryPresent]
      cases c.toList.isEmpty
      · by_cases ho : c = "other" <;> simp [ho]
      · simp
  unfold matchesQuery satisfiesConditions
  simp only [htype, hwin, hcat]

/-- C10, as stated, fails: a subject stored without a category has a category that is not
"other", yet the query then carries no category filter and returns the found keys, whose category
is not the subject's. -/
theorem findPotentialMatches_counterexample :
    findPotentialMatches [keysFound] uncategorized = some [keysFound] ∧
      uncategorized.category ≠ some "other" ∧
      keysFound.category ≠ uncategorized.category := by
  refine ⟨?_, by decide, by decide⟩
  have hq : matchesQuery uncategorized 0 keysFound = true := by decide
  have hf : List.filter (matchesQuery uncategorized 0) [keysFound] = [keysFound] := by
    rw [List.filter_cons_of_pos hq]
    rfl
  show some (List.take 50 (List.filter (matchesQuery uncategorized 0) [keysFound]))
    = some [keysFound]
  rw [hf]
  rfl

/-- C10, amended: for a subject with a date, `findPotentialMatches` returns at most 50 stored
items; every returned item has the type opposite to the subject's, status active, an id other
than the subject's, a date within 7 days (inclusive) of the subject's and, whenever the subject
has a non-empty category other than "other", the subject's category; when at most 50 stored items
satisfy these conditions, exactly those are returned. -/
theorem findPotentialMatches_candidates (store : List Item) (newItem : Item) (itemDate : Int)
    (hdate : newItem.date = some itemDate) :
    ∃ result, findPotentialMatches store newItem = some result ∧
      result.length ≤ 50 ∧
      (∀ x ∈ result, x ∈ store ∧ x.type = oppositeType newItem.type ∧
        x.status = ItemStatus.active ∧ x._id ≠ newItem._id ∧
        (∃ d, x.date = some d ∧ |d - itemDate| ≤ 7 * dayMs) ∧
        (categoryPresent newItem.category = true → newItem.category ≠ some "other" →
          x.category = newItem.category)) ∧
      ((store.filter (satisfiesConditions newItem)).length ≤ 50 →
        result = store.filter (satisfiesConditions newItem)) := by
  have hfun : matchesQuery newItem itemDate = satisfiesConditions newItem :=
    funext (fun doc => matchesQuery_eq newItem itemDate doc hdate)
  refine ⟨(store.filter (satisfiesConditions newItem)).take 50, ?_, List.length_take_le _ _,
    ?_, fun hlen => List.take_of_length_le hlen⟩
  · unfold findPotentialMatches
    rw [hdate]
    simp only [hfun]
  · intro x hx
    have hxf := List.mem_of_mem_take hx
    obtain ⟨hstore, hsat⟩ := List.mem_filter.mp hxf
    unfold satisfiesConditions at hsat
    simp only [Bool.and_eq_true, Bool.or_eq_true, Bool.not_eq_true', decide_eq_true_eq,
      Bool.and_eq_false_imp] at hsat
    obtain ⟨⟨⟨⟨ht, hs⟩, hid⟩, hw⟩, hc⟩ := hsat
    refine ⟨hstore, ht, hs, hid, ?_, ?_⟩
    · rw [hdate] at hw
      cases hd : x.date with
      | none => rw [hd] at hw; cases hw
      | some d =>
        rw [hd] at hw
        exact ⟨d, rfl, of_decide_eq_true hw⟩
    · intro hp ho
      rcases hc with hc | hc
      · have := hc hp
        simp only [decide_eq_false_iff_not, not_not] at this
        exact absurd this ho
      · exact hc

/-- Witness of the amended C10: the lost keys against a store of three items, of which only the
found keys qualify. -/
theorem findPotentialMatches_candidates_witness :
    ∃ result, findPotentialMatches [chemistryTextbook, keysFound, idCard] keysLost = some result ∧
      result.length ≤ 50 ∧
      (∀ x ∈ result, x ∈ [chemistryTextbook, keysFound, idCard] ∧
        x.type = oppositeType keysLost.type ∧
        x.status = ItemStatus.active ∧ x._id ≠ keysLost._id ∧
        (∃ d, x.date = some d ∧ |d - 0| ≤ 7 * dayMs) ∧
        (categoryPresent keysLost.category = true → keysLost.category ≠ some "other" →
          x.category = keysLost.category)) ∧
      (([chemistryTextbook, keysFound, idCard].filter (satisfiesConditions keysLost)).length ≤ 50 →
        result = [chemistryTextbook, keysFound, idCard].filter (satisfiesConditions keysLost)) :=
  findPotentialMatches_candidates [chemistryTextbook, keysFound, idCard] keysLost 0 rfl

/-! ## Properties of the match pipeline -/

set_option maxRecDepth 8000

theorem findById_updateItemMatches_self (items : List Item) (itemId matchedItemId : Nat)
    (score : ℚ) (now : Int) (doc : Item) (h : findById items itemId = some doc) :
    findById (updateItemMatches items itemId matchedItemId score now) itemId
      = some (pushMatch matchedItemId score now doc) := by
  induction items with
  | nil => simp [findById] at h
  | cons x xs ih =>
    unfold updateItemMatches
    unfold findById at h ih ⊢
    by_cases hx : x._id = itemId
    · rw [if_pos hx]
      rw [List.find?_cons_of_pos _ (by simpa using hx)] at h
      rw [List.find?_cons_of_pos _ (by simpa [pushMatch] using hx)]
      cases h
      rfl
    · rw [if_neg hx]
      rw [List.find?_cons_of_neg _ (by simpa using hx)] at h
      rw [List.find?_cons_of_neg _ (by simpa using hx)]
      exact ih h

theorem findById_updateItemMatches_other (items : List Item) (itemId matchedItemId : Nat)
    (score : ℚ) (now : Int) (otherId : Nat) (h : otherId ≠ itemId) :
    findById (updateItemMatches items itemId matchedItemId score now) otherId
      = findById items otherId := by
  induction items with
  | nil => rfl
  | cons x xs ih =>
    unfold updateItemMatches
    unfold findById at ih ⊢
    by_cases hx : x._id = itemId
    · rw [if_pos hx]
      have hne : ¬ x._id = otherId := fun e => h (e.symm.trans hx)
      rw [List.find?_cons_of_neg _ (by simpa [pushMatch] using hne),
        List.find?_cons_of_neg _ (by simpa using hne)]
    · rw [if_neg hx]
      by_cases ho : x._id = otherId
      · rw [List.find?_cons_of_pos _ (by simpa using ho),
          List.find?_cons_of_pos _ (by simpa using ho)]
      · rw [List.find?_cons_of_neg _ (by simpa using ho),
          List.find?_cons_of_neg _ (by simpa using ho)]
        exact ih

theorem updateItemMatches_of_absent (items : List Item) (itemId matchedItemId : Nat)
    (score : ℚ) (now : Int) (h : findById items itemId = none) :
    updateItemMatches items itemId matchedItemId score now = items := by
  induction items with
  | nil => rfl
  | cons x xs ih =>
    unfold updateItemMatches
    unfold findById at h ih
    by_cases hx : x._id = itemId
    · rw [List.find?_cons_of_pos _ (by simpa using hx)] at h
      cases h
    · rw [if_neg hx]
      rw [List.find?_cons_of_neg _ (by simpa using hx)] at h
      rw [ih h]

theorem sendMatchNotifications_items (env : MatchEnv) (db : Db) (item1 item2 : Item) (score : ℚ) :
    (sendMatchNotifications env db item1 item2 score).1.items = db.items ∧
      (sendMatchNotifications env db item1 item2 score).1.users = db.users ∧
      (sendMatchNotifications env db item1 item2 score).1.chats = db.chats ∧
      (sendMatchNotifications env db item1 item2 score).1.messages = db.messages := by
  unfold sendMatchNotifications
  split
  · split
    · exact ⟨rfl, rfl, rfl, rfl⟩
    · split <;> exact ⟨rfl, rfl, rfl, rfl⟩
  · exact ⟨rfl, rfl, rfl, rfl⟩

theorem createMatchChat_items (env : MatchEnv) (db : Db) (item1 item2 : Item) :
    (createMatchChat env db item1 item2).items = db.items ∧
      (createMatchChat env db item1 item2).users = db.users ∧
      (createMatchChat env db item1 item2).notifications = db.notifications := by
  unfold createMatchChat
  split
  · split
    · exact ⟨rfl, rfl, rfl⟩
    · split
      · exact ⟨rfl, rfl, rfl⟩
      · simp only []
        split
        · exact ⟨rfl, rfl, rfl⟩
        · split <;> exact ⟨rfl, rfl, rfl⟩
  · exact ⟨rfl, rfl, rfl⟩

/-- The last two steps of `processMatch`, notifications and conversation, leave the items and the
users as they are. -/
theorem notifyThenChat_items (env : MatchEnv) (db : Db) (newItem matchedItem : Item) (score : ℚ) :
    (match sendMatchNotifications env db newItem matchedItem score with
      | (db3, false) => db3
      | (db3, true) => createMatchChat env db3 newItem matchedItem).items = db.items := by
  have hs := (sendMatchNotifications_items env db newItem matchedItem score).1
  rcases hsend : sendMatchNotifications env db newItem matchedItem score with ⟨db3, completed⟩
  rw [hsend] at hs
  cases completed
  · exact hs
  · exact ((createMatchChat_items env db3 newItem matchedItem).1).trans hs

/-- The items left by a `processMatch` call that passes the existence check and whose two link
writes succeed. -/
theorem processMatch_items (env : MatchEnv) (db : Db) (newItem matchedItem : Item) (score : ℚ)
    (hc : env.faults.checkExisting = false)
    (he : checkExistingMatch db newItem._id matchedItem._id = false)
    (h1 : env.faults.link1 = false) (h2 : env.faults.link2 = false) :
    (processMatch env db newItem matchedItem score).items
      = updateItemMatches
          (updateItemMatches db.items newItem._id matchedItem._id score env.linkTime1)
          matchedItem._id newItem._id score env.linkTime2 := by
  unfold processMatch
  rw [hc, he, h1, h2]
  simp only [Bool.false_eq_true, if_false]
  exact notifyThenChat_items env _ newItem matchedItem score

theorem checkExistingMatch_eq_of_items (db db2 : Db) (h : db2.items = db.items)
    (itemId1 itemId2 : Nat) :
    checkExistingMatch db2 itemId1 itemId2 = checkExistingMatch db itemId1 itemId2 := by
  unfold checkExistingMatch
  rw [h]

theorem processMatch_of_existing (env : MatchEnv) (db : Db) (newItem matchedItem : Item)
    (score : ℚ) (h : checkExistingMatch db newItem._id matchedItem._id = true) :
    processMatch env db newItem matchedItem score = db := by
  unfold processMatch
  rw [h]
  simp

theorem faults_of_free (env : MatchEnv) (h : env.faults = {}) :
    env.faults.checkExisting = false ∧ env.faults.link1 = false ∧ env.faults.link2 = false ∧
      env.faults.notify1 = false ∧ env.faults.notify2 = false ∧ env.faults.chatFind = false ∧
      env.faults.chatSave = false ∧ env.faults.welcomeSave = false := by
  rw [h]
  exact ⟨rfl, rfl, rfl, rfl, rfl, rfl, rfl, rfl⟩

theorem checkExistingMatch_iff (db : Db) (itemId1 itemId2 : Nat) :
    checkExistingMatch db itemId1 itemId2 = true ↔ 0 < linkCount db itemId1 itemId2 := by
  unfold checkExistingMatch linkCount
  cases findById db.items itemId1 with
  | none => simp
  | some doc =>
    simp only [List.any_eq_true, List.countP_pos_iff]

theorem linkCount_eq_zero_iff (db : Db) (itemId1 itemId2 : Nat) :
    linkCount db itemId1 itemId2 = 0 ↔ checkExistingMatch db itemId1 itemId2 = false := by
  have h := checkExistingMatch_iff db itemId1 itemId2
  constructor
  · intro h0
    cases hc : checkExistingMatch db itemId1 itemId2
    · rfl
    · have := h.mp hc
      omega
  · intro hc
    by_contra hne
    have hpos : 0 < linkCount db itemId1 itemId2 := Nat.pos_of_ne_zero hne
    rw [h.mpr hpos] at hc
    cases hc

/-- After the two link writes of a match between distinct stored items, each item is the one
stored before with one more link and the new `matchScore`. -/
theorem findById_after_links (items : List Item) (A B : Item) (a b : Item) (s : ℚ) (t1 t2 : Int)
    (hne : A._id ≠ B._id)
    (ha : findById items A._id = some a) (hb : findById items B._id = some b) :
    findById (updateItemMatches (updateItemMatches items A._id B._id s t1) B._id A._id s t2) A._id
        = some (pushMatch B._id s t1 a) ∧
      findById (updateItemMatches (updateItemMatches items A._id B._id s t1) B._id A._id s t2)
          B._id
        = some (pushMatch A._id s t2 b) := by
  have h1 := findById_updateItemMatches_self items A._id B._id s t1 a ha
  have h2 : findById (updateItemMatches items A._id B._id s t1) B._id = some b := by
    rw [findById_updateItemMatches_other _ _ _ _ _ _ (Ne.symm hne)]
    exact hb
  constructor
  · rw [findById_updateItemMatches_other _ _ _ _ _ _ hne]
    exact h1
  · exact findById_updateItemMatches_self _ _ _ _ _ _ h2

/-- C11: between distinct stored items, a second `processMatch` on the same pair, right after a
failure-free one, leaves the whole state as it is, so it adds no link, no notification and no
conversation; when the two items were not linked before, each then holds exactly one link to
the other. -/
theorem processMatch_idempotent (env env2 : MatchEnv) (db : Db) (A B : Item) (s : ℚ)
    (hA : (findById db.items A._id).isSome = true) (hB : (findById db.items B._id).isSome = true)
    (hne : A._id ≠ B._id) (hfree : env.faults = {}) :
    processMatch env2 (processMatch env db A B s) A B s = processMatch env db A B s ∧
      (processMatch env2 (processMatch env db A B s) A B s).notifications
        = (processMatch env db A B s).notifications ∧
      (processMatch env2 (processMatch env db A B s) A B s).chats
        = (processMatch env db A B s).chats ∧
      (linkCount db A._id B._id = 0 → linkCount db B._id A._id = 0 →
        linkCount (processMatch env2 (processMatch env db A B s) A B s) A._id B._id = 1 ∧
        linkCount (processMatch env2 (processMatch env db A B s) A B s) B._id A._id = 1) := by
  obtain ⟨a, ha⟩ := Option.isSome_iff_exists.mp hA
  obtain ⟨b, hb⟩ := Option.isSome_iff_exists.mp hB
  obtain ⟨hc, h1, h2, _⟩ := faults_of_free env hfree
  have hsecond : processMatch env2 (processMatch env db A B s) A B s = processMatch env db A B s := by
    cases he : checkExistingMatch db A._id B._id
    · apply processMatch_of_existing
      unfold checkExistingMatch
      rw [processMatch_items env db A B s hc he h1 h2,
        (findById_after_links db.items A B a b s env.linkTime1 env.linkTime2 hne ha hb).1]
      simp [pushMatch]
    · rw [processMatch_of_existing env db A B s he]
      exact processMatch_of_existing env2 db A B s he
  refine ⟨hsecond, by rw [hsecond], by rw [hsecond], ?_⟩
  intro hAB hBA
  rw [hsecond]
  have he := (linkCount_eq_zero_iff db A._id B._id).mp hAB
  obtain ⟨hfa, hfb⟩ := findById_after_links db.items A B a b s env.linkTime1 env.linkTime2 hne ha hb
  unfold linkCount at hAB hBA ⊢
  rw [processMatch_items env db A B s hc he h1 h2, hfa, hfb]
  rw [ha] at hAB
  rw [hb] at hBA
  have hAB2 : a.matchedItems.countP (fun link => decide (link.item = B._id)) = 0 := hAB
  have hBA2 : b.matchedItems.countP (fun link => decide (link.item = A._id)) = 0 := hBA
  simp only [pushMatch, List.countP_append, hAB2, hBA2]
  simp

/-- Witness of C11: the lost and the found keys in a store without links. -/
theorem processMatch_idempotent_witness :
    processMatch calmEnv (processMatch calmEnv keysDb lostKeys foundKeys (4 / 5))
        lostKeys foundKeys (4 / 5)
      = processMatch calmEnv keysDb lostKeys foundKeys (4 / 5) ∧
      (processMatch calmEnv (processMatch calmEnv keysDb lostKeys foundKeys (4 / 5))
          lostKeys foundKeys (4 / 5)).notifications
        = (processMatch calmEnv keysDb lostKeys foundKeys (4 / 5)).notifications ∧
      (processMatch calmEnv (processMatch calmEnv keysDb lostKeys foundKeys (4 / 5))
          lostKeys foundKeys (4 / 5)).chats
        = (processMatch calmEnv keysDb lostKeys foundKeys (4 / 5)).chats ∧
      (linkCount keysDb lostKeys._id foundKeys._id = 0 →
        linkCount keysDb foundKeys._id lostKeys._id = 0 →
        linkCount (processMatch calmEnv (processMatch calmEnv keysDb lostKeys foundKeys (4 / 5))
            lostKeys foundKeys (4 / 5)) lostKeys._id foundKeys._id = 1 ∧
        linkCount (processMatch calmEnv (processMatch calmEnv keysDb lostKeys foundKeys (4 / 5))
            lostKeys foundKeys (4 / 5)) foundKeys._id lostKeys._id = 1) :=
  processMatch_idempotent calmEnv calmEnv keysDb lostKeys foundKeys (4 / 5)
    (by decide) (by decide) (by decide) rfl

theorem findById_id (items : List Item) (id : Nat) (doc : Item)
    (h : findById items id = some doc) : doc._id = id := by
  unfold findById at h
  have := List.find?_some h
  simpa using this

/-- C12, as stated, fails on the timestamps: in a failure-free `processMatch` of the lost and the
found keys, whose environment reads the clock at `1000` and then at `1001`, the link written on
the lost keys is stamped `1000` and the link written on the found keys is stamped `1001`. -/
theorem processMatch_links_counterexample :
    checkExistingMatch keysDb lostKeys._id foundKeys._id = false ∧ calmEnv.faults = {} ∧
      (findById (processMatch calmEnv keysDb lostKeys foundKeys (4 / 5)).items lostKeys._id).map
          (fun doc => doc.matchedItems.map (fun link => link.matchedAt)) = some [1000] ∧
      (findById (processMatch calmEnv keysDb lostKeys foundKeys (4 / 5)).items foundKeys._id).map
          (fun doc => doc.matchedItems.map (fun link => link.matchedAt)) = some [1001] := by
  have he : checkExistingMatch keysDb lostKeys._id foundKeys._id = false := by decide
  obtain ⟨ha, hb⟩ := findById_after_links keysDb.items lostKeys foundKeys lostKeys foundKeys
    (4 / 5) calmEnv.linkTime1 calmEnv.linkTime2 (by decide) rfl rfl
  refine ⟨he, rfl, ?_, ?_⟩
  · rw [processMatch_items calmEnv keysDb lostKeys foundKeys (4 / 5) rfl he rfl rfl, ha]
    rfl
  · rw [processMatch_items calmEnv keysDb lostKeys foundKeys (4 / 5) rfl he rfl rfl, hb]
    rfl

/-- C12, amended: for distinct stored items `A` and `B` with no link from `A` to `B`, a
failure-free `processMatch(A, B, s)` appends one link `A → B` and one link `B → A` that carry the
same score `s`, each stamped with its own reading of the clock (the one taken at its own
write), sets the `matchScore` of both items to `s`, and leaves every other item as it is. -/
theorem processMatch_links (env : MatchEnv) (db : Db) (A B a b : Item) (s : ℚ)
    (hne : A._id ≠ B._id)
    (ha : findById db.items A._id = some a) (hb : findById db.items B._id = some b)
    (hnew : checkExistingMatch db A._id B._id = false) (hfree : env.faults = {}) :
    findById (processMatch env db A B s).items A._id
        = some { a with
            matchedItems := a.matchedItems ++
              [{ item := B._id, score := s, matchedAt := env.linkTime1 }]
            matchScore := s } ∧
      findById (processMatch env db A B s).items B._id
        = some { b with
            matchedItems := b.matchedItems ++
              [{ item := A._id, score := s, matchedAt := env.linkTime2 }]
            matchScore := s } ∧
      (∀ otherId, otherId ≠ A._id → otherId ≠ B._id →
        findById (processMatch env db A B s).items otherId = findById db.items otherId) := by
  obtain ⟨hc, h1, h2, _⟩ := faults_of_free env hfree
  obtain ⟨hfa, hfb⟩ := findById_after_links db.items A B a b s env.linkTime1 env.linkTime2 hne ha hb
  rw [processMatch_items env db A B s hc hnew h1 h2]
  refine ⟨hfa, hfb, ?_⟩
  intro otherId hoA hoB
  rw [findById_updateItemMatches_other _ _ _ _ _ _ hoB,
    findById_updateItemMatches_other _ _ _ _ _ _ hoA]

/-- Witness of the amended C12 on the lost and the found keys. -/
theorem processMatch_links_witness :
    findById (processMatch calmEnv keysDb lostKeys foundKeys (4 / 5)).items lostKeys._id
        = some { lostKeys with
            matchedItems := lostKeys.matchedItems ++
              [{ item := foundKeys._id, score := 4 / 5, matchedAt := calmEnv.linkTime1 }]
            matchScore := 4 / 5 } ∧
      findById (processMatch calmEnv keysDb lostKeys foundKeys (4 / 5)).items foundKeys._id
        = some { foundKeys with
            matchedItems := foundKeys.matchedItems ++
              [{ item := lostKeys._id, score := 4 / 5, matchedAt := calmEnv.linkTime2 }]
            matchScore := 4 / 5 } ∧
      (∀ otherId, otherId ≠ lostKeys._id → otherId ≠ foundKeys._id →
        findById (processMatch calmEnv keysDb lostKeys foundKeys (4 / 5)).items otherId
          = findById keysDb.items otherId) :=
  processMatch_links calmEnv keysDb lostKeys foundKeys lostKeys foundKeys (4 / 5)
    (by decide) rfl rfl (by decide) rfl

/-- A failure-free `processMatch` on a pair not yet linked whose posters are stored: both links
and both notifications are written, then `createMatchChat` runs. -/
theorem processMatch_of_fresh (env : MatchEnv) (db : Db) (A B : Item) (s : ℚ) (u1 u2 : User)
    (hfree : env.faults = {}) (hnew : checkExistingMatch db A._id B._id = false)
    (hp1 : poster db A = some u1) (hp2 : poster db B = some u2) :
    processMatch env db A B s
      = createMatchChat env
          { items := updateItemMatches
              (updateItemMatches db.items A._id B._id s env.linkTime1) B._id A._id s env.linkTime2
            users := db.users
            notifications := db.notifications ++
              [{ user := u1._id, type := NotificationType.match_found, item := some A._id,
                 sender := some u2._id, matchedItemId := some B._id,
                 originalItemId := some A._id, matchScore := some s }] ++
              [{ user := u2._id, type := NotificationType.match_found, item := some B._id,
                 sender := some u1._id, matchedItemId := some A._id,
                 originalItemId := some B._id, matchScore := some s }]
            chats := db.chats
            messages := db.messages } A B := by
  obtain ⟨hc, h1, h2, hn1, hn2, _⟩ := faults_of_free env hfree
  have hq1 : ∀ items : List Item, poster { db with items := items } A = some u1 := fun _ => hp1
  have hq2 : ∀ items : List Item, poster { db with items := items } B = some u2 := fun _ => hp2
  unfold processMatch
  rw [hc, hnew, h1, h2]
  simp only [Bool.false_eq_true, if_false]
  unfold sendMatchNotifications
  rw [hq1, hq2, hn1, hn2]
  rfl

/-- A manual match of two stored items that can be scored and are not yet linked succeeds with
the computed score and runs `processMatch` on them. -/
theorem processManualMatch_of_scored (toLowerCase : List Char → List Char) (env : MatchEnv)
    (db : Db) (itemId1 itemId2 : Nat) (x1 x2 : Item) (s : ℚ)
    (h1 : findById db.items itemId1 = some x1) (h2 : findById db.items itemId2 = some x2)
    (hs : calculateSimilarity toLowerCase x1 x2 = some s) :
    processManualMatch toLowerCase env db itemId1 itemId2
      = (processMatch env db x1 x2 s, { success := true, score := some s }) := by
  unfold processManualMatch
  rw [h1, h2]
  simp only [hs]

theorem processManualMatch_of_absent (toLowerCase : List Char → List Char) (env : MatchEnv)
    (db : Db) (itemId1 itemId2 : Nat)
    (h : findById db.items itemId1 = none ∨ findById db.items itemId2 = none) :
    processManualMatch toLowerCase env db itemId1 itemId2
      = (db, { success := false, score := none }) := by
  unfold processManualMatch
  rcases h with h | h
  · rw [h]
  · rw [h]
    cases findById db.items itemId1 <;> rfl

/-- A manual match of a stored item with itself, in a failure-free environment, writes two links
from the item to itself. -/
theorem processManualMatch_self (toLowerCase : List Char → List Char) (env : MatchEnv)
    (db : Db) (itemId : Nat) (x : Item) (s : ℚ)
    (hx : findById db.items itemId = some x)
    (hs : calculateSimilarity toLowerCase x x = some s)
    (hnew : checkExistingMatch db itemId itemId = false) (hfree : env.faults = {}) :
    (processManualMatch toLowerCase env db itemId itemId).2 = { success := true, score := some s } ∧
      findById (processManualMatch toLowerCase env db itemId itemId).1.items itemId
        = some (pushMatch itemId s env.linkTime2 (pushMatch itemId s env.linkTime1 x)) := by
  obtain ⟨hc, h1, h2, _⟩ := faults_of_free env hfree
  have hid := findById_id _ _ _ hx
  rw [processManualMatch_of_scored toLowerCase env db itemId itemId x x s hx hx hs]
  refine ⟨rfl, ?_⟩
  show findById (processMatch env db x x s).items itemId = _
  rw [processMatch_items env db x x s hc (by rw [hid]; exact hnew) h1 h2, hid]
  exact findById_updateItemMatches_self _ _ _ _ _ _
    (findById_updateItemMatches_self _ _ _ _ _ _ hx)

/-- C13, evaluated where it fails: from the store of the lost and found keys, in which no item
has a link, one `processManualMatch` call naming the lost keys twice reaches a state in which
the lost keys link to themselves (twice). -/
theorem linksWellFormed_violated :
    (∀ doc ∈ keysDb.items, doc.matchedItems = []) ∧
      ∃ db, Reachable asciiLowerCase keysDb db ∧ ¬ linksWellFormed db := by
  have hempty : ∀ doc ∈ keysDb.items, doc.matchedItems = [] := by
    intro doc hdoc
    rcases List.mem_cons.mp hdoc with rfl | hdoc
    · rfl
    · rcases List.mem_cons.mp hdoc with rfl | hdoc
      · rfl
      · cases hdoc
  refine ⟨hempty, ?_⟩
  obtain ⟨s, hs⟩ := calculateSimilarity_isSome asciiLowerCase lostKeys lostKeys
    "Main Gate".toList "Main Gate".toList (by decide) (by decide)
  have hself := (processManualMatch_self asciiLowerCase calmEnv keysDb 4 lostKeys s rfl hs
    (by decide) rfl).2
  refine ⟨(processManualMatch asciiLowerCase calmEnv keysDb 4 4).1,
    Reachable.processManualMatch calmEnv keysDb 4 4 Reachable.start, ?_⟩
  intro hwf
  have hmem := List.mem_of_find?_eq_some hself
  have hbad := (hwf _ hmem).1 { item := 4, score := s, matchedAt := calmEnv.linkTime1 }
    (by simp [pushMatch])
  exact hbad rfl

/-- C14, evaluated where it fails: a manual match naming the lost keys twice reports success and
writes two self-links, two notifications and a conversation; a manual match of two lost items
reports success and links them in both directions. -/
theorem processManualMatch_accepts_invalid :
    (processManualMatch asciiLowerCase calmEnv keysDb 4 4).2.success = true ∧
      linkCount (processManualMatch asciiLowerCase calmEnv keysDb 4 4).1 4 4 = 2 ∧
      (processManualMatch asciiLowerCase calmEnv keysDb 4 4).1.notifications.length = 2 ∧
      (processManualMatch asciiLowerCase calmEnv keysDb 4 4).1.chats.length = 1 ∧
      lostKeys.type = spareKeys.type ∧
      (processManualMatch asciiLowerCase calmEnv lostDb 4 9).2.success = true ∧
      linkCount (processManualMatch asciiLowerCase calmEnv lostDb 4 9).1 4 9 = 1 ∧
      linkCount (processManualMatch asciiLowerCase calmEnv lostDb 4 9).1 9 4 = 1 := by
  obtain ⟨s, hs⟩ := calculateSimilarity_isSome asciiLowerCase lostKeys lostKeys
    "Main Gate".toList "Main Gate".toList (by decide) (by decide)
  obtain ⟨s2, hs2⟩ := calculateSimilarity_isSome asciiLowerCase lostKeys spareKeys
    "Main Gate".toList "Main Gate".toList (by decide) (by decide)
  obtain ⟨hres, hfind⟩ := processManualMatch_self asciiLowerCase calmEnv keysDb 4 lostKeys s rfl hs
    (by decide) rfl
  have hrun := processManualMatch_of_scored asciiLowerCase calmEnv keysDb 4 4 lostKeys lostKeys s
    rfl rfl hs
  have hfresh := processMatch_of_fresh calmEnv keysDb lostKeys lostKeys s alice alice rfl
    (by decide) rfl rfl
  have hrun2 := processManualMatch_of_scored asciiLowerCase calmEnv lostDb 4 9 lostKeys spareKeys
    s2 rfl rfl hs2
  obtain ⟨hfa, hfb⟩ := findById_after_links lostDb.items lostKeys spareKeys lostKeys spareKeys
    s2 calmEnv.linkTime1 calmEnv.linkTime2 (by decide) rfl rfl
  have hitems2 := processMatch_items calmEnv lostDb lostKeys spareKeys s2 rfl (by decide) rfl rfl
  refine ⟨by rw [hres], ?_, ?_, ?_, rfl, by rw [hrun2], ?_, ?_⟩
  · unfold linkCount
    rw [hfind]
    rfl
  · rw [hrun, hfresh, (createMatchChat_items _ _ _ _).2.2]
    rfl
  · rw [hrun, hfresh]
    rfl
  · unfold linkCount
    rw [hrun2]
    show (match findById (processMatch calmEnv lostDb lostKeys spareKeys s2).items 4 with
      | some doc => doc.matchedItems.countP (fun link => decide (link.item = 9))
      | none => 0) = 1
    rw [hitems2]
    have hfa2 : findById (updateItemMatches (updateItemMatches lostDb.items lostKeys._id
        spareKeys._id s2 calmEnv.linkTime1) spareKeys._id lostKeys._id s2 calmEnv.linkTime2) 4
        = some (pushMatch spareKeys._id s2 calmEnv.linkTime1 lostKeys) := hfa
    rw [hfa2]
    rfl
  · unfold linkCount
    rw [hrun2]
    show (match findById (processMatch calmEnv lostDb lostKeys spareKeys s2).items 9 with
      | some doc => doc.matchedItems.countP (fun link => decide (link.item = 4))
      | none => 0) = 1
    rw [hitems2]
    have hfb2 : findById (updateItemMatches (updateItemMatches lostDb.items lostKeys._id
        spareKeys._id s2 calmEnv.linkTime1) spareKeys._id lostKeys._id s2 calmEnv.linkTime2) 9
        = some (pushMatch lostKeys._id s2 calmEnv.linkTime2 spareKeys) := hfb
    rw [hfb2]
    rfl

theorem lostKeys_chemistryTextbook_score :
    calculateSimilarity asciiLowerCase lostKeys chemistryTextbook = some (1 / 25) :=
  keysLost_chemistryTextbook_score

/-- C15: for two stored, distinct, not yet linked items that can be scored, a failure-free
`processManualMatch` reports success, returns exactly the computed score, whatever its value
(below `0.7` or not), and writes a link with that score in both directions; when either item
is not stored it reports failure and leaves the state as it is. -/
theorem processManualMatch_links (toLowerCase : List Char → List Char) (env : MatchEnv)
    (db : Db) (itemId1 itemId2 : Nat) :
    (∀ (x1 x2 : Item) (s : ℚ),
        findById db.items itemId1 = some x1 → findById db.items itemId2 = some x2 →
        itemId1 ≠ itemId2 → checkExistingMatch db itemId1 itemId2 = false →
        calculateSimilarity toLowerCase x1 x2 = some s → env.faults = {} →
        (processManualMatch toLowerCase env db itemId1 itemId2).2
            = { success := true, score := some s } ∧
          holdsLink (processManualMatch toLowerCase env db itemId1 itemId2).1 itemId1
            { item := itemId2, score := s, matchedAt := env.linkTime1 } ∧
          holdsLink (processManualMatch toLowerCase env db itemId1 itemId2).1 itemId2
            { item := itemId1, score := s, matchedAt := env.linkTime2 }) ∧
      ((findById db.items itemId1 = none ∨ findById db.items itemId2 = none) →
        processManualMatch toLowerCase env db itemId1 itemId2
          = (db, { success := false, score := none })) := by
  refine ⟨?_, processManualMatch_of_absent toLowerCase env db itemId1 itemId2⟩
  intro x1 x2 s h1 h2 hne hnew hs hfree
  obtain ⟨hc, hl1, hl2, _⟩ := faults_of_free env hfree
  have hid1 := findById_id _ _ _ h1
  have hid2 := findById_id _ _ _ h2
  have hne2 : x1._id ≠ x2._id := by rw [hid1, hid2]; exact hne
  have hnew2 : checkExistingMatch db x1._id x2._id = false := by rw [hid1, hid2]; exact hnew
  rw [processManualMatch_of_scored toLowerCase env db itemId1 itemId2 x1 x2 s h1 h2 hs]
  obtain ⟨hfa, hfb⟩ := findById_after_links db.items x1 x2 x1 x2 s env.linkTime1 env.linkTime2
    hne2 (by rw [hid1]; exact h1) (by rw [hid2]; exact h2)
  have hitems := processMatch_items env db x1 x2 s hc hnew2 hl1 hl2
  refine ⟨rfl, ⟨pushMatch x2._id s env.linkTime1 x1, ?_, ?_⟩,
    ⟨pushMatch x1._id s env.linkTime2 x2, ?_, ?_⟩⟩
  · show findById (processMatch env db x1 x2 s).items itemId1 = _
    rw [hitems, ← hid1]
    exact hfa
  · rw [hid2]
    simp [pushMatch]
  · show findById (processMatch env db x1 x2 s).items itemId2 = _
    rw [hitems, ← hid2]
    exact hfb
  · rw [hid1]
    simp [pushMatch]

/-- Witness of C15: the lost keys and the textbook, whose score `0.04` is far below the
threshold. -/
theorem processManualMatch_links_witness :
    (processManualMatch asciiLowerCase calmEnv lostDb 4 2).2
        = { success := true, score := some (1 / 25) } ∧
      holdsLink (processManualMatch asciiLowerCase calmEnv lostDb 4 2).1 4
        { item := 2, score := 1 / 25, matchedAt := calmEnv.linkTime1 } ∧
      holdsLink (processManualMatch asciiLowerCase calmEnv lostDb 4 2).1 2
        { item := 4, score := 1 / 25, matchedAt := calmEnv.linkTime2 } :=
  (processManualMatch_links asciiLowerCase calmEnv lostDb 4 2).1 lostKeys chemistryTextbook
    (1 / 25) rfl rfl (by decide) (by decide) lostKeys_chemistryTextbook_score rfl

theorem suggestionBefore_iff (a b : Suggestion) :
    suggestionBefore a b ↔
      b.matchScore < a.matchScore ∨ (b.matchScore = a.matchScore ∧ b.matchedAt ≤ a.matchedAt) := by
  unfold suggestionBefore
  by_cases h : b.matchScore = a.matchScore
  · simp only [h, ne_eq, not_true_eq_false, if_false, lt_self_iff_false, true_and, false_or]
    rw [← Int.cast_zero, Int.cast_le]
    omega
  · simp only [ne_eq, h, not_false_eq_true, if_true, false_and, or_false, sub_nonpos]
    exact ⟨fun hle => lt_of_le_of_ne hle h, le_of_lt⟩

/-- C16: the list returned by `getUserMatchSuggestions` is ordered by non-increasing `matchScore`,
and entries with equal `matchScore` by non-increasing `matchedAt`. -/
theorem getUserMatchSuggestions_sorted (db : Db) (userId : Nat) (storageFails : Bool) :
    (getUserMatchSuggestions db userId storageFails).Pairwise (fun a b =>
      a.matchScore ≥ b.matchScore ∧ (a.matchScore = b.matchScore → a.matchedAt ≥ b.matchedAt)) := by
  haveI : IsTotal Suggestion suggestionBefore := ⟨fun a b => by
    rw [suggestionBefore_iff, suggestionBefore_iff]
    rcases lt_trichotomy a.matchScore b.matchScore with h | h | h
    · exact Or.inr (Or.inl h)
    · rcases le_total a.matchedAt b.matchedAt with ht | ht
      · exact Or.inr (Or.inr ⟨h, ht⟩)
      · exact Or.inl (Or.inr ⟨h.symm, ht⟩)
    · exact Or.inl (Or.inl h)⟩
  haveI : IsTrans Suggestion suggestionBefore := ⟨fun a b c hab hbc => by
    rw [suggestionBefore_iff] at hab hbc ⊢
    rcases hab with hab | ⟨hab, tab⟩ <;> rcases hbc with hbc | ⟨hbc, tbc⟩
    · exact Or.inl (lt_trans hbc hab)
    · exact Or.inl (by rw [hbc]; exact hab)
    · exact Or.inl (by rw [← hab]; exact hbc)
    · exact Or.inr ⟨hbc.trans hab, le_trans tbc tab⟩⟩
  unfold getUserMatchSuggestions
  split
  · exact List.Pairwise.nil
  · refine List.Pairwise.imp ?_ (List.sorted_insertionSort suggestionBefore _)
    intro a b hab
    rw [suggestionBefore_iff] at hab
    rcases hab with hab | ⟨hab, tab⟩
    · exact ⟨le_of_lt hab, fun e => absurd hab (by rw [e]; exact lt_irrefl _)⟩
    · exact ⟨le_of_eq hab, fun _ => tab⟩

/-- The items left by `processMatch` on a pair not yet linked, according to the first storage
operation that fails. -/
theorem processMatch_items_of_faults (env : MatchEnv) (db : Db) (A B : Item) (s : ℚ)
    (hnew : checkExistingMatch db A._id B._id = false) :
    (processMatch env db A B s).items
      = if env.faults.checkExisting || env.faults.link1 then db.items
        else if env.faults.link2 then updateItemMatches db.items A._id B._id s env.linkTime1
        else updateItemMatches (updateItemMatches db.items A._id B._id s env.linkTime1)
          B._id A._id s env.linkTime2 := by
  cases hc : env.faults.checkExisting
  · cases h1 : env.faults.link1
    · cases h2 : env.faults.link2
      · rw [processMatch_items env db A B s hc hnew h1 h2]
        rfl
      · unfold processMatch
        rw [hc, hnew, h1, h2]
        rfl
    · unfold processMatch
      rw [hc, hnew, h1]
      rfl
  · unfold processMatch
    rw [hc]
    rfl

/-- C17, as stated, fails: when the second link write fails, `processMatch` returns with the link
from the lost keys to the found keys persisted and no link back. -/
theorem processMatch_partial_counterexample :
    linkCount keysDb 4 5 = 0 ∧ linkCount keysDb 5 4 = 0 ∧
      linkCount (processMatch linkFaultEnv keysDb lostKeys foundKeys (4 / 5)) 4 5 = 1 ∧
      linkCount (processMatch linkFaultEnv keysDb lostKeys foundKeys (4 / 5)) 5 4 = 0 := by
  have hitems := processMatch_items_of_faults linkFaultEnv keysDb lostKeys foundKeys (4 / 5)
    (by decide)
  have ha := findById_updateItemMatches_self keysDb.items 4 5 (4 / 5) 1000 lostKeys rfl
  have hb := findById_updateItemMatches_other keysDb.items 4 5 (4 / 5) 1000 5 (by decide)
  refine ⟨rfl, rfl, ?_, ?_⟩
  · unfold linkCount
    rw [hitems]
    show (match findById (updateItemMatches keysDb.items 4 5 (4 / 5) 1000) 4 with
      | some doc => doc.matchedItems.countP (fun link => decide (link.item = 5))
      | none => 0) = 1
    rw [ha]
    rfl
  · unfold linkCount
    rw [hitems]
    show (match findById (updateItemMatches keysDb.items 4 5 (4 / 5) 1000) 5 with
      | some doc => doc.matchedItems.countP (fun link => decide (link.item = 4))
      | none => 0) = 0
    rw [hb]
    rfl

/-- C17, amended: for distinct stored items `A` and `B` without links between them, whatever
storage operation fails, after `processMatch(A, B, s)` the link `B → A` is never persisted without
the link `A → B`; a failure of the existence check or of the first link write leaves neither
link; a failure of the second link write leaves `A → B` persisted without `B → A`; when the
three succeed both links are persisted, whatever fails afterwards. -/
theorem processMatch_partial (env : MatchEnv) (db : Db) (A B a b : Item) (s : ℚ)
    (hne : A._id ≠ B._id)
    (ha : findById db.items A._id = some a) (hb : findById db.items B._id = some b)
    (hAB : linkCount db A._id B._id = 0) (hBA : linkCount db B._id A._id = 0) :
    linkCount (processMatch env db A B s) B._id A._id
        ≤ linkCount (processMatch env db A B s) A._id B._id ∧
      (env.faults.checkExisting = true ∨ env.faults.link1 = true →
        linkCount (processMatch env db A B s) A._id B._id = 0 ∧
        linkCount (processMatch env db A B s) B._id A._id = 0) ∧
      (env.faults.checkExisting = false → env.faults.link1 = false →
        env.faults.link2 = true →
        linkCount (processMatch env db A B s) A._id B._id = 1 ∧
        linkCount (processMatch env db A B s) B._id A._id = 0) ∧
      (env.faults.checkExisting = false → env.faults.link1 = false →
        env.faults.link2 = false →
        linkCount (processMatch env db A B s) A._id B._id = 1 ∧
        linkCount (processMatch env db A B s) B._id A._id = 1) := by
  have hnew := (linkCount_eq_zero_iff db A._id B._id).mp hAB
  have hitems := processMatch_items_of_faults env db A B s hnew
  have hAB2 : a.matchedItems.countP (fun link => decide (link.item = B._id)) = 0 := by
    unfold linkCount at hAB
    rw [ha] at hAB
    exact hAB
  have hBA2 : b.matchedItems.countP (fun link => decide (link.item = A._id)) = 0 := by
    unfold linkCount at hBA
    rw [hb] at hBA
    exact hBA
  have hnone : (env.faults.checkExisting || env.faults.link1) = true →
      linkCount (processMatch env db A B s) A._id B._id = 0 ∧
      linkCount (processMatch env db A B s) B._id A._id = 0 := by
    intro h
    unfold linkCount
    rw [hitems, if_pos h, ha, hb]
    exact ⟨hAB2, hBA2⟩
  have hhalf : env.faults.checkExisting = false → env.faults.link1 = false →
      env.faults.link2 = true →
      linkCount (processMatch env db A B s) A._id B._id = 1 ∧
      linkCount (processMatch env db A B s) B._id A._id = 0 := by
    intro hc h1 h2
    unfold linkCount
    rw [hitems, hc, h1, h2]
    simp only [Bool.or_self, Bool.false_eq_true, if_false, if_true]
    rw [findById_updateItemMatches_self _ _ _ _ _ _ ha,
      findById_updateItemMatches_other _ _ _ _ _ _ (Ne.symm hne), hb]
    refine ⟨?_, hBA2⟩
    simp only [pushMatch, List.countP_append, hAB2]
    simp
  have hboth : env.faults.checkExisting = false → env.faults.link1 = false →
      env.faults.link2 = false →
      linkCount (processMatch env db A B s) A._id B._id = 1 ∧
      linkCount (processMatch env db A B s) B._id A._id = 1 := by
    intro hc h1 h2
    obtain ⟨hfa, hfb⟩ := findById_after_links db.items A B a b s env.linkTime1 env.linkTime2
      hne ha hb
    unfold linkCount
    rw [hitems, hc, h1, h2]
    simp only [Bool.or_self, Bool.false_eq_true, if_false]
    rw [hfa, hfb]
    simp only [pushMatch, List.countP_append, hAB2, hBA2]
    simp
  refine ⟨?_, ?_, hhalf, hboth⟩
  · cases hc : env.faults.checkExisting
    · cases h1 : env.faults.link1
      · cases h2 : env.faults.link2
        · obtain ⟨e1, e2⟩ := hboth hc h1 h2
          rw [e1, e2]
        · obtain ⟨e1, e2⟩ := hhalf hc h1 h2
          rw [e1, e2]
          exact Nat.zero_le 1
      · obtain ⟨e1, e2⟩ := hnone (by rw [hc, h1]; rfl)
        rw [e1, e2]
    · obtain ⟨e1, e2⟩ := hnone (by rw [hc]; rfl)
      rw [e1, e2]
  · intro h
    apply hnone
    rcases h with h | h
    · rw [h]; rfl
    · rw [h]; simp

/-- Witness of the amended C17: the lost and the found keys when the second link write fails. -/
theorem processMatch_partial_witness :
    linkCount (processMatch linkFaultEnv keysDb lostKeys foundKeys (4 / 5)) foundKeys._id
          lostKeys._id
        ≤ linkCount (processMatch linkFaultEnv keysDb lostKeys foundKeys (4 / 5)) lostKeys._id
          foundKeys._id ∧
      (linkFaultEnv.faults.checkExisting = true ∨ linkFaultEnv.faults.link1 = true →
        linkCount (processMatch linkFaultEnv keysDb lostKeys foundKeys (4 / 5)) lostKeys._id
          foundKeys._id = 0 ∧
        linkCount (processMatch linkFaultEnv keysDb lostKeys foundKeys (4 / 5)) foundKeys._id
          lostKeys._id = 0) ∧
      (linkFaultEnv.faults.checkExisting = false → linkFaultEnv.faults.link1 = false →
        linkFaultEnv.faults.link2 = true →
        linkCount (processMatch linkFaultEnv keysDb lostKeys foundKeys (4 / 5)) lostKeys._id
          foundKeys._id = 1 ∧
        linkCount (processMatch linkFaultEnv keysDb lostKeys foundKeys (4 / 5)) foundKeys._id
          lostKeys._id = 0) ∧
      (linkFaultEnv.faults.checkExisting = false → linkFaultEnv.faults.link1 = false →
        linkFaultEnv.faults.link2 = false →
        linkCount (processMatch linkFaultEnv keysDb lostKeys foundKeys (4 / 5)) lostKeys._id
          foundKeys._id = 1 ∧
        linkCount (processMatch linkFaultEnv keysDb lostKeys foundKeys (4 / 5)) foundKeys._id
          lostKeys._id = 1) :=
  processMatch_partial linkFaultEnv keysDb lostKeys foundKeys lostKeys foundKeys (4 / 5)
    (by decide) rfl rfl rfl rfl

/-- C18, evaluated where it fails: matching the found keys with the lost keys creates a
conversation when nothing fails; when the first notification write fails, both links stay
persisted but `createMatchChat` is never reached and no conversation is created. -/
theorem processMatch_notification_fault :
    (processMatch calmEnv keysDb foundKeys lostKeys (4 / 5)).chats.length = 1 ∧
      linkCount (processMatch notifyFaultEnv keysDb foundKeys lostKeys (4 / 5)) 5 4 = 1 ∧
      linkCount (processMatch notifyFaultEnv keysDb foundKeys lostKeys (4 / 5)) 4 5 = 1 ∧
      (processMatch notifyFaultEnv keysDb foundKeys lostKeys (4 / 5)).notifications = [] ∧
      (processMatch notifyFaultEnv keysDb foundKeys lostKeys (4 / 5)).chats = [] := by
  refine ⟨rfl, rfl, rfl, rfl, rfl⟩

/-- C19, evaluated where it fails: with the found keys passed first, the saved conversation gives
the role `owner` to Bob, who posted the found item, and `finder` to Alice, who lost the keys;
with the lost keys passed first the record built has the roles `owner` and `claimer`, the
schema refuses `claimer`, and no conversation is saved. -/
theorem createMatchChat_roles :
    foundKeys.type = ItemType.found ∧ lostKeys.type = ItemType.lost ∧
      poster keysDb foundKeys = some bob ∧ poster keysDb lostKeys = some alice ∧
      (createMatchChat calmEnv keysDb foundKeys lostKeys).chats.map
          (fun chat => chat.participants.map (fun p => (p.userId, p.role)))
        = [[(2, "owner"), (1, "finder")]] ∧
      (matchChat calmEnv lostKeys foundKeys alice bob).participants.map
          (fun p => (p.userId, p.role))
        = [(1, "owner"), (2, "claimer")] ∧
      chatValid keysDb (matchChat calmEnv lostKeys foundKeys alice bob) = false ∧
      (createMatchChat calmEnv keysDb lostKeys foundKeys).chats = [] := by
  refine ⟨rfl, rfl, rfl, rfl, rfl, rfl, rfl, rfl⟩

theorem lostKeys_foundKeys_score :
    calculateSimilarity asciiLowerCase lostKeys foundKeys = some (4 / 5) :=
  keysLost_keysFound_score

theorem foundKeys_lostKeys_score :
    calculateSimilarity asciiLowerCase foundKeys lostKeys = some (4 / 5) := by
  rw [calculateSimilarity_eq,
    calculateLocationSimilarity_of_labels asciiLowerCase _ _ "Main Gate".toList
      "Main Gate".toList (by decide) (by decide) (by decide) (by decide),
    scoreLocations_of_eq _ _ rfl,
    calculateKeywordSimilarity_of_sizes asciiLowerCase foundKeys lostKeys 0 7
      (by decide) (by decide) (by decide) (by decide)]
  have hd : calculateDateSimilarity foundKeys.date lostKeys.date = 1 := by
    show calculateDateSimilarity (some 86400000) (some 0) = 1
    rw [calculateDateSimilarity_of_ms]
    simp [dayMs]
  rw [hd, if_pos (by decide)]
  norm_num

/-- A `processMatches` run that finds one strong match is one `processMatch` call. -/
theorem processMatches_of_single (toLowerCase : List Char → List Char) (env : Nat → MatchEnv)
    (db : Db) (newItemId : Nat) (newItem : Item) (candidate : Item) (rest : List Item)
    (m : ScoredMatch)
    (hx : findById db.items newItemId = some newItem)
    (hfind : findPotentialMatches db.items newItem = some (candidate :: rest))
    (hscores : calculateMatchScores toLowerCase newItem (candidate :: rest) = some [m]) :
    processMatches toLowerCase env db newItemId
      = processMatch (env 0) db newItem m.item m.score := by
  unfold processMatches
  rw [hx]
  simp only [hfind, hscores]
  rfl

/-- C20, evaluated where it fails: the lost and the found keys are posted by different users,
score `0.8` and lie in each other's window; a failure-free `processMatches` run on the lost keys
links both items and writes the two notifications, but ends without any conversation and
without welcome message, the role `claimer` being refused by the schema; the same run on the
found keys does end with one conversation and one system message. -/
theorem processMatches_lost_subject :
    lostKeys.postedBy ≠ foundKeys.postedBy ∧
      calculateSimilarity asciiLowerCase lostKeys foundKeys = some (4 / 5) ∧
      findPotentialMatches keysDb.items lostKeys = some [foundKeys] ∧
      linkCount (processMatches asciiLowerCase (fun _ => calmEnv) keysDb 4) 4 5 = 1 ∧
      linkCount (processMatches asciiLowerCase (fun _ => calmEnv) keysDb 4) 5 4 = 1 ∧
      (processMatches asciiLowerCase (fun _ => calmEnv) keysDb 4).notifications.length = 2 ∧
      (processMatches asciiLowerCase (fun _ => calmEnv) keysDb 4).chats = [] ∧
      (processMatches asciiLowerCase (fun _ => calmEnv) keysDb 4).messages = [] ∧
      (processMatches asciiLowerCase (fun _ => calmEnv) keysDb 5).chats.length = 1 ∧
      (processMatches asciiLowerCase (fun _ => calmEnv) keysDb 5).messages.map
          (fun message => message.type) = [MessageType.system] := by
  have hfind5 : findPotentialMatches keysDb.items foundKeys = some [lostKeys] := rfl
  have hscores5 : calculateMatchScores asciiLowerCase foundKeys [lostKeys]
      = some [{ item := lostKeys, score := 4 / 5 }] := by
    unfold calculateMatchScores collectMatches collectMatches
    rw [foundKeys_lostKeys_score]
    simp only []
    rw [if_pos (show (4 / 5 : ℚ) ≥ matchThreshold by norm_num [matchThreshold])]
    rfl
  have hrun5 := processMatches_of_single asciiLowerCase (fun _ => calmEnv) keysDb 5 foundKeys
    lostKeys [] { item := lostKeys, score := 4 / 5 } rfl hfind5 hscores5
  have hfind : findPotentialMatches keysDb.items lostKeys = some [foundKeys] := rfl
  have hscores : calculateMatchScores asciiLowerCase lostKeys [foundKeys]
      = some [{ item := foundKeys, score := 4 / 5 }] := by
    unfold calculateMatchScores collectMatches collectMatches
    rw [lostKeys_foundKeys_score]
    simp only []
    rw [if_pos (show (4 / 5 : ℚ) ≥ matchThreshold by norm_num [matchThreshold])]
    rfl
  have hrun := processMatches_of_single asciiLowerCase (fun _ => calmEnv) keysDb 4 lostKeys
    foundKeys [] { item := foundKeys, score := 4 / 5 } rfl hfind hscores
  refine ⟨by decide, lostKeys_foundKeys_score, hfind, ?_, ?_, ?_, ?_, ?_, ?_, ?_⟩
  · rw [hrun]; rfl
  · rw [hrun]; rfl
  · rw [hrun]; rfl
  · rw [hrun]; rfl
  · rw [hrun]; rfl
  · rw [hrun5]; rfl
  · rw [hrun5]; rfl

/-! ## The threshold across categories -/

theorem scoreLocations_le_of_ne (loc1 loc2 : List Char) (h : loc1 ≠ loc2) :
    scoreLocations loc1 loc2 ≤ 8 / 10 := by
  unfold scoreLocations
  rw [if_neg h]
  simp only []
  split
  · exact min_le_left _ _
  · split <;> norm_num

theorem scoreLocations_eq_one_iff (loc1 loc2 : List Char) :
    scoreLocations loc1 loc2 = 1 ↔ loc1 = loc2 := by
  constructor
  · intro h
    by_contra hne
    have := scoreLocations_le_of_ne loc1 loc2 hne
    rw [h] at this
    norm_num at this
  · exact scoreLocations_of_eq loc1 loc2

/-- The location factor is `1` exactly when both locations are present and readable and their
normalized labels are identical. -/
theorem calculateLocationSimilarity_eq_one_iff (toLowerCase : List Char → List Char)
    (location1 location2 : Location) :
    calculateLocationSimilarity toLowerCase location1 location2 = some 1 ↔
      locationFalsy location1 = false ∧ locationFalsy location2 = false ∧
        ∃ l1 l2, locationLabel location1 = some l1 ∧ locationLabel location2 = some l2 ∧
          trim (toLowerCase l1) = trim (toLowerCase l2) := by
  constructor
  · intro h
    cases hf1 : locationFalsy location1
    · cases hf2 : locationFalsy location2
      · cases hl1 : locationLabel location1 with
        | none =>
          rw [calculateLocationSimilarity_of_unreadable _ _ _ hf1 hf2 (Or.inl hl1)] at h
          cases h
        | some l1 =>
          cases hl2 : locationLabel location2 with
          | none =>
            rw [calculateLocationSimilarity_of_unreadable _ _ _ hf1 hf2 (Or.inr hl2)] at h
            cases h
          | some l2 =>
            rw [calculateLocationSimilarity_of_labels _ _ _ l1 l2 hf1 hf2 hl1 hl2] at h
            exact ⟨rfl, rfl, l1, l2, rfl, rfl,
              (scoreLocations_eq_one_iff _ _).mp (Option.some.inj h)⟩
      · rw [calculateLocationSimilarity_of_falsy _ _ _ (Or.inr hf2)] at h
        norm_num at h
    · rw [calculateLocationSimilarity_of_falsy _ _ _ (Or.inl hf1)] at h
      norm_num at h
  · rintro ⟨hf1, hf2, l1, l2, hl1, hl2, heq⟩
    rw [calculateLocationSimilarity_of_labels _ _ _ l1 l2 hf1 hf2 hl1 hl2,
      scoreLocations_of_eq _ _ heq]

/-- The date factor is `1` exactly when both dates are present and at most one day apart. -/
theorem calculateDateSimilarity_eq_one_iff (date1 date2 : Option Int) :
    calculateDateSimilarity date1 date2 = 1 ↔
      ∃ t1 t2, date1 = some t1 ∧ date2 = some t2 ∧ |t1 - t2| ≤ dayMs := by
  constructor
  · intro h
    cases date1 with
    | none =>
      rw [calculateDateSimilarity_of_missing _ _ (Or.inl rfl)] at h
      norm_num at h
    | some t1 =>
      cases date2 with
      | none =>
        rw [calculateDateSimilarity_of_missing _ _ (Or.inr rfl)] at h
        norm_num at h
      | some t2 =>
        refine ⟨t1, t2, rfl, rfl, ?_⟩
        by_contra hgt
        rw [calculateDateSimilarity_of_ms, if_neg hgt] at h
        split_ifs at h <;> norm_num at h
  · rintro ⟨t1, t2, rfl, rfl, hle⟩
    rw [calculateDateSimilarity_of_ms, if_pos hle]

/-- The keyword factor is `1` exactly when both keyword lists are non-empty and hold the same
words. -/
theorem calculateKeywordSimilarity_eq_one_iff (toLowerCase : List Char → List Char)
    (item1 item2 : Item) :
    calculateKeywordSimilarity toLowerCase item1 item2 = 1 ↔
      keywords toLowerCase item1 ≠ [] ∧ keywords toLowerCase item2 ≠ [] ∧
        (keywords toLowerCase item1).toFinset = (keywords toLowerCase item2).toFinset := by
  unfold calculateKeywordSimilarity
  simp only [intersection_length, union_length]
  by_cases h1 : keywords toLowerCase item1 = []
  · simp [h1]
  · by_cases h2 : keywords toLowerCase item2 = []
    · simp [h2]
    · rw [if_neg (by simpa using And.intro h1 h2)]
      have hsub : (keywords toLowerCase item1).toFinset ∩ (keywords toLowerCase item2).toFinset
          ⊆ (keywords toLowerCase item1).toFinset ∪ (keywords toLowerCase item2).toFinset :=
        fun x hx => Finset.mem_union_left _ (Finset.mem_inter.mp hx).1
      have hpos : ((keywords toLowerCase item1).toFinset ∪ (keywords toLowerCase item2).toFinset).card
          ≠ 0 := by
        rw [Finset.card_ne_zero]
        obtain ⟨x, hx⟩ := List.exists_mem_of_ne_nil _ h1
        exact ⟨x, Finset.mem_union_left _ (List.mem_toFinset.mpr hx)⟩
      have hposq : (((keywords toLowerCase item1).toFinset
          ∪ (keywords toLowerCase item2).toFinset).card : ℚ) ≠ 0 := by exact_mod_cast hpos
      rw [div_eq_one_iff_eq hposq]
      constructor
      · intro hcard
        have hcard2 : ((keywords toLowerCase item1).toFinset
            ∪ (keywords toLowerCase item2).toFinset).card
            ≤ ((keywords toLowerCase item1).toFinset
              ∩ (keywords toLowerCase item2).toFinset).card := by
          have : ((keywords toLowerCase item1).toFinset
              ∩ (keywords toLowerCase item2).toFinset).card
              = ((keywords toLowerCase item1).toFinset
                ∪ (keywords toLowerCase item2).toFinset).card := by exact_mod_cast hcard
          omega
        have heq := Finset.eq_of_subset_of_card_le hsub hcard2
        refine ⟨h1, h2, ?_⟩
        ext x
        constructor
        · intro hx
          have : x ∈ (keywords toLowerCase item1).toFinset
              ∩ (keywords toLowerCase item2).toFinset := by
            rw [heq]; exact Finset.mem_union_left _ hx
          exact (Finset.mem_inter.mp this).2
        · intro hx
          have : x ∈ (keywords toLowerCase item1).toFinset
              ∩ (keywords toLowerCase item2).toFinset := by
            rw [heq]; exact Finset.mem_union_right _ hx
          exact (Finset.mem_inter.mp this).1
      · rintro ⟨_, _, heq⟩
        rw [heq, Finset.inter_self, Finset.union_self]

/-- C28: for two items of different categories that get a score, the score reaches the threshold
`0.7` exactly when the location, date and keyword factors are all `1`, and it is then exactly
`0.7`; the three factors are `1` exactly for identical normalized location labels, dates at
most one day apart and identical non-empty keyword sets; so every strong match of a subject
with an item of another category has score `0.7` and these three factors equal to `1`. -/
theorem calculateSimilarity_across_categories (toLowerCase : List Char → List Char) (A : Item) :
    (∀ (B : Item) (score : ℚ), A.category ≠ B.category →
        calculateSimilarity toLowerCase A B = some score →
        (matchThreshold ≤ score ↔
          calculateLocationSimilarity toLowerCase A.location B.location = some 1 ∧
          calculateDateSimilarity A.date B.date = 1 ∧
          calculateKeywordSimilarity toLowerCase A B = 1) ∧
        (matchThreshold ≤ score → score = 7 / 10)) ∧
      (∀ B : Item,
        (calculateLocationSimilarity toLowerCase A.location B.location = some 1 ↔
          locationFalsy A.location = false ∧ locationFalsy B.location = false ∧
            ∃ l1 l2, locationLabel A.location = some l1 ∧ locationLabel B.location = some l2 ∧
              trim (toLowerCase l1) = trim (toLowerCase l2)) ∧
        (calculateDateSimilarity A.date B.date = 1 ↔
          ∃ t1 t2, A.date = some t1 ∧ B.date = some t2 ∧ |t1 - t2| ≤ dayMs) ∧
        (calculateKeywordSimilarity toLowerCase A B = 1 ↔
          keywords toLowerCase A ≠ [] ∧ keywords toLowerCase B ≠ [] ∧
            (keywords toLowerCase A).toFinset = (keywords toLowerCase B).toFinset)) ∧
      (∀ (candidates : List Item) (result : List ScoredMatch),
        calculateMatchScores toLowerCase A candidates = some result →
        ∀ m ∈ result, A.category ≠ m.item.category →
          m.score = 7 / 10 ∧
          calculateLocationSimilarity toLowerCase A.location m.item.location = some 1 ∧
          calculateDateSimilarity A.date m.item.date = 1 ∧
          calculateKeywordSimilarity toLowerCase A m.item = 1) := by
  have hmain : ∀ (B : Item) (score : ℚ), A.category ≠ B.category →
      calculateSimilarity toLowerCase A B = some score →
      (matchThreshold ≤ score ↔
        calculateLocationSimilarity toLowerCase A.location B.location = some 1 ∧
        calculateDateSimilarity A.date B.date = 1 ∧
        calculateKeywordSimilarity toLowerCase A B = 1) ∧
      (matchThreshold ≤ score → score = 7 / 10) := by
    intro B score hcat h
    rw [calculateSimilarity_eq] at h
    cases hl : calculateLocationSimilarity toLowerCase A.location B.location with
    | none => rw [hl] at h; cases h
    | some locationScore =>
      rw [hl, if_neg hcat] at h
      simp only [Option.map_some', Option.some.injEq] at h
      obtain ⟨_, hl1⟩ := calculateLocationSimilarity_range _ _ _ _ hl
      obtain ⟨_, hd1⟩ := calculateDateSimilarity_range A.date B.date
      obtain ⟨_, hk1⟩ := calculateKeywordSimilarity_range toLowerCase A B
      have hiff : matchThreshold ≤ score ↔
          locationScore = 1 ∧ calculateDateSimilarity A.date B.date = 1 ∧
            calculateKeywordSimilarity toLowerCase A B = 1 := by
        unfold matchThreshold
        constructor
        · intro hs
          refine ⟨?_, ?_, ?_⟩ <;> linarith
        · rintro ⟨e1, e2, e3⟩
          rw [← h, e1, e2, e3]
          norm_num
      constructor
      · rw [hiff]
        constructor
        · rintro ⟨e1, e2, e3⟩
          exact ⟨by rw [e1], e2, e3⟩
        · rintro ⟨e1, e2, e3⟩
          exact ⟨Option.some.inj e1, e2, e3⟩
      · intro hs
        obtain ⟨e1, e2, e3⟩ := hiff.mp hs
        rw [← h, e1, e2, e3]
        norm_num
  refine ⟨hmain, fun B => ⟨calculateLocationSimilarity_eq_one_iff _ _ _,
    calculateDateSimilarity_eq_one_iff _ _, calculateKeywordSimilarity_eq_one_iff _ _ _⟩, ?_⟩
  intro candidates result hres m hm hcat
  unfold calculateMatchScores at hres
  cases hk : collectMatches toLowerCase A candidates with
  | none => rw [hk] at hres; cases hres
  | some kept =>
    rw [hk] at hres
    simp only [Option.some.injEq] at hres
    have hq := collectMatches_eq_qualifying _ _ _ _ hk
    subst hq
    rw [← hres] at hm
    have hmem := (List.perm_insertionSort _ _).subset (List.mem_of_mem_take hm)
    obtain ⟨_, hs, hthr⟩ := (mem_qualifying _ _ _ _).mp hmem
    obtain ⟨hiff, heq⟩ := hmain m.item m.score hcat hs
    exact ⟨heq hthr, hiff.mp hthr⟩

/-! ## The subject's `matchScore` after a run -/

theorem matchesQuery_id_ne (newItem : Item) (itemDate : Int) (doc : Item)
    (h : matchesQuery newItem itemDate doc = true) : doc._id ≠ newItem._id := by
  unfold matchesQuery at h
  simp only [Bool.and_eq_true, decide_eq_true_eq] at h
  exact h.1.1.2

theorem findPotentialMatches_id_ne (store : List Item) (newItem : Item) (candidates : List Item)
    (h : findPotentialMatches store newItem = some candidates) :
    ∀ doc ∈ candidates, doc._id ≠ newItem._id := by
  unfold findPotentialMatches at h
  cases hd : newItem.date with
  | none => rw [hd] at h; cases h
  | some itemDate =>
    rw [hd] at h
    simp only [Option.some.injEq] at h
    intro doc hdoc
    rw [← h] at hdoc
    exact matchesQuery_id_ne newItem itemDate doc
      (List.mem_filter.mp (List.mem_of_mem_take hdoc)).2

theorem calculateMatchScores_sorted (toLowerCase : List Char → List Char) (newItem : Item)
    (candidates : List Item) (result : List ScoredMatch)
    (h : calculateMatchScores toLowerCase newItem candidates = some result) :
    (∀ m ∈ result, m.item ∈ candidates) ∧
      (result.map (fun m => m.score)).Pairwise (fun a b => a ≥ b) := by
  haveI : IsTotal ScoredMatch (fun a b => a.score ≥ b.score) := ⟨fun a b => le_total b.score a.score⟩
  haveI : IsTrans ScoredMatch (fun a b => a.score ≥ b.score) :=
    ⟨fun a b c hab hbc => le_trans hbc hab⟩
  unfold calculateMatchScores at h
  cases hk : collectMatches toLowerCase newItem candidates with
  | none => rw [hk] at h; cases h
  | some kept =>
    rw [hk] at h
    simp only [Option.some.injEq] at h
    have hq := collectMatches_eq_qualifying _ _ _ _ hk
    subst hq
    constructor
    · intro m hm
      rw [← h] at hm
      exact ((mem_qualifying _ _ _ _).mp
        ((List.perm_insertionSort _ _).subset (List.mem_of_mem_take hm))).1
    · rw [← h, List.pairwise_map]
      exact (List.sorted_insertionSort (fun a b : ScoredMatch => a.score ≥ b.score) _).take

/-- In a list of scores that never increase, the last one is the smallest. -/
theorem getLast_le_of_pairwise (scores : List ℚ) (last : ℚ)
    (hs : scores.Pairwise (fun a b => a ≥ b)) (hl : scores.getLast? = some last) :
    ∀ score ∈ scores, last ≤ score := by
  intro score hscore
  obtain ⟨init, rfl⟩ : ∃ init, scores = init ++ [last] := by
    cases hne : scores with
    | nil => rw [hne] at hl; cases hl
    | cons a l =>
      have hnn : a :: l ≠ [] := List.cons_ne_nil a l
      refine ⟨(a :: l).dropLast, ?_⟩
      rw [hne, List.getLast?_eq_getLast _ hnn] at hl
      have := List.dropLast_append_getLast hnn
      rw [Option.some.inj hl] at this
      exact this.symm
  rcases List.mem_append.mp hscore with hi | hlast
  · exact (List.pairwise_append.mp hs).2.2 score hi last (List.mem_singleton.mpr rfl)
  · rw [List.mem_singleton.mp hlast]

/-- The subject after the loop over the strong matches: the links created are appended, in the
order of the loop, and the `matchScore` is the score of the last of them. -/
theorem processStrongMatches_subject (env : Nat → MatchEnv) (newItem : Item)
    (hfree : ∀ k, (env k).faults = {}) (ms : List ScoredMatch) :
    ∀ (k : Nat) (db : Db) (x : Item),
      (∀ m ∈ ms, m.item._id ≠ newItem._id) →
      findById db.items newItem._id = some x →
      ∃ created : List MatchedItem,
        findById (processStrongMatches env newItem k db ms).items newItem._id
          = some { x with
              matchedItems := x.matchedItems ++ created
              matchScore := ((created.getLast?).map (fun link => link.score)).getD x.matchScore } ∧
        (created.map (fun link => link.score)).Sublist (ms.map (fun m => m.score)) := by
  induction ms with
  | nil =>
    intro k db x _ hx
    refine ⟨[], ?_, List.Sublist.slnil⟩
    simp only [processStrongMatches, List.append_nil, List.getLast?_nil, Option.map_none',
      Option.getD_none]
    exact hx
  | cons m rest ih =>
    intro k db x hne hx
    have hm : m.item._id ≠ newItem._id := hne m (List.mem_cons_self _ _)
    have hrest : ∀ m2 ∈ rest, m2.item._id ≠ newItem._id :=
      fun m2 h2 => hne m2 (List.mem_cons_of_mem _ h2)
    obtain ⟨hc, h1, h2, _⟩ := faults_of_free (env k) (hfree k)
    unfold processStrongMatches
    cases he : checkExistingMatch db newItem._id m.item._id
    · have hx1 : findById (processMatch (env k) db newItem m.item m.score).items newItem._id
          = some (pushMatch m.item._id m.score (env k).linkTime1 x) := by
        rw [processMatch_items (env k) db newItem m.item m.score hc he h1 h2,
          findById_updateItemMatches_other _ _ _ _ _ _ (Ne.symm hm)]
        exact findById_updateItemMatches_self _ _ _ _ _ _ hx
      obtain ⟨created, hfind, hsub⟩ := ih (k + 1) _ _ hrest hx1
      refine ⟨{ item := m.item._id, score := m.score, matchedAt := (env k).linkTime1 } :: created,
        ?_, ?_⟩
      · rw [hfind]
        cases created with
        | nil => simp [pushMatch]
        | cons c cs =>
          simp only [pushMatch, List.getLast?_cons_cons, List.append_assoc, List.singleton_append]
          rw [List.getLast?_eq_getLast _ (List.cons_ne_nil c cs)]
          rfl
      · simp only [List.map_cons]
        exact hsub.cons₂ _
    · rw [processMatch_of_existing (env k) db newItem m.item m.score he]
      obtain ⟨created, hfind, hsub⟩ := ih (k + 1) db x hrest hx
      exact ⟨created, hfind, hsub.cons _⟩

/-- C30: after a failure-free `processMatches` run the subject holds its former links followed by
the links created in the run, and, when at least one was created, its `matchScore` is the score
of the last link created, which is the smallest score among the links created in the run. -/
theorem processMatches_matchScore (toLowerCase : List Char → List Char) (env : Nat → MatchEnv)
    (db : Db) (newItemId : Nat) (x : Item)
    (hx : findById db.items newItemId = some x) (hfree : ∀ k, (env k).faults = {}) :
    ∃ created : List MatchedItem,
      findById (processMatches toLowerCase env db newItemId).items newItemId
        = some { x with
            matchedItems := x.matchedItems ++ created
            matchScore := ((created.getLast?).map (fun link => link.score)).getD x.matchScore } ∧
      (∀ last, created.getLast? = some last →
        ((created.getLast?).map (fun link => link.score)).getD x.matchScore = last.score ∧
        ∀ link ∈ created, last.score ≤ link.score) := by
  have hid := findById_id _ _ _ hx
  have hnone : ∃ created : List MatchedItem,
      findById db.items newItemId
        = some { x with
            matchedItems := x.matchedItems ++ created
            matchScore := ((created.getLast?).map (fun link => link.score)).getD x.matchScore } ∧
      (∀ last, created.getLast? = some last →
        ((created.getLast?).map (fun link => link.score)).getD x.matchScore = last.score ∧
        ∀ link ∈ created, last.score ≤ link.score) := by
    refine ⟨[], ?_, ?_⟩
    · simp only [List.append_nil, List.getLast?_nil, Option.map_none', Option.getD_none]
      exact hx
    · intro last hl
      simp at hl
  unfold processMatches
  rw [hx]
  simp only []
  cases hf : findPotentialMatches db.items x with
  | none => exact hnone
  | some potentialMatches =>
    simp only []
    split
    · exact hnone
    · cases hs : calculateMatchScores toLowerCase x potentialMatches with
      | none => exact hnone
      | some strongMatches =>
        simp only []
        split
        · exact hnone
        · obtain ⟨hmem, hsorted⟩ := calculateMatchScores_sorted _ _ _ _ hs
          have hne : ∀ m ∈ strongMatches, m.item._id ≠ x._id := fun m hm =>
            findPotentialMatches_id_ne _ _ _ hf _ (hmem m hm)
          obtain ⟨created, hfind, hsub⟩ := processStrongMatches_subject env x hfree strongMatches
            0 db x hne (by rw [hid]; exact hx)
          refine ⟨created, by rw [← hid]; exact hfind, ?_⟩
          intro last hl
          refine ⟨by rw [hl]; rfl, ?_⟩
          intro link hlink
          have hpw : (created.map (fun link => link.score)).Pairwise (fun a b => a ≥ b) :=
            hsorted.sublist hsub
          have hlast : (created.map (fun link => link.score)).getLast? = some last.score := by
            rw [List.getLast?_map, hl]
            rfl
          exact getLast_le_of_pairwise _ _ hpw hlast _ (List.mem_map.mpr ⟨link, hlink, rfl⟩)

/-- Witness of C30: the run on the lost keys in the store of the lost and the found keys. -/
theorem processMatches_matchScore_witness :
    ∃ created : List MatchedItem,
      findById (processMatches asciiLowerCase (fun _ => calmEnv) keysDb 4).items 4
        = some { lostKeys with
            matchedItems := lostKeys.matchedItems ++ created
            matchScore :=
              ((created.getLast?).map (fun link => link.score)).getD lostKeys.matchScore } ∧
      (∀ last, created.getLast? = some last →
        ((created.getLast?).map (fun link => link.score)).getD lostKeys.matchScore = last.score ∧
        ∀ link ∈ created, last.score ≤ link.score) :=
  processMatches_matchScore asciiLowerCase (fun _ => calmEnv) keysDb 4 lostKeys rfl (fun _ => rfl)

theorem aliceFound_lostKeys_score :
    calculateSimilarity asciiLowerCase aliceFound lostKeys = some (4 / 5) :=
  foundKeys_lostKeys_score

/-- C21, evaluated where it fails: the pipeline selects the lost keys as a candidate for the found
keys although Alice posted both, and the run ends with a conversation whose two participants
are the same user. -/
theorem createMatchChat_same_poster :
    aliceFound.type = ItemType.found ∧ lostKeys.type = ItemType.lost ∧
      aliceFound.postedBy = lostKeys.postedBy ∧
      findPotentialMatches sameUserDb.items aliceFound = some [lostKeys] ∧
      (processMatches asciiLowerCase (fun _ => calmEnv) sameUserDb 5).chats.map
          (fun chat => chat.participants.map (fun p => p.userId)) = [[1, 1]] := by
  have hfind : findPotentialMatches sameUserDb.items aliceFound = some [lostKeys] := rfl
  have hscores : calculateMatchScores asciiLowerCase aliceFound [lostKeys]
      = some [{ item := lostKeys, score := 4 / 5 }] := by
    unfold calculateMatchScores collectMatches collectMatches
    rw [aliceFound_lostKeys_score]
    simp only []
    rw [if_pos (show (4 / 5 : ℚ) ≥ matchThreshold by norm_num [matchThreshold])]
    rfl
  have hrun := processMatches_of_single asciiLowerCase (fun _ => calmEnv) sameUserDb 5 aliceFound
    lostKeys [] { item := lostKeys, score := 4 / 5 } rfl hfind hscores
  refine ⟨rfl, rfl, rfl, hfind, ?_⟩
  rw [hrun]
  rfl

/-- C27, evaluated where it fails: with the found keys passed first, as `processMatches` does
when the found item is the new one, the saved conversation is anchored to the found keys, not
to the lost keys; with the lost keys passed first no conversation is saved at all. -/
theorem createMatchChat_anchor :
    foundKeys.type = ItemType.found ∧ lostKeys.type = ItemType.lost ∧
      foundKeys._id = 5 ∧ lostKeys._id = 4 ∧
      (createMatchChat calmEnv keysDb foundKeys lostKeys).chats.map (fun chat => chat.item) = [5] ∧
      (createMatchChat calmEnv keysDb lostKeys foundKeys).chats = [] := by
  refine ⟨rfl, rfl, rfl, rfl, rfl, rfl⟩

end MatchingService

namespace ChatRoutes

open MatchingService

/-! ## Properties of the chat routes -/

set_option maxRecDepth 8000

/-! ### The update of one conversation -/

theorem forall₂_self (R : Chat → Chat → Prop) (hrefl : ∀ c, R c c) :
    ∀ chats : List Chat, List.Forall₂ R chats chats
  | [] => List.Forall₂.nil
  | c :: rest => List.Forall₂.cons (hrefl c) (forall₂_self R hrefl rest)

theorem forall₂_chain (R : Chat → Chat → Prop) (htrans : ∀ a b c, R a b → R b c → R a c) :
    ∀ {l1 l2 l3 : List Chat}, List.Forall₂ R l1 l2 → List.Forall₂ R l2 l3 → List.Forall₂ R l1 l3
  | _, _, _, List.Forall₂.nil, List.Forall₂.nil => List.Forall₂.nil
  | _, _, _, List.Forall₂.cons h1 t1, List.Forall₂.cons h2 t2 =>
    List.Forall₂.cons (htrans _ _ _ h1 h2) (forall₂_chain R htrans t1 t2)

theorem updateChat_forall₂ (R : Chat → Chat → Prop) (query : Chat → Bool) (update : Chat → Chat)
    (hrefl : ∀ c, R c c) (hupdate : ∀ c, R c (update c)) :
    ∀ chats : List Chat, List.Forall₂ R chats (updateChat query update chats)
  | [] => List.Forall₂.nil
  | c :: rest => by
    unfold updateChat
    by_cases h : query c = true
    · rw [if_pos h]
      exact List.Forall₂.cons (hupdate c) (forall₂_self R hrefl rest)
    · rw [if_neg h]
      exact List.Forall₂.cons (hrefl c) (updateChat_forall₂ R query update hrefl hupdate rest)

theorem sendMessage_forall₂ (R : Chat → Chat → Prop) (hrefl : ∀ c, R c c)
    (hsend : ∀ c t, R c { c with totalMessages := c.totalMessages + 1, lastActivity := t })
    (env : RouteEnv) (db : Db) (conversationId text : String) (userId : Nat) :
    List.Forall₂ R db.chats (sendMessage env db conversationId text userId).1.chats := by
  unfold sendMessage
  split
  · exact forall₂_self R hrefl _
  · split
    · exact forall₂_self R hrefl _
    · split
      · exact forall₂_self R hrefl _
      · dsimp only
        split
        · exact forall₂_self R hrefl _
        · split <;> exact updateChat_forall₂ R _ _ hrefl (fun c => hsend c env.now) _

theorem fetchHistory_forall₂ (R : Chat → Chat → Prop) (hrefl : ∀ c, R c c)
    (htrans : ∀ a b c, R a b → R b c → R a c)
    (hseen : ∀ c u t, R c { c with
      participants := c.participants.map (fun p =>
        if p.userId = u then { p with lastSeen := t } else p) })
    (hread : ∀ c, R c { c with unreadCount := 0 })
    (env : RouteEnv) (db : Db) (conversationId : String) (userId : Nat) :
    List.Forall₂ R db.chats (fetchHistory env db conversationId userId).1.chats := by
  unfold fetchHistory
  split
  · exact forall₂_self R hrefl _
  · exact forall₂_chain R htrans
      (updateChat_forall₂ R _ _ hrefl (fun c => hseen c userId env.later) _)
      (updateChat_forall₂ R _ _ hrefl hread _)

theorem markRead_forall₂ (R : Chat → Chat → Prop) (hrefl : ∀ c, R c c)
    (hread : ∀ c, R c { c with unreadCount := 0 })
    (env : RouteEnv) (db : Db) (conversationId : String) (userId : Nat) :
    List.Forall₂ R db.chats (markRead env db conversationId userId).1.chats := by
  unfold markRead
  split
  · exact forall₂_self R hrefl _
  · exact updateChat_forall₂ R _ _ hrefl hread _

theorem resolveChat_forall₂ (R : Chat → Chat → Prop) (hrefl : ∀ c, R c c)
    (hresolve : ∀ c r t,
      R c { c with status := ChatStatus.resolved, resolution := r, lastActivity := t })
    (env : RouteEnv) (db : Db) (conversationId : String) (userId : Nat)
    (resolutionNotes : Option String) (itemReturned : Bool) :
    List.Forall₂ R db.chats
      (resolveChat env db conversationId userId resolutionNotes itemReturned).1.chats := by
  unfold resolveChat
  split
  · exact forall₂_self R hrefl _
  · dsimp only
    split
    · exact updateChat_forall₂ R _ _ hrefl (fun c => hresolve c _ _) _
    · split
      · exact updateChat_forall₂ R _ _ hrefl (fun c => hresolve c _ _) _
      · split <;> exact updateChat_forall₂ R _ _ hrefl (fun c => hresolve c _ _) _

theorem closeChat_forall₂ (R : Chat → Chat → Prop) (hrefl : ∀ c, R c c)
    (hclose : ∀ c t, R c { c with status := ChatStatus.closed, lastActivity := t })
    (env : RouteEnv) (db : Db) (conversationId : String) (userId : Nat) :
    List.Forall₂ R db.chats (closeChat env db conversationId userId).1.chats := by
  unfold closeChat
  split
  · exact forall₂_self R hrefl _
  · dsimp only
    split
    · exact updateChat_forall₂ R _ _ hrefl (fun c => hclose c _) _
    · split <;> exact updateChat_forall₂ R _ _ hrefl (fun c => hclose c _) _

theorem chatStep_forall₂ (R : Chat → Chat → Prop) (hrefl : ∀ c, R c c)
    (htrans : ∀ a b c, R a b → R b c → R a c)
    (hsend : ∀ c t, R c { c with totalMessages := c.totalMessages + 1, lastActivity := t })
    (hseen : ∀ c u t, R c { c with
      participants := c.participants.map (fun p =>
        if p.userId = u then { p with lastSeen := t } else p) })
    (hread : ∀ c, R c { c with unreadCount := 0 })
    (hresolve : ∀ c r t,
      R c { c with status := ChatStatus.resolved, resolution := r, lastActivity := t })
    (hclose : ∀ c t, R c { c with status := ChatStatus.closed, lastActivity := t })
    {db db2 : Db} (step : ChatStep db db2) : List.Forall₂ R db.chats db2.chats := by
  cases step with
  | send env _ cid text u => exact sendMessage_forall₂ R hrefl hsend env db cid text u
  | fetchHistory env _ cid u => exact fetchHistory_forall₂ R hrefl htrans hseen hread env db cid u
  | markRead env _ cid u => exact markRead_forall₂ R hrefl hread env db cid u
  | resolve env _ cid u notes returned =>
    exact resolveChat_forall₂ R hrefl hresolve env db cid u notes returned
  | close env _ cid u => exact closeChat_forall₂ R hrefl hclose env db cid u

theorem chatSteps_forall₂ (R : Chat → Chat → Prop) (hrefl : ∀ c, R c c)
    (htrans : ∀ a b c, R a b → R b c → R a c)
    (hsend : ∀ c t, R c { c with totalMessages := c.totalMessages + 1, lastActivity := t })
    (hseen : ∀ c u t, R c { c with
      participants := c.participants.map (fun p =>
        if p.userId = u then { p with lastSeen := t } else p) })
    (hread : ∀ c, R c { c with unreadCount := 0 })
    (hresolve : ∀ c r t,
      R c { c with status := ChatStatus.resolved, resolution := r, lastActivity := t })
    (hclose : ∀ c t, R c { c with status := ChatStatus.closed, lastActivity := t })
    {db db2 : Db} (steps : Relation.ReflTransGen ChatStep db db2) :
    List.Forall₂ R db.chats db2.chats := by
  induction steps with
  | refl => exact forall₂_self R hrefl _
  | tail _ step ih =>
    exact forall₂_chain R htrans ih
      (chatStep_forall₂ R hrefl htrans hsend hseen hread hresolve hclose step)

theorem forall₂_invariant (R : Chat → Chat → Prop) (P : Chat → Prop)
    (hkeep : ∀ c c2, R c c2 → P c → P c2) :
    ∀ {l1 l2 : List Chat}, List.Forall₂ R l1 l2 → (∀ c ∈ l1, P c) → ∀ c ∈ l2, P c
  | _, _, List.Forall₂.nil, _ => fun c hc => absurd hc (List.not_mem_nil c)
  | _, _, List.Forall₂.cons h t, hall => fun c hc => by
    rcases List.mem_cons.mp hc with rfl | hc
    · exact hkeep _ _ h (hall _ (List.mem_cons_self _ _))
    · exact forall₂_invariant R P hkeep t
        (fun c2 hc2 => hall c2 (List.mem_cons_of_mem _ hc2)) c hc

theorem forall₂_map_eq {β : Type} (g : Chat → β) :
    ∀ {l1 l2 : List Chat}, List.Forall₂ (fun c c2 => g c2 = g c) l1 l2 → l2.map g = l1.map g
  | _, _, List.Forall₂.nil => rfl
  | _, _, List.Forall₂.cons h t => by
    rw [List.map_cons, List.map_cons, h, forall₂_map_eq g t]

theorem createMatchChat_chats (env : MatchEnv) (db : Db) (item1 item2 : Item) :
    (createMatchChat env db item1 item2).chats = db.chats ∨
      ∃ user1 user2, poster db item1 = some user1 ∧ poster db item2 = some user2 ∧
        chatValid db (matchChat env item1 item2 user1 user2) = true ∧
        (createMatchChat env db item1 item2).chats
          = db.chats ++ [matchChat env item1 item2 user1 user2] := by
  unfold createMatchChat
  split
  · rename_i user1 user2 h1 h2
    split
    · exact Or.inl rfl
    · split
      · exact Or.inl rfl
      · dsimp only
        split
        · exact Or.inl rfl
        · rename_i hvalid
          have hv : chatValid db (matchChat env item1 item2 user1 user2) = true := by
            simp only [Bool.or_eq_true, Bool.not_eq_true', not_or, Bool.not_eq_true,
              Bool.not_eq_false] at hvalid
            exact hvalid.2
          split
          · exact Or.inr ⟨user1, user2, h1, h2, hv, rfl⟩
          · exact Or.inr ⟨user1, user2, h1, h2, hv, rfl⟩
  · exact Or.inl rfl


theorem updateChat_append_new (query : Chat → Bool) (update : Chat → Chat) (chat : Chat)
    (hchat : query chat = true) :
    ∀ chats : List Chat, (∀ c ∈ chats, query c = false) →
      updateChat query update (chats ++ [chat]) = chats ++ [update chat]
  | [], _ => by
    simp only [List.nil_append, updateChat, hchat, if_true]
  | c :: rest, hnone => by
    have hc : query c = false := hnone c (List.mem_cons_self _ _)
    have ih := updateChat_append_new query update chat hchat rest
      (fun c2 hc2 => hnone c2 (List.mem_cons_of_mem _ hc2))
    rw [List.cons_append, updateChat, if_neg (by rw [hc]; exact Bool.false_ne_true), ih,
      List.cons_append]

theorem fresh_of_chatValid (db : Db) (chat : Chat) (hvalid : chatValid db chat = true) :
    ∀ c ∈ db.chats, decide (c.conversationId = chat.conversationId) = false := by
  intro c hc
  unfold chatValid at hvalid
  simp only [Bool.and_eq_true, Bool.not_eq_true', List.any_eq_false] at hvalid
  have := hvalid.2 c hc
  simpa using this

/-- What `POST /chat/start` leaves in the conversation collection: nothing new, the new record,
or the new record with its counters updated. -/
theorem startChat_chats (env : RouteEnv) (db : Db) (itemId : Option Nat) (userId : Nat) :
    ((startChat env db itemId userId).1.chats = db.chats ∧
        ∀ cid, (startChat env db itemId userId).2 ≠ StartResult.started cid) ∨
      ∃ id item itemOwner currentUser, itemId = some id ∧ findById db.items id = some item ∧
        poster db item = some itemOwner ∧ itemOwner._id ≠ userId ∧ currentUser._id = userId ∧
        (((startChat env db itemId userId).1.chats
            = db.chats ++ [startedChat env id itemOwner currentUser] ∧
            ∀ cid, (startChat env db itemId userId).2 ≠ StartResult.started cid) ∨
          (startChat env db itemId userId).1.chats
            = db.chats ++ [{ startedChat env id itemOwner currentUser with
                              totalMessages := 1, lastActivity := env.later }]) := by
  unfold startChat
  split
  · exact Or.inl ⟨rfl, fun _ h => by cases h⟩
  · rename_i id
    split
    · exact Or.inl ⟨rfl, fun _ h => by cases h⟩
    · rename_i item hitem
      split
      · exact Or.inl ⟨rfl, fun _ h => by cases h⟩
      · rename_i itemOwner howner
        split
        · exact Or.inl ⟨rfl, fun _ h => by cases h⟩
        · rename_i hne
          split
          · exact Or.inl ⟨rfl, fun _ h => by cases h⟩
          · split
            · exact Or.inl ⟨rfl, fun _ h => by cases h⟩
            · rename_i currentUser huser
              have hid : currentUser._id = userId := by
                have := List.find?_some huser
                simpa using this
              dsimp only
              split
              · exact Or.inl ⟨rfl, fun _ h => by cases h⟩
              · rename_i hvalid
                have hv : chatValid db (startedChat env id itemOwner currentUser) = true := by
                  simpa using hvalid
                refine Or.inr ⟨id, item, itemOwner, currentUser, rfl, hitem, howner, hne, hid, ?_⟩
                split
                · exact Or.inl ⟨rfl, fun _ h => by cases h⟩
                · right
                  exact updateChat_append_new _ _ _ (by simp [startedChat]) _
                    (fresh_of_chatValid db _ hv)

/-- The start-chat route never opens a conversation of a user with themselves: a request that
starts a conversation appends one record whose two participants are the poster of the item and
the requesting user, and these differ. -/
theorem startChat_participants (env : RouteEnv) (db : Db) (itemId : Option Nat) (userId : Nat)
    (cid : String) (hstarted : (startChat env db itemId userId).2 = StartResult.started cid) :
    ∃ chat p1 p2, (startChat env db itemId userId).1.chats = db.chats ++ [chat] ∧
      chat.participants = [p1, p2] ∧ p1.userId ≠ p2.userId := by
  rcases startChat_chats env db itemId userId with
    ⟨_, h⟩ | ⟨id, item, itemOwner, currentUser, _, _, _, hne, hid, ⟨_, h⟩ | h⟩
  · exact absurd hstarted (h cid)
  · exact absurd hstarted (h cid)
  · exact ⟨_, _, _, h, rfl, by rw [hid]; exact hne⟩

/-! ### Starting a conversation after a match -/

/-- C22, as stated, fails for the matched item that is not the anchor: after `createMatchChat`
created `chat_1`, anchored to the found keys, a start-chat request on the lost keys by Bob, the
owner of the found keys, finds no conversation on that item and creates a second one. -/
theorem startChat_after_match_counterexample :
    matchedDb.chats.map (fun chat => (chat.conversationId, chat.item)) = [("chat_1", 5)] ∧
      poster matchedDb foundKeys = some bob ∧
      (startChat routeEnv matchedDb (some 4) 2).2 = StartResult.started "chat_2" ∧
      (startChat routeEnv matchedDb (some 4) 2).1.chats.map
          (fun chat => (chat.conversationId, chat.item)) = [("chat_1", 5), ("chat_2", 4)] := by
  refine ⟨rfl, rfl, rfl, rfl⟩

/-- C22, amended: after `createMatchChat(A, B)` has created a conversation, which is anchored to
its first argument `A`, a start-chat request on `A` by the poster of `B` returns the id of that
conversation and leaves the state as it was, when the two posters differ and the poster of `B`
had no active or resolved conversation on `A` before. -/
theorem startChat_after_match (menv : MatchEnv) (renv : RouteEnv) (db : Db) (A B a : Item)
    (user1 user2 : User)
    (hcreated : (createMatchChat menv db A B).chats
      = db.chats ++ [matchChat menv A B user1 user2])
    (hstored : findById db.items A._id = some a) (hposter : poster db a = some user1)
    (hdistinct : user1._id ≠ user2._id)
    (hfresh : ∀ chat ∈ db.chats, startQuery A._id user2._id chat = false) :
    startChat renv (createMatchChat menv db A B) (some A._id) user2._id
      = (createMatchChat menv db A B, StartResult.existing menv.conversationId) := by
  have hitems : (createMatchChat menv db A B).items = db.items :=
    (createMatchChat_items menv db A B).1
  have husers : (createMatchChat menv db A B).users = db.users :=
    (createMatchChat_items menv db A B).2.1
  have hposter2 : poster (createMatchChat menv db A B) a = some user1 := by
    unfold poster
    rw [husers]
    exact hposter
  have hquery : startQuery A._id user2._id (matchChat menv A B user1 user2) = true := by
    simp [startQuery, matchChat, isParticipant]
  have hfind : (createMatchChat menv db A B).chats.find? (startQuery A._id user2._id)
      = some (matchChat menv A B user1 user2) := by
    rw [hcreated, List.find?_append, List.find?_eq_none.mpr
      (fun chat hchat => by rw [hfresh chat hchat]; exact Bool.false_ne_true)]
    simp only [Option.none_or, List.find?_cons_of_pos _ hquery]
  unfold startChat
  simp only [hitems, hstored, hposter2, if_neg hdistinct, hfind]
  rfl

/-- Witness of C22: Alice, who lost the keys, asks to chat about the found keys, to which the
conversation of the match is anchored, and gets `chat_1`. -/
theorem startChat_after_match_witness :
    matchedDb.chats.map (fun chat => (chat.conversationId, chat.item)) = [("chat_1", 5)] ∧
      startChat routeEnv matchedDb (some 5) 1 = (matchedDb, StartResult.existing "chat_1") :=
  ⟨rfl, startChat_after_match calmEnv routeEnv keysDb foundKeys lostKeys foundKeys bob alice
    rfl rfl rfl (by decide) (fun chat hchat => absurd hchat (List.not_mem_nil chat))⟩

/-! ### The guard of the send route -/

theorem sendMessage_of_rejected (env : RouteEnv) (db : Db) (conversationId text : String)
    (userId : Nat)
    (hrejected : (sendMessage env db conversationId text userId).2 ≠ RouteResult.ok) :
    (sendMessage env db conversationId text userId).1 = db := by
  revert hrejected
  unfold sendMessage
  split
  · exact fun _ => rfl
  · split
    · exact fun _ => rfl
    · split
      · exact fun _ => rfl
      · dsimp only
        split
        · exact fun _ => rfl
        · split <;> exact fun h => absurd rfl h

theorem sendQuery_iff (conversationId : String) (userId : Nat) (chat : Chat) :
    sendQuery conversationId userId chat = true ↔
      chat.conversationId = conversationId ∧ chat.status = ChatStatus.active ∧
        isParticipant chat userId = true := by
  unfold sendQuery
  simp only [Bool.and_eq_true, decide_eq_true_eq]
  tauto

/-- The guard of the send route on any store: a request whose conversation does not exist, is
not in status `active`, or does not list the sender among its participants fails and leaves the
whole state as it was; every failing request leaves the state as it was; and a message is
persisted only when the sender is listed in an active conversation. -/
theorem sendMessage_of_member (env : RouteEnv) (db : Db) (conversationId text : String)
    (userId : Nat) :
    ((∀ chat ∈ db.chats, ¬ (chat.conversationId = conversationId ∧
        chat.status = ChatStatus.active ∧ isParticipant chat userId = true)) →
      (sendMessage env db conversationId text userId).1 = db ∧
        (sendMessage env db conversationId text userId).2 ≠ RouteResult.ok) ∧
      ((sendMessage env db conversationId text userId).2 ≠ RouteResult.ok →
        (sendMessage env db conversationId text userId).1 = db) ∧
      ((sendMessage env db conversationId text userId).1.messages ≠ db.messages →
        ∃ chat ∈ db.chats, chat.conversationId = conversationId ∧
          chat.status = ChatStatus.active ∧ isParticipant chat userId = true) := by
  have hnone : (∀ chat ∈ db.chats, ¬ (chat.conversationId = conversationId ∧
        chat.status = ChatStatus.active ∧ isParticipant chat userId = true)) →
      (sendMessage env db conversationId text userId).2 ≠ RouteResult.ok := by
    intro hall
    have hfind : db.chats.find? (sendQuery conversationId userId) = none := by
      rw [List.find?_eq_none]
      intro chat hchat hq
      exact hall chat hchat ((sendQuery_iff conversationId userId chat).mp hq)
    unfold sendMessage
    split
    · exact fun h => by cases h
    · rw [hfind]
      exact fun h => by cases h
  refine ⟨fun hall => ⟨sendMessage_of_rejected env db conversationId text userId (hnone hall),
    hnone hall⟩, sendMessage_of_rejected env db conversationId text userId, ?_⟩
  intro hchanged
  by_contra hno
  apply hchanged
  have hall : ∀ chat ∈ db.chats, ¬ (chat.conversationId = conversationId ∧
      chat.status = ChatStatus.active ∧ isParticipant chat userId = true) :=
    fun chat hchat h => hno ⟨chat, hchat, h⟩
  rw [sendMessage_of_rejected env db conversationId text userId (hnone hall)]

theorem isActiveParticipant_eq (chat : Chat) (userId : Nat)
    (hactive : ∀ p ∈ chat.participants, p.isActive = true) :
    isActiveParticipant chat userId = isParticipant chat userId := by
  unfold isActiveParticipant isParticipant
  rw [Bool.eq_iff_iff]
  simp only [List.any_eq_true, Bool.and_eq_true, decide_eq_true_eq]
  constructor
  · rintro ⟨p, hp, hid, _⟩
    exact ⟨p, hp, hid⟩
  · rintro ⟨p, hp, hid⟩
    exact ⟨p, hp, hid, hactive p hp⟩

/-- No step of the engine clears the flag `isActive`: conversations are created with the default
`true` on both participant entries, and no request writes the flag. -/
theorem engineStep_participantsActive {db db2 : Db} (step : EngineStep db db2)
    (hactive : participantsActive db) : participantsActive db2 := by
  have hnew : ∀ chat : Chat, (∀ p ∈ chat.participants, p.isActive = true) →
      ∀ c ∈ db.chats ++ [chat], ∀ p ∈ c.participants, p.isActive = true := by
    intro chat hchat c hc
    rcases List.mem_append.mp hc with hc | hc
    · exact hactive c hc
    · rw [List.mem_singleton.mp hc]
      exact hchat
  have hpair : ∀ (p1 p2 : Participant), p1.isActive = true → p2.isActive = true →
      ∀ p ∈ [p1, p2], p.isActive = true := by
    intro p1 p2 h1 h2 p hp
    rcases List.mem_cons.mp hp with rfl | hp
    · exact h1
    · rw [List.mem_singleton.mp hp]
      exact h2
  unfold participantsActive
  cases step with
  | matched env _ item1 item2 =>
    rcases createMatchChat_chats env db item1 item2 with h | ⟨user1, user2, _, _, _, h⟩
    · rw [h]
      exact hactive
    · rw [h]
      exact hnew _ (hpair _ _ rfl rfl)
  | start env _ itemId userId =>
    rcases startChat_chats env db itemId userId with
      ⟨h, _⟩ | ⟨id, item, itemOwner, currentUser, _, _, _, _, _, ⟨h, _⟩ | h⟩
    · rw [h]
      exact hactive
    · rw [h]
      exact hnew _ (hpair _ _ rfl rfl)
    · rw [h]
      exact hnew _ (hpair _ _ rfl rfl)
  | request _ _ step =>
    refine forall₂_invariant
      (fun c c2 => (∀ p ∈ c.participants, p.isActive = true) →
        ∀ p ∈ c2.participants, p.isActive = true)
      (fun c => ∀ p ∈ c.participants, p.isActive = true) (fun _ _ h => h)
      (chatStep_forall₂ _ (fun _ h => h) (fun _ _ _ h1 h2 h => h2 (h1 h))
        (fun _ _ h => h) ?_ (fun _ h => h) (fun _ _ _ h => h) (fun _ _ h => h) step)
      hactive
    intro c u t h p hp
    rcases List.mem_map.mp hp with ⟨p0, hp0, rfl⟩
    split
    · exact h p0 hp0
    · exact h p0 hp0

/-- C23: in every state reached from a store whose participant entries are all active (so from
a store without conversations) by creating conversations, through `createMatchChat` or the
start-chat route, and serving send, fetch-history, mark-read, resolve and close requests, every
participant entry is still active, and the send route is guarded: a request whose conversation
does not exist, is not in status `active`, or of which the sender is not an active participant
fails and leaves the whole state as it was (no message, no conversation field, no notification);
every failing request leaves the state as it was; and a message is persisted only when the
sender is an active participant of an active conversation. -/
theorem sendMessage_guarded (env : RouteEnv) (db0 db : Db) (conversationId text : String)
    (userId : Nat) (hinit : participantsActive db0)
    (hsteps : Relation.ReflTransGen EngineStep db0 db) :
    participantsActive db ∧
      ((∀ chat ∈ db.chats, ¬ (chat.conversationId = conversationId ∧
          chat.status = ChatStatus.active ∧ isActiveParticipant chat userId = true)) →
        (sendMessage env db conversationId text userId).1 = db ∧
          (sendMessage env db conversationId text userId).2 ≠ RouteResult.ok) ∧
      ((sendMessage env db conversationId text userId).2 ≠ RouteResult.ok →
        (sendMessage env db conversationId text userId).1 = db) ∧
      ((sendMessage env db conversationId text userId).1.messages ≠ db.messages →
        ∃ chat ∈ db.chats, chat.conversationId = conversationId ∧
          chat.status = ChatStatus.active ∧ isActiveParticipant chat userId = true) := by
  have hactive : participantsActive db := by
    induction hsteps with
    | refl => exact hinit
    | tail _ step ih => exact engineStep_participantsActive step ih
  have hmember := sendMessage_of_member env db conversationId text userId
  refine ⟨hactive, ?_, hmember.2.1, ?_⟩
  · intro hall
    apply hmember.1
    intro chat hchat h
    apply hall chat hchat
    rw [isActiveParticipant_eq chat userId (hactive chat hchat)]
    exact h
  · intro hchanged
    rcases hmember.2.2 hchanged with ⟨chat, hchat, hid, hstatus, hpart⟩
    refine ⟨chat, hchat, hid, hstatus, ?_⟩
    rw [isActiveParticipant_eq chat userId (hactive chat hchat)]
    exact hpart

/-- Witness of C23: in the store of the lost and found keys after their conversation was
created, a message of user 3, who is not a participant, is refused and changes nothing. -/
theorem sendMessage_guarded_witness :
    matchedDb.chats.map (fun chat => chat.participants.map (fun p => (p.userId, p.isActive)))
        = [[(2, true), (1, true)]] ∧
      (sendMessage routeEnv matchedDb "chat_1" "hello" 3).1 = matchedDb ∧
      (sendMessage routeEnv matchedDb "chat_1" "hello" 3).2 ≠ RouteResult.ok ∧
      (sendMessage routeEnv matchedDb "chat_1" "hello" 1).2 = RouteResult.ok :=
  ⟨rfl,
    ((sendMessage_guarded routeEnv keysDb matchedDb "chat_1" "hello" 3
      (fun chat hchat => absurd hchat (List.not_mem_nil chat))
      (Relation.ReflTransGen.single
        (EngineStep.matched calmEnv keysDb foundKeys lostKeys))).2.1
      (fun chat hchat => by
        rw [List.mem_singleton.mp (show chat ∈ [_] from hchat)]
        decide)).1,
    ((sendMessage_guarded routeEnv keysDb matchedDb "chat_1" "hello" 3
      (fun chat hchat => absurd hchat (List.not_mem_nil chat))
      (Relation.ReflTransGen.single
        (EngineStep.matched calmEnv keysDb foundKeys lostKeys))).2.1
      (fun chat hchat => by
        rw [List.mem_singleton.mp (show chat ∈ [_] from hchat)]
        decide)).2,
    rfl⟩

/-! ### Read receipts -/

/-- The update of one message by the `updateMany` of the history and read routes. -/
theorem markMessagesRead_twice (messages : List ChatMessage) (conversationId : String)
    (userId : Nat) (now now2 : Int) :
    markMessagesRead (markMessagesRead messages conversationId userId now) conversationId userId
        now2
      = markMessagesRead messages conversationId userId now := by
  unfold markMessagesRead
  rw [List.map_map]
  apply List.map_congr_left
  intro message _
  simp only [Function.comp]
  by_cases h : message.conversationId = conversationId ∧ message.senderId ≠ userId ∧
      message.readBy.all (fun receipt => decide (receipt.userId ≠ userId)) = true
  · rw [if_pos h]
    rw [if_neg]
    rintro ⟨_, _, hall⟩
    have := List.all_eq_true.mp hall ⟨userId, now⟩ (List.mem_append_right _ (List.mem_singleton_self _))
    simp only [ne_eq, not_true_eq_false, decide_False, Bool.false_eq_true] at this
  · rw [if_neg h, if_neg h]

theorem receiptCount_markMessagesRead (messages : List ChatMessage) (conversationId : String)
    (userId : Nat) (now : Int) (hone : ∀ m ∈ messages, receiptCount m userId ≤ 1) :
    ∀ m ∈ markMessagesRead messages conversationId userId now,
      m.conversationId = conversationId → m.senderId ≠ userId → receiptCount m userId = 1 := by
  intro m hm hcid hsender
  unfold markMessagesRead at hm
  rcases List.mem_map.mp hm with ⟨m0, hm0, rfl⟩
  by_cases h : m0.conversationId = conversationId ∧ m0.senderId ≠ userId ∧
      m0.readBy.all (fun receipt => decide (receipt.userId ≠ userId)) = true
  · rw [if_pos h]
    have hzero : m0.readBy.countP (fun receipt => decide (receipt.userId = userId)) = 0 := by
      rw [List.countP_eq_zero]
      intro receipt hreceipt
      have := List.all_eq_true.mp h.2.2 receipt hreceipt
      simpa using this
    simp only [receiptCount, List.countP_append, hzero, List.countP_cons, List.countP_nil,
      decide_True, if_true, zero_add]
  · rw [if_neg h] at hcid hsender ⊢
    have hsome : ¬ m0.readBy.all (fun receipt => decide (receipt.userId ≠ userId)) = true :=
      fun hall => h ⟨hcid, hsender, hall⟩
    have hpos : 0 < receiptCount m0 userId := by
      unfold receiptCount
      rw [List.countP_pos_iff]
      rw [List.all_eq_true] at hsome
      push_neg at hsome
      rcases hsome with ⟨receipt, hreceipt, hne⟩
      exact ⟨receipt, hreceipt, by simpa using hne⟩
    have := hone m0 hm0
    omega

theorem find?_updateChat (query : Chat → Bool) (update : Chat → Chat)
    (hquery : ∀ c, query (update c) = query c) :
    ∀ chats : List Chat, (updateChat query update chats).find? query = (chats.find? query).map update
  | [] => rfl
  | c :: rest => by
    unfold updateChat
    by_cases h : query c = true
    · rw [if_pos h, List.find?_cons_of_pos _ (by rw [hquery]; exact h),
        List.find?_cons_of_pos _ h]
      rfl
    · rw [if_neg h, List.find?_cons_of_neg _ h, List.find?_cons_of_neg _ h]
      exact find?_updateChat query update hquery rest

theorem updateChat_twice (query : Chat → Bool) (update : Chat → Chat)
    (hquery : ∀ c, query (update c) = query c) (hupdate : ∀ c, update (update c) = update c) :
    ∀ chats : List Chat,
      updateChat query update (updateChat query update chats) = updateChat query update chats
  | [] => rfl
  | c :: rest => by
    by_cases h : query c = true
    · rw [updateChat, if_pos h, updateChat, if_pos (by rw [hquery]; exact h), hupdate]
    · rw [updateChat, if_neg h, updateChat, if_neg h, updateChat_twice query update hquery hupdate rest]

theorem markRead_of_member (env : RouteEnv) (db : Db) (conversationId : String) (userId : Nat)
    (hmember : (db.chats.find? (memberQuery conversationId userId)).isSome = true) :
    markRead env db conversationId userId
      = ({ db with
            messages := markMessagesRead db.messages conversationId userId env.now
            chats := updateChat (memberQuery conversationId userId)
              (fun c => { c with unreadCount := 0 }) db.chats },
         RouteResult.ok) := by
  rcases Option.isSome_iff_exists.mp hmember with ⟨chat, hchat⟩
  unfold markRead
  rw [hchat]

theorem isParticipant_seen (chat : Chat) (userId other : Nat) (now : Int) :
    isParticipant
        { chat with
          participants := chat.participants.map (fun p =>
            if p.userId = userId then { p with lastSeen := now } else p) } other
      = isParticipant chat other := by
  unfold isParticipant
  simp only [List.any_map]
  congr 1
  funext p
  simp only [Function.comp]
  split <;> rfl

theorem fetchHistory_of_member (env : RouteEnv) (db : Db) (conversationId : String)
    (userId : Nat)
    (hmember : (db.chats.find? (memberQuery conversationId userId)).isSome = true) :
    (fetchHistory env db conversationId userId).1
      = { db with
          messages := markMessagesRead db.messages conversationId userId env.now
          chats := updateChat (memberQuery conversationId userId)
            (fun c => { c with unreadCount := 0 })
            (updateChat (memberQuery conversationId userId)
              (fun c => { c with
                participants := c.participants.map (fun p =>
                  if p.userId = userId then { p with lastSeen := env.later } else p) })
              db.chats) } := by
  rcases Option.isSome_iff_exists.mp hmember with ⟨chat, hchat⟩
  unfold fetchHistory
  rw [hchat]

/-- C24: for a participant `u` of a conversation, when no message carries more than one receipt
of a user, one mark-read request by `u` leaves every message of the conversation that `u` did
not send with exactly one receipt of `u` and the conversation with `unreadCount` 0, and a second
mark-read request by `u`, at any later time, leaves the whole state (every `readBy` list with
its `readAt` values, every `unreadCount`) as the first one left it.  The history route marks
messages read in the same way: the same holds for the receipts and the unread counter after one
and after two fetches. -/
theorem markRead_idempotent (env env2 : RouteEnv) (db : Db) (conversationId : String)
    (userId : Nat)
    (hmember : (db.chats.find? (memberQuery conversationId userId)).isSome = true)
    (hone : ∀ m ∈ db.messages, ∀ reader, receiptCount m reader ≤ 1) :
    (∀ m ∈ (markRead env db conversationId userId).1.messages,
        m.conversationId = conversationId → m.senderId ≠ userId → receiptCount m userId = 1) ∧
      (∃ chat, (markRead env db conversationId userId).1.chats.find?
          (memberQuery conversationId userId) = some chat ∧ chat.unreadCount = 0) ∧
      markRead env2 (markRead env db conversationId userId).1 conversationId userId
        = ((markRead env db conversationId userId).1, RouteResult.ok) ∧
      (∀ m ∈ (fetchHistory env db conversationId userId).1.messages,
        m.conversationId = conversationId → m.senderId ≠ userId → receiptCount m userId = 1) ∧
      (∃ chat, (fetchHistory env db conversationId userId).1.chats.find?
          (memberQuery conversationId userId) = some chat ∧ chat.unreadCount = 0) ∧
      (fetchHistory env2 (fetchHistory env db conversationId userId).1 conversationId
          userId).1.messages
        = (fetchHistory env db conversationId userId).1.messages ∧
      (∃ chat, (fetchHistory env2 (fetchHistory env db conversationId userId).1 conversationId
          userId).1.chats.find? (memberQuery conversationId userId) = some chat ∧
        chat.unreadCount = 0) := by
  rcases Option.isSome_iff_exists.mp hmember with ⟨chat, hchat⟩
  have hread : ∀ c : Chat, memberQuery conversationId userId { c with unreadCount := 0 }
      = memberQuery conversationId userId c := fun _ => rfl
  have hseen : ∀ (t : Int) (c : Chat), memberQuery conversationId userId
      { c with participants := c.participants.map (fun p =>
          if p.userId = userId then { p with lastSeen := t } else p) }
      = memberQuery conversationId userId c := by
    intro t c
    unfold memberQuery
    rw [isParticipant_seen]
  have hone2 : ∀ m ∈ db.messages, receiptCount m userId ≤ 1 := fun m hm => hone m hm userId
  have hfetched : ∀ (e : RouteEnv) (d : Db),
      (d.chats.find? (memberQuery conversationId userId)).isSome = true →
      ∃ c, (fetchHistory e d conversationId userId).1.chats.find?
        (memberQuery conversationId userId) = some c ∧ c.unreadCount = 0 := by
    intro e d hd
    rcases Option.isSome_iff_exists.mp hd with ⟨c, hc⟩
    rw [fetchHistory_of_member e d conversationId userId hd]
    show ∃ c0, (updateChat _ _ (updateChat _ _ d.chats)).find? _ = some c0 ∧ c0.unreadCount = 0
    rw [find?_updateChat _ _ hread, find?_updateChat _ _ (hseen e.later), hc]
    exact ⟨_, rfl, rfl⟩
  have hmember2 : ((markRead env db conversationId userId).1.chats.find?
      (memberQuery conversationId userId)).isSome = true := by
    rw [markRead_of_member env db conversationId userId hmember]
    show ((updateChat _ _ db.chats).find? _).isSome = true
    rw [find?_updateChat _ _ hread, hchat]
    rfl
  have hmember3 : ((fetchHistory env db conversationId userId).1.chats.find?
      (memberQuery conversationId userId)).isSome = true := by
    rcases hfetched env db hmember with ⟨c, hc, _⟩
    rw [hc]
    rfl
  refine ⟨?_, ?_, ?_, ?_, hfetched env db hmember, ?_, hfetched env2 _ hmember3⟩
  · rw [markRead_of_member env db conversationId userId hmember]
    exact receiptCount_markMessagesRead db.messages conversationId userId env.now hone2
  · rw [markRead_of_member env db conversationId userId hmember]
    show ∃ c0, (updateChat _ _ db.chats).find? _ = some c0 ∧ c0.unreadCount = 0
    rw [find?_updateChat _ _ hread, hchat]
    exact ⟨_, rfl, rfl⟩
  · rw [markRead_of_member env2 _ conversationId userId hmember2,
      markRead_of_member env db conversationId userId hmember]
    simp only [markMessagesRead_twice, updateChat_twice _ _ hread (fun _ => rfl)]
  · rw [fetchHistory_of_member env db conversationId userId hmember]
    exact receiptCount_markMessagesRead db.messages conversationId userId env.now hone2
  · rw [fetchHistory_of_member env2 _ conversationId userId hmember3,
      fetchHistory_of_member env db conversationId userId hmember]
    exact markMessagesRead_twice db.messages conversationId userId env.now env2.now

/-- Witness of C24: Alice reads the conversation of the lost and found keys twice; the welcome
message keeps the one receipt of the first request. -/
theorem markRead_idempotent_witness :
    (matchedDb.chats.find? (memberQuery "chat_1" 1)).isSome = true ∧
      (markRead routeEnv matchedDb "chat_1" 1).1.messages.map (fun m => (m.senderId, m.readBy))
        = [(2, [{ userId := 1, readAt := 2000 }])] ∧
      markRead routeEnv2 (markRead routeEnv matchedDb "chat_1" 1).1 "chat_1" 1
        = ((markRead routeEnv matchedDb "chat_1" 1).1, RouteResult.ok) :=
  ⟨rfl, rfl,
    (markRead_idempotent routeEnv routeEnv2 matchedDb "chat_1" 1 rfl
      (fun m hm reader => by
        rw [List.mem_singleton.mp (show m ∈ [_] from hm)]
        exact Nat.zero_le 1)).2.2.1⟩

/-! ### Resolving twice -/

/-- C25, as stated, fails: after Bob resolved `chat_1`, a second resolve call, by Alice, is
accepted, overwrites the stored resolution, and appends a second system message and a second
`item_resolved` notification. -/
theorem resolveChat_counterexample :
    resolvedDb.chats.map (fun chat => (chat.status, chat.resolution))
        = [(ChatStatus.resolved,
            { resolvedAt := some 2000, resolvedBy := some 2,
              resolutionNotes := some "returned at the gate", itemReturned := true })] ∧
      (resolveChat routeEnv2 resolvedDb "chat_1" 1 none false).2 = RouteResult.ok ∧
      (resolveChat routeEnv2 resolvedDb "chat_1" 1 none false).1.chats.map
          (fun chat => (chat.status, chat.resolution))
        = [(ChatStatus.resolved,
            { resolvedAt := some 3000, resolvedBy := some 1,
              resolutionNotes := some "", itemReturned := false })] ∧
      resolvedDb.messages.map (fun message => message.type)
        = [MessageType.system, MessageType.system] ∧
      (resolveChat routeEnv2 resolvedDb "chat_1" 1 none false).1.messages.map
          (fun message => message.type)
        = [MessageType.system, MessageType.system, MessageType.system] ∧
      resolvedDb.notifications.map (fun n => n.type) = [NotificationType.item_resolved] ∧
      (resolveChat routeEnv2 resolvedDb "chat_1" 1 none false).1.notifications.map
          (fun n => n.type)
        = [NotificationType.item_resolved, NotificationType.item_resolved] := by
  refine ⟨rfl, rfl, rfl, rfl, rfl, rfl, rfl⟩

/-- C25, amended: the resolve route does not look at the status.  Every resolve request by a
participant whose user document exists and whose system message is valid succeeds, also on a
conversation that is already resolved: it sets the status to `resolved` and the stored
resolution to the values of this request, appends one system message and, when the conversation
has another participant, one `item_resolved` notification. -/
theorem resolveChat_overwrites (env : RouteEnv) (db : Db) (conversationId : String)
    (userId : Nat) (resolutionNotes : Option String) (itemReturned : Bool) (user : User)
    (hmember : (db.chats.find? (memberQuery conversationId userId)).isSome = true)
    (huser : db.users.find? (fun u => decide (u._id = userId)) = some user)
    (hvalid : messageValid db
      { messageId := env.messageId, conversationId := conversationId, senderId := userId,
        senderUsername := user.name, text := resolveText user itemReturned,
        type := MessageType.system } = true) :
    (resolveChat env db conversationId userId resolutionNotes itemReturned).2 = RouteResult.ok ∧
      (∃ chat,
        (resolveChat env db conversationId userId resolutionNotes itemReturned).1.chats.find?
            (memberQuery conversationId userId) = some chat ∧
          chat.status = ChatStatus.resolved ∧
          chat.resolution =
            { resolvedAt := some env.now, resolvedBy := some userId,
              resolutionNotes := some (resolutionNotes.getD ""),
              itemReturned := itemReturned }) ∧
      (resolveChat env db conversationId userId resolutionNotes itemReturned).1.messages
        = db.messages ++
          [{ messageId := env.messageId, conversationId := conversationId, senderId := userId,
             senderUsername := user.name, text := resolveText user itemReturned,
             type := MessageType.system }] ∧
      (∀ chat other, db.chats.find? (memberQuery conversationId userId) = some chat →
        chat.participants.find? (fun p => decide (p.userId ≠ userId)) = some other →
        (resolveChat env db conversationId userId resolutionNotes itemReturned).1.notifications
          = db.notifications ++
            [{ user := other.userId, type := NotificationType.item_resolved,
               item := some chat.item, sender := some userId,
               conversationId := some conversationId }]) := by
  rcases Option.isSome_iff_exists.mp hmember with ⟨chat, hchat⟩
  have hvalid2 : ∀ chats : List Chat, messageValid { db with chats := chats }
      { messageId := env.messageId, conversationId := conversationId, senderId := userId,
        senderUsername := user.name, text := resolveText user itemReturned,
        type := MessageType.system } = true := fun _ => hvalid
  have hfind : ∀ chats2 : List Chat,
      chats2 = updateChat (memberQuery conversationId userId)
          (fun c => { c with
            status := ChatStatus.resolved
            resolution :=
              { resolvedAt := some env.now, resolvedBy := some userId,
                resolutionNotes := some (resolutionNotes.getD ""), itemReturned := itemReturned }
            lastActivity := env.later }) db.chats →
      ∃ c, chats2.find? (memberQuery conversationId userId) = some c ∧
        c.status = ChatStatus.resolved ∧
        c.resolution =
          { resolvedAt := some env.now, resolvedBy := some userId,
            resolutionNotes := some (resolutionNotes.getD ""),
            itemReturned := itemReturned } := by
    intro chats2 h
    have hquery : ∀ c : Chat, memberQuery conversationId userId
        { c with
          status := ChatStatus.resolved
          resolution :=
            { resolvedAt := some env.now, resolvedBy := some userId,
              resolutionNotes := some (resolutionNotes.getD ""), itemReturned := itemReturned }
          lastActivity := env.later }
        = memberQuery conversationId userId c := fun _ => rfl
    rw [h, find?_updateChat _ _ hquery, hchat]
    exact ⟨_, rfl, rfl, rfl⟩
  unfold resolveChat
  rw [hchat]
  simp only [huser, hvalid2, Bool.not_true, Bool.false_eq_true, if_false]
  split
  · rename_i other hother
    refine ⟨rfl, hfind _ rfl, rfl, ?_⟩
    intro chat2 other2 h2 hother2
    cases h2
    rw [hother] at hother2
    cases hother2
    rfl
  · rename_i hother
    refine ⟨rfl, hfind _ rfl, rfl, ?_⟩
    intro chat2 other2 h2 hother2
    cases h2
    rw [hother] at hother2
    cases hother2

/-- Witness of C25: Alice resolves the conversation that Bob already resolved. -/
theorem resolveChat_overwrites_witness :
    resolvedDb.chats.map (fun chat => chat.status) = [ChatStatus.resolved] ∧
      (resolveChat routeEnv2 resolvedDb "chat_1" 1 none false).2 = RouteResult.ok ∧
      (∃ chat,
        (resolveChat routeEnv2 resolvedDb "chat_1" 1 none false).1.chats.find?
            (memberQuery "chat_1" 1) = some chat ∧
          chat.status = ChatStatus.resolved ∧
          chat.resolution =
            { resolvedAt := some 3000, resolvedBy := some 1, resolutionNotes := some "",
              itemReturned := false }) :=
  ⟨rfl,
    (resolveChat_overwrites routeEnv2 resolvedDb "chat_1" 1 none false alice rfl rfl rfl).1,
    (resolveChat_overwrites routeEnv2 resolvedDb "chat_1" 1 none false alice rfl rfl rfl).2.1⟩

/-! ### The status of a conversation -/

/-- C26, as stated, fails: a close request on the resolved conversation is accepted and changes
its status from `resolved` to `closed`, and a resolve request then brings it back to
`resolved`. -/
theorem chatStatus_counterexample :
    resolvedDb.chats.map (fun chat => chat.status) = [ChatStatus.resolved] ∧
      (closeChat routeEnv2 resolvedDb "chat_1" 1).2 = RouteResult.ok ∧
      (closeChat routeEnv2 resolvedDb "chat_1" 1).1.chats.map (fun chat => chat.status)
        = [ChatStatus.closed] ∧
      (resolveChat routeEnv3
          (closeChat routeEnv2 resolvedDb "chat_1" 1).1 "chat_1" 2 none false).1.chats.map
          (fun chat => chat.status)
        = [ChatStatus.resolved] := by
  refine ⟨rfl, rfl, rfl, rfl⟩

/-- C26, amended: along every sequence of send, fetch-history, mark-read, resolve and close
requests each conversation keeps its id, a status that is `resolved` or `closed` stays one of
these two (so it never returns to `active`), and no status becomes `archived`; send,
fetch-history and mark-read leave every status as it was. -/
theorem chatStatus_over (db db2 : Db) (hsteps : Relation.ReflTransGen ChatStep db db2) :
    List.Forall₂
        (fun c c2 => c2.conversationId = c.conversationId ∧
          (isOver c.status → isOver c2.status ∧ c2.status ≠ ChatStatus.active) ∧
          (c.status ≠ ChatStatus.archived → c2.status ≠ ChatStatus.archived))
        db.chats db2.chats ∧
      (∀ (env : RouteEnv) (conversationId text : String) (userId : Nat),
        (sendMessage env db conversationId text userId).1.chats.map (fun c => c.status)
          = db.chats.map (fun c => c.status)) ∧
      (∀ (env : RouteEnv) (conversationId : String) (userId : Nat),
        (fetchHistory env db conversationId userId).1.chats.map (fun c => c.status)
          = db.chats.map (fun c => c.status)) ∧
      (∀ (env : RouteEnv) (conversationId : String) (userId : Nat),
        (markRead env db conversationId userId).1.chats.map (fun c => c.status)
          = db.chats.map (fun c => c.status)) := by
  have hactive : ∀ s : ChatStatus, isOver s → s ≠ ChatStatus.active := by
    intro s hs h
    rcases hs with hs | hs <;> rw [h] at hs <;> cases hs
  refine ⟨?_, ?_, ?_, ?_⟩
  · refine chatSteps_forall₂ _ ?_ ?_ ?_ ?_ ?_ ?_ ?_ hsteps
    · exact fun c => ⟨rfl, fun h => ⟨h, hactive _ h⟩, fun h => h⟩
    · intro a b c hab hbc
      exact ⟨hbc.1.trans hab.1, fun h => hbc.2.1 (hab.2.1 h).1, fun h => hbc.2.2 (hab.2.2 h)⟩
    · exact fun c _ => ⟨rfl, fun h => ⟨h, hactive _ h⟩, fun h => h⟩
    · exact fun c _ _ => ⟨rfl, fun h => ⟨h, hactive _ h⟩, fun h => h⟩
    · exact fun c => ⟨rfl, fun h => ⟨h, hactive _ h⟩, fun h => h⟩
    · exact fun c _ _ => ⟨rfl, fun _ => ⟨Or.inl rfl, fun h => by cases h⟩, fun _ h => by cases h⟩
    · exact fun c _ => ⟨rfl, fun _ => ⟨Or.inr rfl, fun h => by cases h⟩, fun _ h => by cases h⟩
  · intro env conversationId text userId
    exact forall₂_map_eq (fun c => c.status)
      (sendMessage_forall₂ (fun c c2 => c2.status = c.status) (fun _ => rfl)
        (fun _ _ => rfl) env db conversationId text userId)
  · intro env conversationId userId
    exact forall₂_map_eq (fun c => c.status)
      (fetchHistory_forall₂ (fun c c2 => c2.status = c.status) (fun _ => rfl)
        (fun _ _ _ h1 h2 => h2.trans h1) (fun _ _ _ => rfl) (fun _ => rfl)
        env db conversationId userId)
  · intro env conversationId userId
    exact forall₂_map_eq (fun c => c.status)
      (markRead_forall₂ (fun c c2 => c2.status = c.status) (fun _ => rfl) (fun _ => rfl)
        env db conversationId userId)

/-- Witness of C26: the resolved conversation of the lost and found keys is closed and then
resolved again: its status stays among `resolved` and `closed`. -/
theorem chatStatus_over_witness :
    resolvedDb.chats.map (fun c => c.status) = [ChatStatus.resolved] ∧
      (List.Forall₂
          (fun c c2 => c2.conversationId = c.conversationId ∧
            (isOver c.status → isOver c2.status ∧ c2.status ≠ ChatStatus.active) ∧
            (c.status ≠ ChatStatus.archived → c2.status ≠ ChatStatus.archived))
          resolvedDb.chats
          (resolveChat routeEnv3 (closeChat routeEnv2 resolvedDb "chat_1" 1).1 "chat_1" 2 none
            false).1.chats ∧
        (∀ (env : RouteEnv) (conversationId text : String) (userId : Nat),
          (sendMessage env resolvedDb conversationId text userId).1.chats.map (fun c => c.status)
            = resolvedDb.chats.map (fun c => c.status)) ∧
        (∀ (env : RouteEnv) (conversationId : String) (userId : Nat),
          (fetchHistory env resolvedDb conversationId userId).1.chats.map (fun c => c.status)
            = resolvedDb.chats.map (fun c => c.status)) ∧
        (∀ (env : RouteEnv) (conversationId : String) (userId : Nat),
          (markRead env resolvedDb conversationId userId).1.chats.map (fun c => c.status)
            = resolvedDb.chats.map (fun c => c.status))) :=
  ⟨rfl, chatStatus_over resolvedDb _
    (Relation.ReflTransGen.tail
      (Relation.ReflTransGen.single (ChatStep.close routeEnv2 resolvedDb "chat_1" 1))
      (ChatStep.resolve routeEnv3 (closeChat routeEnv2 resolvedDb "chat_1" 1).1 "chat_1" 2 none
        false))⟩

/-! ### The unread counter -/

theorem engineStep_unreadCount {db db2 : Db} (step : EngineStep db db2)
    (hzero : ∀ c ∈ db.chats, c.unreadCount = 0) : ∀ c ∈ db2.chats, c.unreadCount = 0 := by
  cases step with
  | matched env _ item1 item2 =>
    rcases createMatchChat_chats env db item1 item2 with h | ⟨user1, user2, _, _, _, h⟩
    · rw [h]; exact hzero
    · rw [h]
      intro c hc
      rcases List.mem_append.mp hc with hc | hc
      · exact hzero c hc
      · rw [List.mem_singleton.mp hc]; rfl
  | start env _ itemId userId =>
    rcases startChat_chats env db itemId userId with
      ⟨h, _⟩ | ⟨id, item, itemOwner, currentUser, _, _, _, _, _, ⟨h, _⟩ | h⟩
    · rw [h]; exact hzero
    · rw [h]
      intro c hc
      rcases List.mem_append.mp hc with hc | hc
      · exact hzero c hc
      · rw [List.mem_singleton.mp hc]; rfl
    · rw [h]
      intro c hc
      rcases List.mem_append.mp hc with hc | hc
      · exact hzero c hc
      · rw [List.mem_singleton.mp hc]; rfl
  | request _ _ step =>
    exact forall₂_invariant (fun c c2 => c.unreadCount = 0 → c2.unreadCount = 0)
      (fun c => c.unreadCount = 0) (fun _ _ h => h)
      (chatStep_forall₂ _ (fun _ h => h) (fun _ _ _ h1 h2 h => h2 (h1 h))
        (fun _ _ h => h) (fun _ _ _ h => h) (fun _ _ => rfl) (fun _ _ _ h => h) (fun _ _ h => h)
        step)
      hzero

/-- C29: in every state reached from a store whose conversations all have `unreadCount` 0 (so
from a store without conversations) by creating conversations, through `createMatchChat` or the
start-chat route, and serving send, fetch-history, mark-read, resolve and close requests, every
conversation has `unreadCount` 0; and a send request leaves every `unreadCount` as it was. -/
theorem unreadCount_never_raised (db db2 : Db) (hzero : ∀ c ∈ db.chats, c.unreadCount = 0)
    (hsteps : Relation.ReflTransGen EngineStep db db2) :
    (∀ c ∈ db2.chats, c.unreadCount = 0) ∧
      ∀ (env : RouteEnv) (conversationId text : String) (userId : Nat),
        (sendMessage env db2 conversationId text userId).1.chats.map (fun c => c.unreadCount)
          = db2.chats.map (fun c => c.unreadCount) := by
  constructor
  · induction hsteps with
    | refl => exact hzero
    | tail _ step ih => exact engineStep_unreadCount step ih
  · intro env conversationId text userId
    exact forall₂_map_eq (fun c => c.unreadCount)
      (sendMessage_forall₂ (fun c c2 => c2.unreadCount = c.unreadCount) (fun _ => rfl)
        (fun _ _ => rfl) env db2 conversationId text userId)

/-- Witness of C29: a conversation is created for the lost and found keys and Alice sends a message
in it: its `unreadCount` is still 0. -/
theorem unreadCount_never_raised_witness :
    (sendMessage routeEnv matchedDb "chat_1" "hello" 1).1.chats.map
        (fun c => (c.totalMessages, c.unreadCount)) = [(1, 0)] ∧
      ((∀ c ∈ (sendMessage routeEnv matchedDb "chat_1" "hello" 1).1.chats, c.unreadCount = 0) ∧
        ∀ (env : RouteEnv) (conversationId text : String) (userId : Nat),
          (sendMessage env (sendMessage routeEnv matchedDb "chat_1" "hello" 1).1
              conversationId text userId).1.chats.map (fun c => c.unreadCount)
            = (sendMessage routeEnv matchedDb "chat_1" "hello" 1).1.chats.map
                (fun c => c.unreadCount)) :=
  ⟨rfl, unreadCount_never_raised keysDb _ (fun c hc => absurd hc (List.not_mem_nil c))
    (Relation.ReflTransGen.tail
      (Relation.ReflTransGen.single (EngineStep.matched calmEnv keysDb foundKeys lostKeys))
      (EngineStep.request _ _ (ChatStep.send routeEnv matchedDb "chat_1" "hello" 1)))⟩

end ChatRoutes

end CampusFinder
